import Mathlib

/-!
Valentine platformer: a shallow embedding of `game.js`.

The game keeps one mutable bundle (player, enemies, score, camera, collected
hearts) that `updatePlayer`, `checkHeartCollection` and `updateCamera` mutate
once per frame.  Here every such function is a pure function on explicit state.

Numbers: JavaScript numbers are modelled as exact rationals (`ℚ`), so rounding
of doubles is not part of the model.  `Math.floor` and `Math.ceil` are
`Int.floor` and `Int.ceil`.  `Math.pow(FRICTION, dt)` is a real power and has
no rational value in general: `updatePlayer` takes it as the parameter `pw`
(`pw dt` stands for `Math.pow(0.82, dt)`).  `Math.sqrt(d) < r` is compared on
squares.  Particles, pop-ups, screen shake and sound effects are write-only
for the functions embedded here and are left out of the state.
-/

namespace Valentine

/-! ## Core constants (`game.js` lines 14-39, `sprites.js` line 5) -/

def RENDER_W : ℚ := 400
def TS : ℚ := 16
def GRAVITY : ℚ := 4 / 10
def JUMP_FORCE : ℚ := -7
def MOVE_SPEED : ℚ := 23 / 10
def MAX_FALL : ℚ := 7
def FRICTION : ℚ := 82 / 100
def PLAYER_W : ℚ := 10
def PLAYER_H : ℚ := 15
def COYOTE_FRAMES : ℚ := 7
def JUMP_BUFFER_FRAMES : ℚ := 8
def INVINCIBLE_FRAMES : ℚ := 90
def SQUASH_RETURN : ℚ := 12 / 100
def CAM_LOOK_AHEAD : ℚ := 25
def CAM_SMOOTH : ℚ := 8 / 100
def SCORE_HEART : ℕ := 100
def SCORE_STOMP : ℕ := 200
def SCORE_LEVEL : ℕ := 1000

/-! ## Data model -/

/-- Animation state of the player: the strings 'idle', 'run', 'jump', 'fall'. -/
inductive AnimState where
  | idle
  | run
  | jump
  | fall
  deriving DecidableEq, Repr

/-- Enemy types of `levels.js`: 'broken_heart', 'teardrop', 'thorn'. -/
inductive EnemyType where
  | broken_heart
  | teardrop
  | thorn
  deriving DecidableEq, Repr

/-- The `player` object (`game.js` lines 70-83). -/
structure Player where
  x : ℚ
  y : ℚ
  vx : ℚ
  vy : ℚ
  onGround : Bool
  facing : ℤ
  animFrame : ℕ
  animTimer : ℚ
  state : AnimState
  heartsCollected : ℕ
  lastSafeX : ℚ
  lastSafeY : ℚ
  coyoteTimer : ℚ
  jumpBufferTimer : ℚ
  invincibleTimer : ℚ
  squashX : ℚ
  squashY : ℚ
  combo : ℕ
  wasJumpPressed : Bool
  deriving DecidableEq

/-- One entry of `enemies` as built by `loadLevel` (`game.js` lines 406-420). -/
structure Enemy where
  type : EnemyType
  x : ℚ
  y : ℚ
  w : ℚ
  h : ℚ
  vx : ℚ
  vy : ℚ
  patrolLeft : ℚ
  patrolRight : ℚ
  facing : ℤ
  alive : Bool
  animFrame : ℕ
  deathTimer : ℚ
  deriving DecidableEq

/-- An enemy placement of `levels.js`; the patrol bounds are optional. -/
structure EnemyDef where
  type : EnemyType
  x : ℚ
  y : ℚ
  patrolLeft : Option ℚ
  patrolRight : Option ℚ
  deriving DecidableEq

/-- One element of `LEVELS` (`levels.js`): music theme, start cell, placements and rows. -/
structure Level where
  theme : String
  playerStartX : ℚ
  playerStartY : ℚ
  enemies : List EnemyDef
  map : List String
  deriving DecidableEq

/-- The value `level.width` computed in `levels.js` line 240: the longest row (rows are
ASCII, one character per tile).  For a map without rows the source yields `-Infinity`; the
model yields 0, and `getTile` is blank everywhere in both. -/
def Level.width (L : Level) : ℤ :=
  ((L.map.map fun r => r.data.length).foldl max 0 : ℕ)

/-- The value `level.height` computed in `levels.js` line 241. -/
def Level.height (L : Level) : ℤ := (L.map.length : ℕ)

/-- The value `level.totalHearts` computed in `levels.js` lines 233-239. -/
def Level.totalHearts (L : Level) : ℕ :=
  (L.map.map fun r => r.data.count 'H').sum

/-- The mutable globals of `game.js` that the embedded functions read or write. -/
structure Game where
  levelData : Level
  currentLevel : ℕ
  player : Player
  enemies : List Enemy
  score : ℕ
  camera : ℚ
  collectedHearts : List (ℤ × ℤ)
  deriving DecidableEq

/-- The three intents read through `isPressed` in one frame. -/
structure Input where
  left : Bool
  right : Bool
  jump : Bool
  deriving DecidableEq

/-! ## Tile queries (`game.js` lines 933-943) -/

/-- The function `getTile(col, row)`: a blank outside the grid or past a short row. -/
def getTile (L : Level) (col row : ℤ) : Char :=
  if row < 0 ∨ row ≥ L.height ∨ col < 0 ∨ col ≥ L.width then ' '
  else
    match L.map[row.toNat]? with
    | none => ' '
    | some rowStr =>
      match rowStr.data[col.toNat]? with
      | none => ' '
      | some c => c

/-- The function `isSolid(col, row)`. -/
def isSolid (L : Level) (col row : ℤ) : Bool :=
  let t := getTile L col row
  t = '#' || t = 'G' || t = '='

/-- The integers `lo, lo+1, ..., hi` visited by `for (let i = lo; i <= hi; i++)`. -/
def cellRange (lo hi : ℤ) : List ℤ :=
  (List.range (hi - lo + 1).toNat).map fun (i : ℕ) => lo + (i : ℤ)

/-! ## Collision resolution (`game.js` lines 945-996) -/

/-- Body of the inner loop of `resolveCollisionX` for one cell. -/
def collideCellX (L : Level) (row : ℤ) (p : Player) (col : ℤ) : Player :=
  if isSolid L col row then
    if p.vx > 0 then { p with x := col * TS - PLAYER_W, vx := 0 }
    else if p.vx < 0 then { p with x := (col + 1) * TS, vx := 0 }
    else
      let overlapLeft := (p.x + PLAYER_W) - col * TS
      let overlapRight := (col + 1) * TS - p.x
      if overlapLeft < overlapRight then { p with x := col * TS - PLAYER_W }
      else { p with x := (col + 1) * TS }
  else p

/-- The function `resolveCollisionX()`: the cell bounds are read once, before the loops. -/
def resolveCollisionX (L : Level) (p : Player) : Player :=
  let left := ⌊p.x / TS⌋
  let right := ⌊(p.x + PLAYER_W - 1) / TS⌋
  let top := ⌊p.y / TS⌋
  let bottom := ⌊(p.y + PLAYER_H - 1) / TS⌋
  (cellRange top bottom).foldl
    (fun q row => (cellRange left right).foldl (collideCellX L row) q) p

/-- Body of the inner loop of `resolveCollisionY` for one cell. -/
def collideCellY (L : Level) (row : ℤ) (p : Player) (col : ℤ) : Player :=
  if isSolid L col row then
    if p.vy > 0 then { p with y := row * TS - PLAYER_H, vy := 0, onGround := true }
    else if p.vy < 0 then { p with y := (row + 1) * TS, vy := 0 }
    else p
  else p

/-- The function `resolveCollisionY()`: clears `onGround`, then visits the cells. -/
def resolveCollisionY (L : Level) (p : Player) : Player :=
  let left := ⌊p.x / TS⌋
  let right := ⌊(p.x + PLAYER_W - 1) / TS⌋
  let top := ⌊p.y / TS⌋
  let bottom := ⌊(p.y + PLAYER_H - 1) / TS⌋
  (cellRange top bottom).foldl
    (fun q row => (cellRange left right).foldl (collideCellY L row) q)
    { p with onGround := false }

/-! ## `updatePlayer`, phase by phase (`game.js` lines 588-894) -/

/-- The value `jumpJustPressed` (line 594). -/
def jumpJustPressed (inp : Input) (p : Player) : Bool :=
  inp.jump && !p.wasJumpPressed

/-- The value `jumpJustReleased` (line 595). -/
def jumpJustReleased (inp : Input) (p : Player) : Bool :=
  !inp.jump && p.wasJumpPressed

/-- Lines 596-602: remember the jump key and run the jump buffer. The subtraction is exact
here; the source rounds the difference to a double. -/
def trackInput (inp : Input) (dt : ℚ) (p : Player) : Player :=
  let p1 := { p with wasJumpPressed := inp.jump }
  let p2 := if jumpJustPressed inp p then
      { p1 with jumpBufferTimer := JUMP_BUFFER_FRAMES } else p1
  if p2.jumpBufferTimer > 0 then
    { p2 with jumpBufferTimer := p2.jumpBufferTimer - dt } else p2

/-- Lines 605-607: `moveDir`, where right overrides left. -/
def moveDir (inp : Input) : ℤ :=
  if inp.right then 1 else if inp.left then -1 else 0

/-- Lines 609-618: acceleration on input, friction otherwise. -/
def horizontal (pw : ℚ → ℚ) (inp : Input) (dt : ℚ) (p : Player) : Player :=
  if moveDir inp ≠ 0 then
    let vx1 := p.vx + (moveDir inp : ℚ) * MOVE_SPEED * (3 / 10) * dt
    { p with
      vx := max (-MOVE_SPEED) (min MOVE_SPEED vx1)
      facing := moveDir inp
      state := if p.onGround then AnimState.run
               else if p.vy < 0 then AnimState.jump else AnimState.fall }
  else
    let vx1 := p.vx * pw dt
    let vx2 := if |vx1| < 1 / 10 then 0 else vx1
    { p with vx := vx2, state := if p.onGround then AnimState.idle else p.state }

/-- The value `canJump` (line 621). -/
def canJump (p : Player) : Bool :=
  p.onGround || decide (p.coyoteTimer > 0)

/-- The value `wantsJump` (line 622); `jjp` is `jumpJustPressed`. -/
def wantsJump (jjp : Bool) (p : Player) : Bool :=
  jjp || decide (p.jumpBufferTimer > 0)

/-- Lines 624-649: the jump impulse. -/
def jumpExecution (jjp : Bool) (p : Player) : Player :=
  if wantsJump jjp p && canJump p then
    { p with
      vy := JUMP_FORCE
      onGround := false
      coyoteTimer := 0
      jumpBufferTimer := 0
      state := AnimState.jump
      squashX := 3 / 4
      squashY := 5 / 4 }
  else p

/-- Lines 652-654: early release halves an upward velocity; `jjr` is `jumpJustReleased`. -/
def variableJump (jjr : Bool) (p : Player) : Player :=
  if jjr && decide (p.vy < -1) then { p with vy := p.vy * (1 / 2) } else p

/-- Lines 657-659. -/
def airState (p : Player) : Player :=
  if !p.onGround then
    { p with state := if p.vy < 0 then AnimState.jump else AnimState.fall }
  else p

/-- Lines 662-663. -/
def gravity (dt : ℚ) (p : Player) : Player :=
  let vy1 := p.vy + GRAVITY * dt
  { p with vy := if vy1 > MAX_FALL then MAX_FALL else vy1 }

/-- Lines 666-668: horizontal move, then `resolveCollisionX`. -/
def moveX (L : Level) (dt : ℚ) (p : Player) : Player :=
  resolveCollisionX L { p with x := p.x + p.vx * dt }

/-- The value `steps` (line 688). -/
def subSteps (vyStep : ℚ) : ℤ :=
  max 1 ⌈|vyStep| / (TS * (8 / 10))⌉

/-- One pass of the loop body of lines 690-693. -/
def subStepY (L : Level) (vyPerStep : ℚ) (p : Player) : Player :=
  resolveCollisionY L { p with y := p.y + vyPerStep }

/-- Lines 687-693: the sub-stepped vertical move; `vyPerStep` is fixed before the loop. -/
def moveY (L : Level) (dt : ℚ) (p : Player) : Player :=
  let vyStep := p.vy * dt
  let steps := subSteps vyStep
  let vyPerStep := vyStep / (steps : ℚ)
  (List.range steps.toNat).foldl (fun q _ => subStepY L vyPerStep q) p

/-- Lines 696-705: arm, decay and clear the coyote timer. The subtraction is exact here; the
source rounds the difference to a double. -/
def coyoteTime (wasOnGround : Bool) (dt : ℚ) (p : Player) : Player :=
  let p1 := if wasOnGround && !p.onGround && decide (p.vy > 0) then
      { p with coyoteTimer := COYOTE_FRAMES } else p
  let p2 := if decide (p1.coyoteTimer > 0) && !p1.onGround then
      { p1 with coyoteTimer := p1.coyoteTimer - dt } else p1
  if p2.onGround then { p2 with coyoteTimer := 0 } else p2

/-- Lines 708-731: landing squash and combo reset. -/
def landing (wasOnGround : Bool) (p : Player) : Player :=
  if !wasOnGround && p.onGround then
    { p with
      squashX := 13 / 10
      squashY := 7 / 10
      combo := if p.combo > 0 then 0 else p.combo }
  else p

/-- Lines 734-735. -/
def squashReturn (dt : ℚ) (p : Player) : Player :=
  { p with
    squashX := p.squashX + (1 - p.squashX) * SQUASH_RETURN * dt
    squashY := p.squashY + (1 - p.squashY) * SQUASH_RETURN * dt }

/-- Line 738. -/
def invincibility (dt : ℚ) (p : Player) : Player :=
  if p.invincibleTimer > 0 then
    { p with invincibleTimer := p.invincibleTimer - dt } else p

/-- Lines 741-745. -/
def animation (dt : ℚ) (p : Player) : Player :=
  let t := p.animTimer + dt
  if t > 5 then { p with animTimer := 0, animFrame := p.animFrame + 1 }
  else { p with animTimer := t }

/-- Lines 748-750: clamp to the level width. -/
def levelBounds (L : Level) (p : Player) : Player :=
  let p1 := if p.x < 0 then { p with x := 0, vx := 0 } else p
  let maxX := (L.width : ℚ) * TS - PLAYER_W
  if p1.x > maxX then { p1 with x := maxX, vx := 0 } else p1

/-- Lines 753-773: respawn after falling below the map. -/
def fallSafety (L : Level) (p : Player) : Player :=
  if p.y > (L.height : ℚ) * TS + 32 then
    { p with
      x := p.lastSafeX
      y := p.lastSafeY
      vx := 0
      vy := 0
      invincibleTimer := INVINCIBLE_FRAMES * (1 / 2) }
  else p

/-- Lines 776-779. -/
def saveSafe (p : Player) : Player :=
  if p.onGround then { p with lastSafeX := p.x, lastSafeY := p.y } else p

/-- Lines 590-618: input tracking and horizontal velocity, up to the jump test. -/
def beforeJump (pw : ℚ → ℚ) (inp : Input) (dt : ℚ) (p : Player) : Player :=
  horizontal pw inp dt (trackInput inp dt p)

/-- The test `wantsJump && canJump` of line 624, as `updatePlayer` evaluates it on the
player `p` it is called with: true exactly when the jump impulse is applied. -/
def jumpFires (pw : ℚ → ℚ) (inp : Input) (dt : ℚ) (p : Player) : Bool :=
  wantsJump (jumpJustPressed inp p) (beforeJump pw inp dt p) &&
    canJump (beforeJump pw inp dt p)

/-- Lines 590-649: the player right after the jump block, before gravity. -/
def afterJump (pw : ℚ → ℚ) (inp : Input) (dt : ℚ) (p : Player) : Player :=
  jumpExecution (jumpJustPressed inp p) (beforeJump pw inp dt p)

/-- Lines 590-693: the player after the vertical collision resolution. -/
def moveAndCollide (pw : ℚ → ℚ) (L : Level) (inp : Input) (dt : ℚ) (p : Player) : Player :=
  moveY L dt (moveX L dt (gravity dt (airState
    (variableJump (jumpJustReleased inp p) (afterJump pw inp dt p)))))

/-- Lines 695-779: coyote timer, landing, timers, level bounds, respawn, safe position.
The flag `wasOnGround` is `player.onGround` as read on line 590. -/
def settle (L : Level) (wasOnGround : Bool) (dt : ℚ) (p : Player) : Player :=
  saveSafe (fallSafety L (levelBounds L (animation dt (invincibility dt
    (squashReturn dt (landing wasOnGround (coyoteTime wasOnGround dt p)))))))

/-- Lines 590-779 of `updatePlayer`: everything before the enemy loop. -/
def playerPhysics (pw : ℚ → ℚ) (L : Level) (inp : Input) (dt : ℚ) (p : Player) : Player :=
  settle L p.onGround dt (moveAndCollide pw L inp dt p)

/-- What the enemy loop carries: the player, the score, and the enemies already visited. -/
structure Contact where
  player : Player
  score : ℕ
  enemies : List Enemy
  deriving DecidableEq

/-- The test `overlapX && overlapY` of lines 801-804. -/
def overlaps (p : Player) (e : Enemy) : Bool :=
  (decide (p.x + PLAYER_W > e.x) && decide (p.x < e.x + e.w)) &&
  (decide (p.y + PLAYER_H > e.y) && decide (p.y < e.y + e.h))

/-- The value `isStomp` of line 807. -/
def isStomp (p : Player) (e : Enemy) : Bool :=
  decide (p.vy > 0) && decide (p.y + PLAYER_H < e.y + e.h * (1 / 2))

/-- Lines 798-892: the body of the enemy loop for one enemy. -/
def collideEnemy (p : Player) (score : ℕ) (e : Enemy) : Player × ℕ × Enemy :=
  if !e.alive then (p, score, e)
  else if overlaps p e then
    if isStomp p e && decide (e.type ≠ EnemyType.thorn) then
      let combo := p.combo + 1
      let comboMul := min combo 5
      let pts := SCORE_STOMP * comboMul
      ({ p with vy := JUMP_FORCE * (6 / 10), combo := combo, squashY := 6 / 10, squashX := 14 / 10 },
       score + pts,
       { e with alive := false, deathTimer := 30 })
    else if p.invincibleTimer ≤ 0 then
      ({ p with
         x := p.lastSafeX
         y := p.lastSafeY
         vx := 0
         vy := 0
         invincibleTimer := INVINCIBLE_FRAMES },
       score, e)
    else (p, score, e)
  else (p, score, e)

/-- One iteration of the loop of line 797, threading the loop state. -/
def contactStep (e : Enemy) (c : Contact) : Contact :=
  let r := collideEnemy c.player c.score e
  { player := r.1, score := r.2.1, enemies := r.2.2 :: c.enemies }

/-- Lines 797-893: the loop runs from the last enemy to the first. -/
def enemyContacts (p : Player) (score : ℕ) (es : List Enemy) : Contact :=
  es.foldr contactStep { player := p, score := score, enemies := [] }

/-- The function `updatePlayer(dt)`; `inp` is what `isPressed` reports in this frame. -/
def updatePlayer (pw : ℚ → ℚ) (inp : Input) (dt : ℚ) (g : Game) : Game :=
  let p := playerPhysics pw g.levelData inp dt g.player
  let c := enemyContacts p g.score g.enemies
  { g with player := c.player, score := c.score, enemies := c.enemies }

/-! ## Level loading (`game.js` lines 97-101 and 364-428) -/

/-- The table `ENEMY_CONFIG`: speed, width, height per type. -/
def ENEMY_CONFIG : EnemyType → ℚ × ℚ × ℚ
  | EnemyType.broken_heart => (6 / 10, 12, 14)
  | EnemyType.teardrop => (1, 12, 14)
  | EnemyType.thorn => (0, 14, 16)

/-- The JavaScript `a || b` on an optional number: `b` when `a` is missing or zero. -/
def orElse (a : Option ℚ) (b : ℚ) : ℚ :=
  match a with
  | none => b
  | some v => if v = 0 then b else v

/-- Lines 403-420: the enemy pushed for one placement of level `index`. -/
def spawnEnemy (index : ℕ) (d : EnemyDef) : Enemy :=
  let cfg := ENEMY_CONFIG d.type
  let difficultyMul : ℚ := 1 + (index : ℚ) * (15 / 100)
  let speed := cfg.1 * difficultyMul
  { type := d.type
    x := d.x * TS
    y := d.y * TS - cfg.2.2 + TS
    w := cfg.2.1
    h := cfg.2.2
    vx := if d.type = EnemyType.thorn then 0 else speed
    vy := 0
    patrolLeft := orElse d.patrolLeft d.x * TS
    patrolRight := orElse d.patrolRight d.x * TS
    facing := 1
    alive := true
    animFrame := 0
    deathTimer := 0 }

/-- Lines 371-389: the player as reset by `loadLevel`. -/
def resetPlayer (L : Level) : Player :=
  { x := L.playerStartX * TS
    y := L.playerStartY * TS
    vx := 0
    vy := 0
    onGround := false
    facing := 1
    animFrame := 0
    animTimer := 0
    state := AnimState.idle
    heartsCollected := 0
    lastSafeX := L.playerStartX * TS
    lastSafeY := L.playerStartY * TS
    coyoteTimer := 0
    jumpBufferTimer := 0
    invincibleTimer := 0
    squashX := 1
    squashY := 1
    combo := 0
    wasJumpPressed := false }

/-- The function `loadLevel(index)` over the table `LEVELS`; `none` when `LEVELS[index]`
is undefined (the source then throws on `levelData.playerStart`). The score is kept. -/
def loadLevel (LEVELS : List Level) (index : ℕ) (g : Game) : Option Game :=
  match LEVELS[index]? with
  | none => none
  | some L =>
    some
      { g with
        currentLevel := index
        levelData := L
        player := resetPlayer L
        camera := max 0 ((resetPlayer L).x - RENDER_W / 2)
        collectedHearts := []
        enemies := L.enemies.map (spawnEnemy index) }

/-! ## Hearts and camera (`game.js` lines 1002-1063 and 1115-1122) -/

/-- Lines 1013-1060: the body of the inner loop of `checkHeartCollection` for one cell.
The key `col + ',' + row` is the pair `(col, row)`. -/
def collectCell (row : ℤ) (g : Game) (col : ℤ) : Game :=
  if getTile g.levelData col row = 'H' then
    if (col, row) ∈ g.collectedHearts then g
    else
      let pCenterX := g.player.x + PLAYER_W / 2
      let pCenterY := g.player.y + PLAYER_H / 2
      let hx := (col : ℚ) * TS + TS / 2
      let hy := (row : ℚ) * TS + TS / 2
      let dx := pCenterX - hx
      let dy := pCenterY - hy
      if dx * dx + dy * dy < (TS * (9 / 10)) ^ 2 then
        { g with
          collectedHearts := (col, row) :: g.collectedHearts
          player := { g.player with heartsCollected := g.player.heartsCollected + 1 }
          score := g.score + SCORE_HEART }
      else g
  else g

/-- The cells `(row, col)` in the order the two loops of `checkHeartCollection` visit them. -/
def heartCells (p : Player) : List (ℤ × ℤ) :=
  let col1 := ⌊p.x / TS⌋ - 1
  let col2 := ⌊(p.x + PLAYER_W) / TS⌋ + 1
  let row1 := ⌊p.y / TS⌋ - 1
  let row2 := ⌊(p.y + PLAYER_H) / TS⌋ + 1
  (cellRange row1 row2).flatMap fun row => (cellRange col1 col2).map fun col => (row, col)

/-- The function `checkHeartCollection()`. -/
def checkHeartCollection (g : Game) : Game :=
  (heartCells g.player).foldl (fun q rc => collectCell rc.1 q rc.2) g

/-- The function `updateCamera(dt)`. -/
def updateCamera (dt : ℚ) (g : Game) : Game :=
  let lookAhead := (g.player.facing : ℚ) * CAM_LOOK_AHEAD
  let targetX := g.player.x - RENDER_W / 2 + PLAYER_W / 2 + lookAhead
  let cx := g.camera + (targetX - g.camera) * CAM_SMOOTH * dt
  { g with camera := max 0 (min ((g.levelData.width : ℚ) * TS - RENDER_W) cx) }

/-! ## Runs -/

/-- One frame of a run: the inputs and the time scale `dt`. -/
structure Frame where
  inp : Input
  dt : ℚ
  deriving DecidableEq

/-- The state after applying `updatePlayer` once per frame, first frame first. -/
def runPlayer (pw : ℚ → ℚ) (frames : List Frame) (g : Game) : Game :=
  frames.foldl (fun q f => updatePlayer pw f.inp f.dt q) g

/-- The value of `Math.pow(FRICTION, dt)` on whole `dt`, used to evaluate concrete frames:
exact for `dt = 0, 1, 2, 3`. -/
def powWhole (dt : ℚ) : ℚ := FRICTION ^ ⌊dt⌋.toNat

/-! ## Enemy update (`game.js` lines 900-927) -/

/-- The body of the loop of `updateEnemies(dt)` for one enemy; `sn` is `Math.sin`. -/
def updateEnemy (sn : ℚ → ℚ) (dt : ℚ) (e : Enemy) : Enemy :=
  if !e.alive then { e with deathTimer := e.deathTimer - dt }
  else
    let e1 := { e with animFrame := e.animFrame + 1 }
    if e1.type = EnemyType.thorn then e1
    else
      let e2 := { e1 with x := e1.x + e1.vx * dt * e1.facing }
      let e3 :=
        if e2.x ≤ e2.patrolLeft then { e2 with x := e2.patrolLeft, facing := 1 }
        else if e2.x ≥ e2.patrolRight then { e2 with x := e2.patrolRight, facing := -1 }
        else e2
      if e3.type = EnemyType.teardrop then
        { e3 with vy := sn ((e3.animFrame : ℚ) * (8 / 100)) * (8 / 10) }
      else e3

/-- The function `updateEnemies(dt)`. -/
def updateEnemies (sn : ℚ → ℚ) (dt : ℚ) (g : Game) : Game :=
  { g with enemies := g.enemies.map (updateEnemy sn dt) }

/-! ## The shipped levels (`levels.js` lines 28-229) -/

/-- The element `LEVELS[0]` of `levels.js`, rows padded by `pad` to `W = 65`. -/
def LEVEL_1 : Level :=
  { theme := "istanbul"
    playerStartX := 2
    playerStartY := 9
    enemies :=
      [⟨EnemyType.broken_heart, 20, 9, some 16, some 26⟩,
       ⟨EnemyType.broken_heart, 40, 9, some 35, some 46⟩]
    map :=
      ["                                                                 ",
       "                                                                 ",
       "                                                                 ",
       "                   H                          H                  ",
       "                 =====                      =====                ",
       "                                                                 ",
       "         H                     H                      H          ",
       "       =====      ===       ======        ===       =====        ",
       "                                                                 ",
       "  H         H          H           H          H           H  P   ",
       "########  ########  #########  #########  #########  ############",
       "########  ########  #########  #########  #########  ############",
       "GGGGGGGGGGGGGGGGGGGGGGGGGGGGGGGGGGGGGGGGGGGGGGGGGGGGGGGGGGGGGGGGG",
       "GGGGGGGGGGGGGGGGGGGGGGGGGGGGGGGGGGGGGGGGGGGGGGGGGGGGGGGGGGGGGGGGG",
       "GGGGGGGGGGGGGGGGGGGGGGGGGGGGGGGGGGGGGGGGGGGGGGGGGGGGGGGGGGGGGGGGG"] }

/-- The element `LEVELS[1]` of `levels.js`, rows padded by `pad` to `W = 75`. -/
def LEVEL_2 : Level :=
  { theme := "baku"
    playerStartX := 2
    playerStartY := 9
    enemies :=
      [⟨EnemyType.broken_heart, 18, 9, some 12, some 25⟩,
       ⟨EnemyType.teardrop, 38, 9, some 33, some 44⟩,
       ⟨EnemyType.broken_heart, 56, 9, some 50, some 62⟩]
    map :=
      ["                                                                           ",
       "                                                                           ",
       "                         H                                H                ",
       "                       =====                            =====              ",
       "                                         H                                 ",
       "              H                         =====        H                     ",
       "            =====       ===                        =====                   ",
       "                          H       ===                          H           ",
       "   H                    =====        H                       =====         ",
       " ======      H                     =====       H                    H  P   ",
       "#########  ########  ##########  #########  ##########  #########  #########",
       "#########  ########  ##########  #########  ##########  #########  #########",
       "GGGGGGGGGGGGGGGGGGGGGGGGGGGGGGGGGGGGGGGGGGGGGGGGGGGGGGGGGGGGGGGGGGGGGGGGGGG",
       "GGGGGGGGGGGGGGGGGGGGGGGGGGGGGGGGGGGGGGGGGGGGGGGGGGGGGGGGGGGGGGGGGGGGGGGGGGG",
       "GGGGGGGGGGGGGGGGGGGGGGGGGGGGGGGGGGGGGGGGGGGGGGGGGGGGGGGGGGGGGGGGGGGGGGGGGGG"] }

/-- The element `LEVELS[2]` of `levels.js`, rows padded by `pad` to `W = 85`. -/
def LEVEL_3 : Level :=
  { theme := "cappadocia"
    playerStartX := 2
    playerStartY := 9
    enemies :=
      [⟨EnemyType.broken_heart, 15, 9, some 11, some 21⟩,
       ⟨EnemyType.teardrop, 35, 9, some 30, some 42⟩,
       ⟨EnemyType.thorn, 52, 9, none, none⟩,
       ⟨EnemyType.broken_heart, 68, 9, some 63, some 74⟩]
    map :=
      ["                                                                                     ",
       "                                                                                     ",
       "                              H                                      H               ",
       "                            =====                                  =====             ",
       "                                           H                                         ",
       "         H                   ===          =====          H                           ",
       "       =====          H                                ======                        ",
       "                    =====         H          ===                       H             ",
       "  H                   ===        =====        H                      =====           ",
       "======       H                              =====          H                  H  P   ",
       "##########  ########  ##########  ##########  #########  ##########  #####  ##########",
       "##########  ########  ##########  ##########  #########  ##########  #####  ##########",
       "GGGGGGGGGGGGGGGGGGGGGGGGGGGGGGGGGGGGGGGGGGGGGGGGGGGGGGGGGGGGGGGGGGGGGGGGGGGGGGGGGGGGG",
       "GGGGGGGGGGGGGGGGGGGGGGGGGGGGGGGGGGGGGGGGGGGGGGGGGGGGGGGGGGGGGGGGGGGGGGGGGGGGGGGGGGGGG",
       "GGGGGGGGGGGGGGGGGGGGGGGGGGGGGGGGGGGGGGGGGGGGGGGGGGGGGGGGGGGGGGGGGGGGGGGGGGGGGGGGGGGGG"] }

/-- The element `LEVELS[3]` of `levels.js`, rows padded by `pad` to `W = 80`. -/
def LEVEL_4 : Level :=
  { theme := "istanbul"
    playerStartX := 2
    playerStartY := 9
    enemies :=
      [⟨EnemyType.teardrop, 16, 9, some 11, some 22⟩,
       ⟨EnemyType.broken_heart, 32, 9, some 26, some 38⟩,
       ⟨EnemyType.thorn, 48, 9, none, none⟩,
       ⟨EnemyType.teardrop, 60, 9, some 54, some 66⟩,
       ⟨EnemyType.broken_heart, 72, 9, some 68, some 76⟩]
    map :=
      ["                                                                                ",
       "                                                          H                     ",
       "                  H                                     =====                   ",
       "                =====          ===       H                                      ",
       "                             H          =====       H                           ",
       "       H                    =====                 =====                         ",
       "     =====       ===                                            H               ",
       "                   H                      H         ===       =====             ",
       "  H              =====       ===       ======        H                          ",
       "=====                         H                    =====         H        H  P  ",
       "#########  #########  ##########  #########  ##########  ##########  ############",
       "#########  #########  ##########  #########  ##########  ##########  ############",
       "GGGGGGGGGGGGGGGGGGGGGGGGGGGGGGGGGGGGGGGGGGGGGGGGGGGGGGGGGGGGGGGGGGGGGGGGGGGGGGGG",
       "GGGGGGGGGGGGGGGGGGGGGGGGGGGGGGGGGGGGGGGGGGGGGGGGGGGGGGGGGGGGGGGGGGGGGGGGGGGGGGGG",
       "GGGGGGGGGGGGGGGGGGGGGGGGGGGGGGGGGGGGGGGGGGGGGGGGGGGGGGGGGGGGGGGGGGGGGGGGGGGGGGGG"] }

/-- The element `LEVELS[4]` of `levels.js`, rows padded by `pad` to `W = 90`. -/
def LEVEL_5 : Level :=
  { theme := "baku"
    playerStartX := 2
    playerStartY := 9
    enemies :=
      [⟨EnemyType.teardrop, 14, 9, some 9, some 20⟩,
       ⟨EnemyType.broken_heart, 28, 9, some 22, some 34⟩,
       ⟨EnemyType.thorn, 42, 9, none, none⟩,
       ⟨EnemyType.teardrop, 53, 9, some 47, some 59⟩,
       ⟨EnemyType.thorn, 65, 9, none, none⟩,
       ⟨EnemyType.teardrop, 78, 9, some 72, some 84⟩]
    map :=
      ["                                                                                          ",
       "                                                                             H            ",
       "                         H                              H                  =====          ",
       "                       =====     ===    H             =====                               ",
       "                                      =====                        H                      ",
       "        H                     H           ===      H             =====                    ",
       "      =====       ===      ======                =====                     H              ",
       "                                                            ===           =====           ",
       "               H                          H                H                              ",
       " H           =====          H           =====            =====        H           H  P    ",
       "########  ##########  ##########  ##########  ##########  #########  #########  ##########",
       "########  ##########  ##########  ##########  ##########  #########  #########  ##########",
       "GGGGGGGGGGGGGGGGGGGGGGGGGGGGGGGGGGGGGGGGGGGGGGGGGGGGGGGGGGGGGGGGGGGGGGGGGGGGGGGGGGGGGGGGGG",
       "GGGGGGGGGGGGGGGGGGGGGGGGGGGGGGGGGGGGGGGGGGGGGGGGGGGGGGGGGGGGGGGGGGGGGGGGGGGGGGGGGGGGGGGGGG",
       "GGGGGGGGGGGGGGGGGGGGGGGGGGGGGGGGGGGGGGGGGGGGGGGGGGGGGGGGGGGGGGGGGGGGGGGGGGGGGGGGGGGGGGGGGG"] }

/-- The element `LEVELS[5]` of `levels.js`, rows padded by `pad` to `W = 105`. -/
def LEVEL_6 : Level :=
  { theme := "sky"
    playerStartX := 2
    playerStartY := 9
    enemies :=
      [⟨EnemyType.teardrop, 15, 9, some 11, some 22⟩,
       ⟨EnemyType.thorn, 30, 9, none, none⟩,
       ⟨EnemyType.teardrop, 40, 9, some 34, some 46⟩,
       ⟨EnemyType.broken_heart, 55, 9, some 48, some 62⟩,
       ⟨EnemyType.thorn, 68, 9, none, none⟩,
       ⟨EnemyType.teardrop, 80, 9, some 74, some 87⟩,
       ⟨EnemyType.thorn, 93, 9, none, none⟩]
    map :=
      ["                                                                                                         ",
       "                                                                                                         ",
       "                                  H                                             H                        ",
       "                                =====     ===         H                       =====                      ",
       "                  H                                 =====          H                                      ",
       "                =====       H          ===                        =====      H                            ",
       "      H                   =====       H         ===                        =====           H              ",
       "    =====          ===               =====     H          H                               =====           ",
       " H                 H         ===              =====     =====       H          ===               H        ",
       "=====            =====       H                                    =====          H           =====   P   ",
       "##########  ###########  ##########  ###########  ##########  ###########  ##########  ###  ##############",
       "##########  ###########  ##########  ###########  ##########  ###########  ##########  ###  ##############",
       "GGGGGGGGGGGGGGGGGGGGGGGGGGGGGGGGGGGGGGGGGGGGGGGGGGGGGGGGGGGGGGGGGGGGGGGGGGGGGGGGGGGGGGGGGGGGGGGGGGGGGGGGG",
       "GGGGGGGGGGGGGGGGGGGGGGGGGGGGGGGGGGGGGGGGGGGGGGGGGGGGGGGGGGGGGGGGGGGGGGGGGGGGGGGGGGGGGGGGGGGGGGGGGGGGGGGGG",
       "GGGGGGGGGGGGGGGGGGGGGGGGGGGGGGGGGGGGGGGGGGGGGGGGGGGGGGGGGGGGGGGGGGGGGGGGGGGGGGGGGGGGGGGGGGGGGGGGGGGGGGGGG"] }

/-- The table `LEVELS` of `levels.js`. -/
def LEVELS : List Level :=
  [LEVEL_1, LEVEL_2, LEVEL_3, LEVEL_4, LEVEL_5, LEVEL_6]

/-! ## Timers (`setTimeout`, `setInterval`) -/

/-- The callbacks passed to `transitionTo` (`game.js` lines 483-487, 492-499, 506-509
and 577). -/
inductive Continuation
  | startGame
  | nextLevel
  | replay
  | showMemoryCard
  deriving DecidableEq

/-- The callbacks the program hands to `setTimeout` and `setInterval`: the repeating pass of
`playBGM(theme)` (`audio.js` lines 318-320), the delayed finale music (`game.js` lines
354-357), the two stages of a transition (lines 272-278) and the callbacks that only show
a button (lines 232 and 261). -/
inductive Callback
  | bgmLoop (theme : String)
  | finaleMusic
  | transitionMid (k : Continuation)
  | transitionEnd
  | showButton
  deriving DecidableEq

/-- A timer armed in the browser and not yet cleared. -/
structure Timer where
  id : ℕ
  callback : Callback
  delay : ℚ
  repeating : Bool
  deriving DecidableEq

/-- The browser's timer table; ids are handed out in increasing order, starting at 1. -/
structure Timers where
  pending : List Timer
  lastId : ℕ
  deriving DecidableEq

/-- The call `setTimeout(callback, delay)`: the new table and the id returned. -/
def setTimeout (callback : Callback) (delay : ℚ) (ts : Timers) : Timers × ℕ :=
  ({ pending := ts.pending ++ [⟨ts.lastId + 1, callback, delay, false⟩]
     lastId := ts.lastId + 1 }, ts.lastId + 1)

/-- The call `setInterval(callback, delay)`: the new table and the id returned. -/
def setInterval (callback : Callback) (delay : ℚ) (ts : Timers) : Timers × ℕ :=
  ({ pending := ts.pending ++ [⟨ts.lastId + 1, callback, delay, true⟩]
     lastId := ts.lastId + 1 }, ts.lastId + 1)

/-- The call `clearTimeout(id)`. -/
def clearTimeout (id : ℕ) (ts : Timers) : Timers :=
  { ts with pending := ts.pending.filter fun t => t.id ≠ id }

/-- The call `clearInterval(id)`; timeouts and intervals share one pool of ids. -/
def clearInterval (id : ℕ) (ts : Timers) : Timers :=
  { ts with pending := ts.pending.filter fun t => t.id ≠ id }

/-! ## Background music (`audio.js`) -/

/-- The oscillator types used for the music voices. -/
inductive Wave
  | square
  | triangle
  deriving DecidableEq

/-- An oscillator scheduled by `playNote`: pitch, type, `osc.start` and `osc.stop` times.
The gain envelope and the routing of the node are not modelled. -/
structure Tone where
  freq : ℤ
  wave : Wave
  start : ℚ
  stop : ℚ
  deriving DecidableEq

/-- The `AudioContext`: whether `state` is 'suspended', the clock, the oscillators
scheduled so far. -/
structure AudioContext where
  suspended : Bool
  currentTime : ℚ
  tones : List Tone
  deriving DecidableEq

/-- The fields of `AudioManager` that its methods read; the three gain nodes are only
written to. -/
structure AudioManager where
  ctx : Option AudioContext
  muted : Bool
  currentBGM : Option String
  bgmInterval : Option ℕ
  initialized : Bool
  deriving DecidableEq

/-- The table `notes` of `noteFreq`. -/
def semitoneOf (note : String) : Option ℤ :=
  if note = "C" then some 0
  else if note = "C#" then some 1
  else if note = "D" then some 2
  else if note = "D#" then some 3
  else if note = "E" then some 4
  else if note = "F" then some 5
  else if note = "F#" then some 6
  else if note = "G" then some 7
  else if note = "G#" then some 8
  else if note = "A" then some 9
  else if note = "A#" then some 10
  else if note = "B" then some 11
  else none

/-- The function `noteFreq(note, octave)`. The frequency
`440 * Math.pow(2, (semitone - 9) / 12 + (octave - 4))` is kept as its exponent in twelfths:
`some k` stands for `440 * 2 ^ (k / 12)` Hz, which is positive, and `none` stands for the
value 0 (an unknown note name, and the rests written `0` in the melody tables). So `!freq`
holds exactly for `none`. -/
def noteFreq (note : String) (octave : ℤ) : Option ℤ :=
  match semitoneOf note with
  | none => none
  | some s => some ((s - 9) + 12 * (octave - 4))

/-- One entry of the table `melodies`: tempo and the two voices as pairs (freq, beats). -/
structure Melody where
  tempo : ℚ
  lead : List (Option ℤ × ℚ)
  bass : List (Option ℤ × ℚ)
  deriving DecidableEq

/-- The entry `title` of the table `melodies`. -/
def melody_title : Melody :=
  { tempo := 140
    lead :=
      [(noteFreq "E" 4, 1 / 2), (noteFreq "G" 4, 1 / 2), (noteFreq "B" 4, 1 / 2),
       (noteFreq "E" 5, 1), (noteFreq "D" 5, 1 / 2), (noteFreq "B" 4, 1 / 2),
       (noteFreq "G" 4, 1), (noteFreq "C" 4, 1 / 2), (noteFreq "E" 4, 1 / 2),
       (noteFreq "G" 4, 1 / 2), (noteFreq "C" 5, 1), (noteFreq "B" 4, 1 / 2),
       (noteFreq "G" 4, 1 / 2), (noteFreq "E" 4, 1), (noteFreq "A" 3, 1 / 2),
       (noteFreq "C" 4, 1 / 2), (noteFreq "E" 4, 1 / 2), (noteFreq "A" 4, 1),
       (noteFreq "G" 4, 1 / 2), (noteFreq "E" 4, 1 / 2), (noteFreq "C" 4, 1),
       (noteFreq "F" 4, 1 / 2), (noteFreq "A" 4, 1 / 2), (noteFreq "C" 5, 1 / 2),
       (noteFreq "B" 4, 3 / 2)]
    bass :=
      [(noteFreq "E" 2, 2), (noteFreq "E" 2, 2), (noteFreq "C" 2, 2),
       (noteFreq "C" 2, 2), (noteFreq "A" 1, 2), (noteFreq "A" 1, 2),
       (noteFreq "F" 2, 2), (noteFreq "G" 2, 2)] }

/-- The entry `park` of the table `melodies`. -/
def melody_park : Melody :=
  { tempo := 150
    lead :=
      [(noteFreq "C" 4, 1 / 2), (noteFreq "E" 4, 1 / 2), (noteFreq "G" 4, 1),
       (noteFreq "E" 4, 1 / 2), (noteFreq "G" 4, 1 / 2), (noteFreq "A" 4, 1),
       (noteFreq "G" 4, 1 / 2), (noteFreq "E" 4, 1 / 2), (noteFreq "F" 4, 1 / 2),
       (noteFreq "A" 4, 1 / 2), (noteFreq "G" 4, 1), (noteFreq "E" 4, 1 / 2),
       (noteFreq "C" 4, 1 / 2), (noteFreq "D" 4, 1), (noteFreq "E" 4, 1 / 2),
       (noteFreq "C" 4, 1 / 2), (noteFreq "C" 4, 1 / 2), (noteFreq "E" 4, 1 / 2),
       (noteFreq "G" 4, 1), (noteFreq "C" 5, 1), (noteFreq "B" 4, 1 / 2),
       (noteFreq "A" 4, 1 / 2), (noteFreq "G" 4, 1), (noteFreq "F" 4, 1 / 2),
       (noteFreq "E" 4, 1 / 2), (noteFreq "D" 4, 1 / 2), (noteFreq "C" 4, 3 / 2)]
    bass :=
      [(noteFreq "C" 2, 2), (noteFreq "G" 2, 2), (noteFreq "F" 2, 2),
       (noteFreq "C" 2, 2), (noteFreq "C" 2, 2), (noteFreq "G" 2, 2),
       (noteFreq "F" 2, 1), (noteFreq "G" 2, 1), (noteFreq "C" 2, 2)] }

/-- The entry `cafe` of the table `melodies`. -/
def melody_cafe : Melody :=
  { tempo := 120
    lead :=
      [(noteFreq "E" 4, 1), (noteFreq "D" 4, 1 / 2), (noteFreq "E" 4, 1 / 2),
       (noteFreq "G" 4, 1), (noteFreq "A" 4, 1), (noteFreq "G" 4, 1),
       (noteFreq "E" 4, 1 / 2), (noteFreq "D" 4, 1 / 2), (noteFreq "C" 4, 2),
       (noteFreq "D" 4, 1), (noteFreq "E" 4, 1 / 2), (noteFreq "F" 4, 1 / 2),
       (noteFreq "E" 4, 1), (noteFreq "D" 4, 1), (noteFreq "C" 4, 1),
       (noteFreq "D" 4, 1 / 2), (noteFreq "E" 4, 1 / 2), (noteFreq "C" 4, 2)]
    bass :=
      [(noteFreq "C" 2, 2), (noteFreq "A" 1, 2), (noteFreq "F" 2, 2),
       (noteFreq "G" 2, 2), (noteFreq "C" 2, 2), (noteFreq "A" 1, 2),
       (noteFreq "F" 2, 2), (noteFreq "G" 2, 2)] }

/-- The entry `beach` of the table `melodies`. -/
def melody_beach : Melody :=
  { tempo := 130
    lead :=
      [(noteFreq "G" 4, 1), (noteFreq "A" 4, 1 / 2), (noteFreq "B" 4, 1 / 2),
       (noteFreq "C" 5, 3 / 2), (none, 1 / 2), (noteFreq "B" 4, 1 / 2),
       (noteFreq "A" 4, 1 / 2), (noteFreq "G" 4, 1), (noteFreq "E" 4, 3 / 2),
       (none, 1 / 2), (noteFreq "F" 4, 1 / 2), (noteFreq "G" 4, 1 / 2),
       (noteFreq "A" 4, 1), (noteFreq "G" 4, 1 / 2), (noteFreq "F" 4, 1 / 2),
       (noteFreq "E" 4, 1), (noteFreq "D" 4, 1 / 2), (noteFreq "E" 4, 3 / 2)]
    bass :=
      [(noteFreq "C" 2, 2), (noteFreq "G" 2, 2), (noteFreq "A" 1, 2),
       (noteFreq "E" 2, 2), (noteFreq "F" 2, 2), (noteFreq "C" 2, 2),
       (noteFreq "G" 2, 2), (noteFreq "C" 2, 2)] }

/-- The entry `garden` of the table `melodies`. -/
def melody_garden : Melody :=
  { tempo := 140
    lead :=
      [(noteFreq "C" 5, 1 / 2), (noteFreq "B" 4, 1 / 2), (noteFreq "A" 4, 1 / 2),
       (noteFreq "G" 4, 3 / 2), (noteFreq "A" 4, 1 / 2), (noteFreq "B" 4, 1 / 2),
       (noteFreq "C" 5, 3 / 2), (none, 1 / 2), (noteFreq "E" 4, 1 / 2),
       (noteFreq "G" 4, 1 / 2), (noteFreq "A" 4, 1 / 2), (noteFreq "C" 5, 1),
       (noteFreq "B" 4, 1 / 2), (noteFreq "A" 4, 1 / 2), (noteFreq "G" 4, 3 / 2),
       (noteFreq "F" 4, 1 / 2), (noteFreq "A" 4, 1 / 2), (noteFreq "G" 4, 1 / 2),
       (noteFreq "E" 4, 3 / 2), (noteFreq "D" 4, 1 / 2), (noteFreq "E" 4, 1 / 2),
       (noteFreq "C" 4, 2)]
    bass :=
      [(noteFreq "C" 2, 2), (noteFreq "E" 2, 2), (noteFreq "A" 1, 2),
       (noteFreq "C" 2, 2), (noteFreq "F" 2, 2), (noteFreq "G" 2, 2),
       (noteFreq "C" 2, 2), (noteFreq "C" 2, 2)] }

/-- The entry `mountain` of the table `melodies`. -/
def melody_mountain : Melody :=
  { tempo := 135
    lead :=
      [(noteFreq "E" 4, 1), (noteFreq "G" 4, 1 / 2), (noteFreq "A" 4, 1 / 2),
       (noteFreq "B" 4, 1), (noteFreq "A" 4, 1), (noteFreq "G" 4, 1),
       (noteFreq "E" 4, 1 / 2), (noteFreq "D" 4, 1 / 2), (noteFreq "E" 4, 2),
       (noteFreq "A" 4, 1), (noteFreq "B" 4, 1 / 2), (noteFreq "C" 5, 1 / 2),
       (noteFreq "B" 4, 1), (noteFreq "A" 4, 1), (noteFreq "G" 4, 1),
       (noteFreq "A" 4, 1 / 2), (noteFreq "G" 4, 1 / 2), (noteFreq "E" 4, 2)]
    bass :=
      [(noteFreq "A" 1, 2), (noteFreq "E" 2, 2), (noteFreq "A" 1, 2),
       (noteFreq "E" 2, 2), (noteFreq "F" 2, 2), (noteFreq "C" 2, 2),
       (noteFreq "G" 2, 2), (noteFreq "A" 1, 2)] }

/-- The entry `sky` of the table `melodies`. -/
def melody_sky : Melody :=
  { tempo := 110
    lead :=
      [(noteFreq "E" 5, 3 / 2), (noteFreq "D" 5, 1 / 2), (noteFreq "C" 5, 1),
       (noteFreq "B" 4, 1), (noteFreq "C" 5, 3 / 2), (noteFreq "B" 4, 1 / 2),
       (noteFreq "A" 4, 1), (noteFreq "G" 4, 1), (noteFreq "A" 4, 1),
       (noteFreq "B" 4, 1 / 2), (noteFreq "C" 5, 1 / 2), (noteFreq "D" 5, 1),
       (noteFreq "E" 5, 3 / 2), (noteFreq "C" 5, 1 / 2), (noteFreq "G" 4, 2),
       (noteFreq "F" 4, 1 / 2), (noteFreq "A" 4, 1 / 2), (noteFreq "C" 5, 1),
       (noteFreq "E" 5, 1), (noteFreq "D" 5, 1 / 2), (noteFreq "B" 4, 1 / 2),
       (noteFreq "G" 4, 1), (noteFreq "C" 5, 2)]
    bass :=
      [(noteFreq "C" 2, 2), (noteFreq "G" 2, 2), (noteFreq "A" 1, 2),
       (noteFreq "E" 2, 2), (noteFreq "F" 2, 2), (noteFreq "G" 2, 2),
       (noteFreq "C" 2, 2), (noteFreq "C" 2, 2)] }

/-- The entry `istanbul` of the table `melodies`. -/
def melody_istanbul : Melody :=
  { tempo := 130
    lead :=
      [(noteFreq "E" 4, 1), (noteFreq "F" 4, 1 / 2), (noteFreq "G" 4, 1 / 2),
       (noteFreq "A" 4, 3 / 2), (none, 1 / 2), (noteFreq "G" 4, 1 / 2),
       (noteFreq "F" 4, 1 / 2), (noteFreq "E" 4, 1), (noteFreq "D" 4, 3 / 2),
       (none, 1 / 2), (noteFreq "C" 4, 1 / 2), (noteFreq "D" 4, 1 / 2),
       (noteFreq "E" 4, 1), (noteFreq "G" 4, 1 / 2), (noteFreq "F" 4, 1 / 2),
       (noteFreq "E" 4, 1), (noteFreq "D" 4, 1 / 2), (noteFreq "E" 4, 3 / 2)]
    bass :=
      [(noteFreq "A" 1, 2), (noteFreq "E" 2, 2), (noteFreq "A" 1, 2),
       (noteFreq "D" 2, 2), (noteFreq "F" 2, 2), (noteFreq "C" 2, 2),
       (noteFreq "G" 2, 2), (noteFreq "A" 1, 2)] }

/-- The entry `baku` of the table `melodies`. -/
def melody_baku : Melody :=
  { tempo := 140
    lead :=
      [(noteFreq "A" 4, 1), (noteFreq "B" 4, 1 / 2), (noteFreq "C" 5, 1 / 2),
       (noteFreq "B" 4, 1), (noteFreq "A" 4, 1), (noteFreq "G" 4, 1),
       (noteFreq "A" 4, 1 / 2), (noteFreq "B" 4, 1 / 2), (noteFreq "A" 4, 2),
       (noteFreq "E" 4, 1 / 2), (noteFreq "G" 4, 1 / 2), (noteFreq "A" 4, 1),
       (noteFreq "C" 5, 1), (noteFreq "B" 4, 1 / 2), (noteFreq "A" 4, 1 / 2),
       (noteFreq "G" 4, 1), (noteFreq "A" 4, 3 / 2), (none, 1 / 2)]
    bass :=
      [(noteFreq "A" 1, 2), (noteFreq "E" 2, 2), (noteFreq "A" 1, 2),
       (noteFreq "C" 2, 2), (noteFreq "F" 2, 2), (noteFreq "G" 2, 2),
       (noteFreq "A" 1, 2), (noteFreq "E" 2, 2)] }

/-- The entry `cappadocia` of the table `melodies`. -/
def melody_cappadocia : Melody :=
  { tempo := 125
    lead :=
      [(noteFreq "G" 4, 1), (noteFreq "A" 4, 1 / 2), (noteFreq "B" 4, 1 / 2),
       (noteFreq "C" 5, 3 / 2), (none, 1 / 2), (noteFreq "B" 4, 1 / 2),
       (noteFreq "A" 4, 1 / 2), (noteFreq "G" 4, 1), (noteFreq "E" 4, 3 / 2),
       (none, 1 / 2), (noteFreq "F" 4, 1 / 2), (noteFreq "G" 4, 1 / 2),
       (noteFreq "A" 4, 1), (noteFreq "G" 4, 1 / 2), (noteFreq "F" 4, 1 / 2),
       (noteFreq "E" 4, 1), (noteFreq "D" 4, 1 / 2), (noteFreq "E" 4, 3 / 2)]
    bass :=
      [(noteFreq "C" 2, 2), (noteFreq "G" 2, 2), (noteFreq "A" 1, 2),
       (noteFreq "E" 2, 2), (noteFreq "F" 2, 2), (noteFreq "C" 2, 2),
       (noteFreq "G" 2, 2), (noteFreq "C" 2, 2)] }

/-- The entry `memory` of the table `melodies`. -/
def melody_memory : Melody :=
  { tempo := 100
    lead :=
      [(noteFreq "E" 4, 3 / 2), (noteFreq "G" 4, 1 / 2), (noteFreq "A" 4, 3 / 2),
       (none, 1 / 2), (noteFreq "G" 4, 1), (noteFreq "E" 4, 1 / 2),
       (noteFreq "D" 4, 1 / 2), (noteFreq "C" 4, 2), (noteFreq "D" 4, 1),
       (noteFreq "E" 4, 1 / 2), (noteFreq "F" 4, 1 / 2), (noteFreq "E" 4, 2),
       (noteFreq "C" 4, 1), (noteFreq "D" 4, 1 / 2), (noteFreq "E" 4, 1 / 2),
       (noteFreq "C" 4, 2)]
    bass :=
      [(noteFreq "A" 1, 2), (noteFreq "C" 2, 2), (noteFreq "F" 2, 2),
       (noteFreq "G" 2, 2), (noteFreq "A" 1, 2), (noteFreq "E" 2, 2),
       (noteFreq "F" 2, 2), (noteFreq "C" 2, 2)] }

/-- The entry `finale` of the table `melodies`. -/
def melody_finale : Melody :=
  { tempo := 95
    lead :=
      [(noteFreq "C" 4, 1), (noteFreq "E" 4, 1), (noteFreq "G" 4, 1),
       (noteFreq "C" 5, 2), (noteFreq "B" 4, 1 / 2), (noteFreq "A" 4, 1 / 2),
       (noteFreq "G" 4, 1), (noteFreq "E" 4, 3 / 2), (none, 1 / 2), (noteFreq "F" 4, 1),
       (noteFreq "A" 4, 1), (noteFreq "C" 5, 1), (noteFreq "E" 5, 2),
       (noteFreq "D" 5, 1 / 2), (noteFreq "C" 5, 1 / 2), (noteFreq "B" 4, 1),
       (noteFreq "C" 5, 2), (none, 1), (noteFreq "A" 4, 1), (noteFreq "C" 5, 1),
       (noteFreq "E" 5, 2), (noteFreq "D" 5, 1), (noteFreq "C" 5, 1),
       (noteFreq "A" 4, 1), (noteFreq "G" 4, 2), (noteFreq "F" 4, 1),
       (noteFreq "E" 4, 1), (noteFreq "D" 4, 1), (noteFreq "C" 4, 3)]
    bass :=
      [(noteFreq "C" 2, 2), (noteFreq "E" 2, 2), (noteFreq "F" 2, 2),
       (noteFreq "C" 2, 2), (noteFreq "F" 2, 2), (noteFreq "A" 1, 2),
       (noteFreq "G" 2, 2), (noteFreq "C" 2, 2), (noteFreq "A" 1, 2),
       (noteFreq "F" 2, 2), (noteFreq "G" 2, 2), (noteFreq "C" 2, 4)] }

/-- The function `getMelody(theme)`: the entry of `melodies` for a key of the table and the
entry `istanbul` for every other name (`melodies[theme] || melodies.istanbul`). Names that an
object literal inherits from `Object.prototype`, listed in `inheritedNames`, are outside the
model: for them the lookup yields a value that is not a melody. -/
def getMelody (theme : String) : Melody :=
  if theme = "title" then melody_title
  else if theme = "park" then melody_park
  else if theme = "cafe" then melody_cafe
  else if theme = "beach" then melody_beach
  else if theme = "garden" then melody_garden
  else if theme = "mountain" then melody_mountain
  else if theme = "sky" then melody_sky
  else if theme = "istanbul" then melody_istanbul
  else if theme = "baku" then melody_baku
  else if theme = "cappadocia" then melody_cappadocia
  else if theme = "memory" then melody_memory
  else if theme = "finale" then melody_finale
  else melody_istanbul

/-- Property names that every object literal inherits from `Object.prototype`. -/
def inheritedNames : List String :=
  ["__proto__", "constructor", "hasOwnProperty", "isPrototypeOf", "propertyIsEnumerable",
   "toLocaleString", "toString", "valueOf", "__defineGetter__", "__defineSetter__",
   "__lookupGetter__", "__lookupSetter__"]

/-- The method `playNote(freq, duration, type, gainNode, startTime)`; a `startTime` of 0
is falsy and replaced by the clock (`startTime || this.ctx.currentTime`). -/
def playNote (freq : Option ℤ) (duration : ℚ) (type : Wave) (startTime : ℚ)
    (a : AudioManager) : AudioManager :=
  match a.ctx, freq with
  | some c, some f =>
    if a.muted then a
    else
      let t := if startTime = 0 then c.currentTime else startTime
      { a with ctx := some { c with tones := c.tones ++ [⟨f, type, t, t + duration⟩] } }
  | _, _ => a

/-- One voice of `playSequence` (the loop of lines 297-301 for the lead with `gate = 0.9`,
of lines 306-310 for the bass with `gate = 0.85`), started at time `t`: the time reached
after the last note and the manager with the notes scheduled. -/
def playVoice (beatDur gate : ℚ) (type : Wave) :
    List (Option ℤ × ℚ) → ℚ → AudioManager → ℚ × AudioManager
  | [], t, a => (t, a)
  | (freq, beats) :: rest, t, a =>
    let dur := beats * beatDur
    let a1 := if freq.isSome then playNote freq (dur * gate) type t a else a
    playVoice beatDur gate type rest (t + dur) a1

/-- The closure `playSequence` of `playBGM` (lines 290-314): `none` is the `undefined`
returned when the manager is muted or the context is missing or suspended, `some d` the
value `totalDuration`. -/
def playSequence (melody : Melody) (beatDur : ℚ) (a : AudioManager) :
    Option ℚ × AudioManager :=
  match a.ctx with
  | none => (none, a)
  | some c =>
    if a.muted || c.suspended then (none, a)
    else
      let now := c.currentTime + 1 / 10
      let lead := playVoice beatDur (9 / 10) Wave.square melody.lead now a
      let totalDuration := lead.1 - now
      let bass := playVoice beatDur (85 / 100) Wave.triangle melody.bass now lead.2
      (some totalDuration, bass.2)

/-- The method `stopBGM()`; an id of 0 is falsy. -/
def stopBGM (a : AudioManager) (ts : Timers) : AudioManager × Timers :=
  match a.bgmInterval with
  | some id =>
    if id ≠ 0 then ({ a with bgmInterval := none, currentBGM := none }, clearInterval id ts)
    else ({ a with currentBGM := none }, ts)
  | none => ({ a with currentBGM := none }, ts)

/-- The fallback duration of line 316-317: the beat counts of the lead summed by `reduce`,
times `beatDur`. -/
def fallbackDuration (melody : Melody) (beatDur : ℚ) : ℚ :=
  melody.lead.foldl (fun sum n => sum + n.2) 0 * beatDur

/-- The method `playBGM(theme)`. The test `!dur || dur <= 0 || isNaN(dur)` holds for
`undefined`, for 0 and for negative numbers. -/
def playBGM (theme : String) (a : AudioManager) (ts : Timers) : AudioManager × Timers :=
  match a.ctx with
  | none => (a, ts)
  | some _ =>
    let stopped := stopBGM a ts
    let melody := getMelody theme
    let beatDur := 60 / melody.tempo
    let played := playSequence melody beatDur stopped.1
    let dur :=
      match played.1 with
      | none => fallbackDuration melody beatDur
      | some d => if d = 0 ∨ d ≤ 0 then fallbackDuration melody beatDur else d
    let armed := setInterval (Callback.bgmLoop theme) (max (dur * 1000) 1000) stopped.2
    ({ played.2 with bgmInterval := some armed.2, currentBGM := some theme }, armed.1)

/-! ## Game flow (`game.js` lines 42-50, 215-358, 552-582 and 1069-1109)

Sound effects, particles, popups, screen shake and the page elements are only written to by
these functions and are not modelled. -/

/-- The table `STATE`. -/
inductive State
  | LOADING
  | TITLE
  | LEVEL_INTRO
  | PLAYING
  | LEVEL_COMPLETE
  | MEMORY_CARD
  | FINALE
  deriving DecidableEq

/-- The globals of `game.js` behind the game flow, with the audio manager and the timers. -/
structure World where
  game : Game
  state : State
  stateTimer : ℚ
  transitionActive : Bool
  finaleTimeout : Option ℕ
  audio : AudioManager
  timers : Timers
  deriving DecidableEq

/-- Line 219: `if (finaleTimeout) { clearTimeout(finaleTimeout); finaleTimeout = null; }`. -/
def clearFinaleTimeout (w : World) : World :=
  match w.finaleTimeout with
  | some id =>
    if id ≠ 0 then { w with timers := clearTimeout id w.timers, finaleTimeout := none }
    else w
  | none => w

/-- The call `audioManager.stopBGM()` from `game.js`. -/
def stopMusic (w : World) : World :=
  { w with audio := (stopBGM w.audio w.timers).1, timers := (stopBGM w.audio w.timers).2 }

/-- The call `audioManager.playBGM(theme)` from `game.js`. -/
def playMusic (theme : String) (w : World) : World :=
  { w with
    audio := (playBGM theme w.audio w.timers).1
    timers := (playBGM theme w.audio w.timers).2 }

/-- The function `showLevelIntro()`: texts and animations apart, it stops the music. -/
def showLevelIntro (w : World) : World :=
  stopMusic w

/-- The function `showMemoryCard()`: texts and animations apart, it starts the memory
theme. -/
def showMemoryCard (w : World) : World :=
  playMusic "memory" (stopMusic w)

/-- The function `showFinale()`: it stops the music and arms the delayed finale music. -/
def showFinale (w : World) : World :=
  let w1 := stopMusic w
  let w2 :=
    match w1.finaleTimeout with
    | some id => if id ≠ 0 then { w1 with timers := clearTimeout id w1.timers } else w1
    | none => w1
  let armed := setTimeout Callback.finaleMusic 2000 w2.timers
  { w2 with timers := armed.1, finaleTimeout := some armed.2 }

/-- The function `setState(newState)`. -/
def setState (newState : State) (w : World) : World :=
  let w1 := clearFinaleTimeout { w with state := newState, stateTimer := 0 }
  match newState with
  | State.TITLE => { w1 with timers := (setTimeout Callback.showButton 1100 w1.timers).1 }
  | State.LEVEL_INTRO => showLevelIntro w1
  | State.PLAYING => w1
  | State.LEVEL_COMPLETE => stopMusic w1
  | State.MEMORY_CARD => showMemoryCard w1
  | State.FINALE =>
    let w2 := showFinale w1
    { w2 with timers := (setTimeout Callback.showButton 3100 w2.timers).1 }
  | State.LOADING => w1

/-- The function `transitionTo(callback)`: the callback runs from a timer, 450 ms later. -/
def transitionTo (callback : Continuation) (w : World) : World :=
  if w.transitionActive then w
  else
    { w with
      transitionActive := true
      timers := (setTimeout (Callback.transitionMid callback) 450 w.timers).1 }

/-- The function `completeLevel()`. -/
def completeLevel (w : World) : World :=
  setState State.LEVEL_COMPLETE
    { w with game := { w.game with score := w.game.score + SCORE_LEVEL } }

/-- The cells `(col, row)` that `checkPortal` reads: the 3 x 3 block around the cell of the
player's centre. -/
def portalCells (p : Player) : List (ℤ × ℤ) :=
  let col := ⌊(p.x + PLAYER_W / 2) / TS⌋
  let row := ⌊(p.y + PLAYER_H / 2) / TS⌋
  ([-1, 0, 1] : List ℤ).flatMap fun dr => ([-1, 0, 1] : List ℤ).map fun dc => (col + dc, row + dr)

/-- The function `checkPortal()`: the level is completed once, at the first 'P' found. -/
def checkPortal (w : World) : World :=
  if (portalCells w.game.player).any fun c => decide (getTile w.game.levelData c.1 c.2 = 'P')
  then completeLevel w
  else w

/-- The function `update(dt)`; `inp` is what `isPressed` reports in this frame, `pw` and `sn`
are `Math.pow(FRICTION, ·)` and `Math.sin`. -/
def update (pw sn : ℚ → ℚ) (inp : Input) (dt : ℚ) (w : World) : World :=
  match w.state with
  | State.LEVEL_INTRO =>
    if w.stateTimer > 150 then
      let w1 := setState State.PLAYING w
      playMusic w1.game.levelData.theme w1
    else w
  | State.PLAYING =>
    checkPortal
      { w with
        game := checkHeartCollection (updateCamera dt (updateEnemies sn dt
          (updatePlayer pw inp dt w.game))) }
  | State.LEVEL_COMPLETE =>
    if w.stateTimer > 120 && !w.transitionActive then
      transitionTo Continuation.showMemoryCard w
    else w
  | _ => w


/-! ## Particles (`game.js` lines 1128-1140) -/

/-- A particle as pushed by the effects of `game.js`; a missing `isHeart` is `false`. -/
structure Particle where
  x : ℚ
  y : ℚ
  vx : ℚ
  vy : ℚ
  life : ℚ
  maxLife : ℚ
  size : ℚ
  color : String
  isHeart : Bool
  deriving DecidableEq

/-- Lines 1131-1134: the four assignments to one particle, in source order. -/
def advanceParticle (dt : ℚ) (p : Particle) : Particle :=
  let p1 := { p with x := p.x + p.vx * dt }
  let p2 := { p1 with y := p1.y + p1.vy * dt }
  let p3 := { p2 with vy := p2.vy + (5 / 100) * dt }
  { p3 with life := p3.life - dt }

/-- Lines 1130-1138: the loop body at index `i`: the particle is updated in place and
spliced out when its life has run out. -/
def particleStep (dt : ℚ) (ps : List Particle) (i : ℕ) : List Particle :=
  match ps[i]? with
  | none => ps
  | some p =>
    let q := advanceParticle dt p
    if q.life ≤ 0 then (ps.set i q).eraseIdx i else ps.set i q

/-- The function `updateParticles(dt)`: the loop runs from the last index down to 0. -/
def updateParticles (dt : ℚ) (ps : List Particle) : List Particle :=
  (List.range ps.length).reverse.foldl (particleStep dt) ps


/-- The method `toggleMute()`; the value returned is the new `muted`. The gain of the master
node is only written to. -/
def toggleMute (a : AudioManager) (ts : Timers) : AudioManager × Timers :=
  let a1 := { a with muted := !a.muted }
  if a1.muted then stopBGM a1 ts else (a1, ts)


/-- The callback passed to `transitionTo` (`game.js` lines 483-487, 492-499, 506-509 and
577), as run by the first timer of the transition; `none` when `loadLevel` is given an index
that has no level (the source then throws). -/
def runContinuation (Ls : List Level) (k : Continuation) (w : World) : Option World :=
  match k with
  | Continuation.startGame =>
    (loadLevel Ls 0 { w.game with score := 0 }).map fun g =>
      setState State.LEVEL_INTRO { w with game := g }
  | Continuation.nextLevel =>
    if (w.game.currentLevel : ℤ) < (Ls.length : ℤ) - 1 then
      (loadLevel Ls (w.game.currentLevel + 1) w.game).map fun g =>
        setState State.LEVEL_INTRO { w with game := g }
    else some (setState State.FINALE w)
  | Continuation.replay => some (setState State.TITLE (playMusic "title" w))
  | Continuation.showMemoryCard => some (setState State.MEMORY_CARD w)

/-! ## The bounding box against the grid -/

/-- The player's half-open box `[x, x+PLAYER_W) x [y, y+PLAYER_H)` meets a solid tile:
tile `(col, row)` covers `[col*TS, (col+1)*TS) x [row*TS, (row+1)*TS)`. -/
def BoxMeetsSolid (L : Level) (p : Player) : Prop :=
  ∃ col row : ℤ, isSolid L col row = true ∧
    (col : ℚ) * TS < p.x + PLAYER_W ∧ p.x < ((col : ℚ) + 1) * TS ∧
    (row : ℚ) * TS < p.y + PLAYER_H ∧ p.y < ((row : ℚ) + 1) * TS

/-- The cells `(col, row)` whose tile meets the player's half-open box. -/
def boxCells (p : Player) : List (ℤ × ℤ) :=
  (cellRange ⌊p.y / TS⌋ (⌈(p.y + PLAYER_H) / TS⌉ - 1)).flatMap fun row =>
    (cellRange ⌊p.x / TS⌋ (⌈(p.x + PLAYER_W) / TS⌉ - 1)).map fun col => (col, row)

/-- Executable form of `BoxMeetsSolid`. -/
def overlapsSolid (L : Level) (p : Player) : Bool :=
  (boxCells p).any fun c => isSolid L c.1 c.2

/-! ## Relations used to state which fields a step leaves unchanged -/

/-- The player `q` differs from `p` at most in `x` and `vx`. -/
def SameButX (p q : Player) : Prop := q = { p with x := q.x, vx := q.vx }

/-- The player `q` differs from `p` at most in `y`, `vy` and `onGround`. -/
def SameButY (p q : Player) : Prop :=
  q = { p with y := q.y, vy := q.vy, onGround := q.onGround }

/-- The player `q` differs from `p` at most in what an enemy contact writes:
position, velocity, combo, squash and the invincibility timer. -/
def SameButContact (p q : Player) : Prop :=
  q = { p with
        x := q.x, y := q.y, vx := q.vx, vy := q.vy, combo := q.combo
        squashX := q.squashX, squashY := q.squashY, invincibleTimer := q.invincibleTimer }

/-- The cell `(col, row)` holds a heart tile whose centre is closer than `TS * 0.9` to the
centre of the player: the two tests a cell must pass in `checkHeartCollection`. -/
def HeartInReach (g : Game) (col row : ℤ) : Prop :=
  getTile g.levelData col row = 'H' ∧
    (g.player.x + PLAYER_W / 2 - ((col : ℚ) * TS + TS / 2)) *
        (g.player.x + PLAYER_W / 2 - ((col : ℚ) * TS + TS / 2)) +
      (g.player.y + PLAYER_H / 2 - ((row : ℚ) * TS + TS / 2)) *
        (g.player.y + PLAYER_H / 2 - ((row : ℚ) * TS + TS / 2)) <
      (TS * (9 / 10)) ^ 2

/-- The game `r` differs from `g` at most in what `checkHeartCollection` writes:
the collected keys, the score and the heart count of the player. -/
def SameButHearts (g r : Game) : Prop :=
  r = { g with
        collectedHearts := r.collectedHearts
        score := r.score
        player := { g.player with heartsCollected := r.player.heartsCollected } }

/-- The state after the heart loop has visited the cells `cells`, given as `(row, col)`. -/
def collectCells (cells : List (ℤ × ℤ)) (g : Game) : Game :=
  cells.foldl (fun q rc => collectCell rc.1 q rc.2) g

/-- The frame with inputs `i` and `dt = 1`. -/
def unitFrame (i : Input) : Frame := { inp := i, dt := 1 }

/-- The cells `resolveCollisionX` and `resolveCollisionY` test for a player at `(x, y)` hold no
solid tile. -/
def CellsFree (L : Level) (x y : ℚ) : Prop :=
  ∀ col row : ℤ, ⌊x / TS⌋ ≤ col → col ≤ ⌊(x + PLAYER_W - 1) / TS⌋ →
    ⌊y / TS⌋ ≤ row → row ≤ ⌊(y + PLAYER_H - 1) / TS⌋ → isSolid L col row = false

/-- The early-release truncation of lines 652-654 is applied in this call: jump was held in the
previous call, is released now, and `vy < -1` after the jump block. -/
def truncates (pw : ℚ → ℚ) (inp : Input) (dt : ℚ) (p : Player) : Bool :=
  jumpJustReleased inp p && decide ((afterJump pw inp dt p).vy < -1)

/-- The number of calls of a run in which the truncation is applied. -/
def truncationCount (pw : ℚ → ℚ) : List Frame → Game → ℕ
  | [], _ => 0
  | f :: fs, g =>
    (if truncates pw f.inp f.dt g.player then 1 else 0) +
      truncationCount pw fs (updatePlayer pw f.inp f.dt g)

/-- The number of frames in which jump goes from held to released; `held` tells whether jump
was held before the first frame. -/
def releaseCount : Bool → List Frame → ℕ
  | _, [] => 0
  | held, f :: fs => (if held && !f.inp.jump then 1 else 0) + releaseCount f.inp.jump fs

/-- The lead voice's total duration in seconds as the specification words it:
`D = (sum of the lead voice's beat counts) * 60 / tempo`. -/
def specLeadDuration (melody : Melody) : ℚ :=
  (melody.lead.map fun n => n.2).sum * 60 / melody.tempo

/-- The names of the themes defined in `getMelody`. -/
def themeNames : List String :=
  ["title", "park", "cafe", "beach", "garden", "mountain", "sky", "istanbul", "baku",
   "cappadocia", "memory", "finale"]

/-- The number of dead enemies in a list. -/
def deadCount (es : List Enemy) : ℕ :=
  es.countP fun e => !e.alive

/-- No sub-step of the vertical move of `p` meets a solid tile: the cells `resolveCollisionY`
tests after each of the sub-steps hold no solid tile. -/
def NoContactY (L : Level) (dt : ℚ) (p : Player) : Prop :=
  ∀ k : ℕ, 1 ≤ k → k ≤ (subSteps (p.vy * dt)).toNat →
    CellsFree L p.x (p.y + (k : ℚ) * (p.vy * dt / (subSteps (p.vy * dt) : ℚ)))

/-- One particle advanced as the specification words it: `x += vx*dt`, `y += vy*dt` with the
old `vy`, then `vy += 0.05*dt` and `life -= dt`. -/
def specAdvance (dt : ℚ) (p : Particle) : Particle :=
  { p with
    x := p.x + p.vx * dt
    y := p.y + p.vy * dt
    vy := p.vy + (5 / 100) * dt
    life := p.life - dt }

/-- The result of `updateParticles` as the specification words it: the advanced list
filtered by `life > 0`. -/
def specUpdateParticles (dt : ℚ) (ps : List Particle) : List Particle :=
  (ps.map (specAdvance dt)).filter fun p => decide (0 < p.life)


/-- The position `x` lies within the level `L`: `0 ≤ x ≤ width * TS - PLAYER_W`. -/
def XInLevel (L : Level) (x : ℚ) : Prop :=
  0 ≤ x ∧ x ≤ (L.width : ℚ) * TS - PLAYER_W


/-- The game after `checkHeartCollection` has been called with the player at each of the
positions `(x, y)` in turn. -/
def collectAt (positions : List (ℚ × ℚ)) (g : Game) : Game :=
  positions.foldl
    (fun q xy => checkHeartCollection { q with player := { q.player with x := xy.1, y := xy.2 } })
    g

/-- The columns of the 'H' characters of a row, counted from `i`. -/
def heartCols : List Char → ℕ → List ℕ
  | [], _ => []
  | c :: cs, i => (if c = 'H' then [i] else []) ++ heartCols cs (i + 1)

/-- The keys `(col, row)` of the 'H' characters of the rows `rows`, counted from row `r`. -/
def heartKeysFrom : List String → ℕ → List (ℤ × ℤ)
  | [], _ => []
  | s :: rest, r =>
    (heartCols s.data 0).map (fun (c : ℕ) => ((c : ℤ), (r : ℤ))) ++ heartKeysFrom rest (r + 1)

/-- What is recorded about hearts is consistent with the level: the counter equals the
number of recorded keys, no key is recorded twice and every key is a heart tile. -/
def HeartsConsistent (g : Game) : Prop :=
  g.player.heartsCollected = g.collectedHearts.length ∧ g.collectedHearts.Nodup ∧
    ∀ k ∈ g.collectedHearts, getTile g.levelData k.1 k.2 = 'H'


/-- The total beat count of the lead voice. -/
def leadBeats (m : Melody) : ℚ := (m.lead.map fun n => n.2).sum

/-- The total beat count of the bass voice. -/
def bassBeats (m : Melody) : ℚ := (m.bass.map fun n => n.2).sum

/-- The tones scheduled by one pass of `playSequence` for `theme` on the manager `a`. -/
def passTones (theme : String) (a : AudioManager) : List Tone :=
  match (playSequence (getMelody theme) (60 / (getMelody theme).tempo) a).2.ctx with
  | none => []
  | some c => c.tones

/-- The manager `a` whose context is `c` with the tones `ts` scheduled. -/
def withTones (a : AudioManager) (c : AudioContext) (ts : List Tone) : AudioManager :=
  { a with ctx := some { c with tones := ts } }

/-- The themes whose bass voice is not longer than the lead voice. -/
def alignedThemes : List String :=
  ["title", "park", "cafe", "garden", "mountain", "sky", "memory", "finale"]

/-- A call of one of the three music methods of `AudioManager`. -/
inductive AudioCall
  | playBGM (theme : String)
  | stopBGM
  | toggleMute
  deriving DecidableEq

/-- The manager and the timers after one call. -/
def applyCall (call : AudioCall) (s : AudioManager × Timers) : AudioManager × Timers :=
  match call with
  | AudioCall.playBGM theme => playBGM theme s.1 s.2
  | AudioCall.stopBGM => stopBGM s.1 s.2
  | AudioCall.toggleMute => toggleMute s.1 s.2

/-- The manager and the timers after a sequence of calls, first call first. -/
def runCalls (calls : List AudioCall) (s : AudioManager × Timers) : AudioManager × Timers :=
  calls.foldl (fun q call => applyCall call q) s

/-- The timer repeats a background-music pass. -/
def Timer.isBgm (t : Timer) : Bool :=
  match t.callback with
  | Callback.bgmLoop _ => true
  | _ => false

/-- The armed background-music timers. -/
def bgmTimers (ts : Timers) : List Timer :=
  ts.pending.filter Timer.isBgm

/-- Every armed background-music timer is the one the manager holds in `bgmInterval`, and
there is at most one. -/
def BgmTracked (a : AudioManager) (ts : Timers) : Prop :=
  (bgmTimers ts).length ≤ 1 ∧ ∀ t ∈ bgmTimers ts, a.bgmInterval = some t.id ∧ t.id ≠ 0


/-- The armed timers whose callback is the delayed finale music of `showFinale`. -/
def finaleTimers (ts : Timers) : List Timer :=
  ts.pending.filter fun t => decide (t.callback = Callback.finaleMusic)

/-- Every armed timer has an id the browser has handed out. -/
def IdsBounded (ts : Timers) : Prop :=
  ∀ t ∈ ts.pending, t.id ≤ ts.lastId

/-- No armed timer has the id `id`, and no timer armed later will. -/
def IdRetired (id : ℕ) (ts : Timers) : Prop :=
  id ≤ ts.lastId ∧ ∀ t ∈ ts.pending, t.id ≠ id

/-- The variable `finaleTimeout` tracks the finale-music timeout: it is never the falsy id 0,
and every armed finale-music timer has the id it holds. -/
def FinaleTracked (w : World) : Prop :=
  w.finaleTimeout ≠ some 0 ∧ IdsBounded w.timers ∧
    ∀ t ∈ finaleTimers w.timers, w.finaleTimeout = some t.id

/-- One thing that happens to the world: a transition callback runs, or `gameLoop` runs one
frame. -/
inductive Step
  | callback (k : Continuation)
  | frame (inp : Input) (dt : ℚ)
  deriving DecidableEq

/-- The world after one step; a frame is `stateTimer += dt; update(dt)` (lines 544-546). -/
def stepWorld (pw sn : ℚ → ℚ) (Ls : List Level) (s : Step) (w : World) : Option World :=
  match s with
  | Step.callback k => runContinuation Ls k w
  | Step.frame inp dt => some (update pw sn inp dt { w with stateTimer := w.stateTimer + dt })

/-- The world after a sequence of steps, first step first; `none` once a step fails. -/
def runWorld (pw sn : ℚ → ℚ) (Ls : List Level) : List Step → World → Option World
  | [], w => some w
  | s :: rest, w => (stepWorld pw sn Ls s w).bind (runWorld pw sn Ls rest)

/-! ## Concrete levels and states on which the code is evaluated -/

/-- A level of 4 x 4 tiles whose bottom row (row 3) is solid ground. -/
def floorLevel : Level :=
  { theme := "istanbul"
    playerStartX := 1
    playerStartY := 1
    enemies := []
    map := ["    ", "    ", "    ", "####"] }

/-- No key held. -/
def idleInput : Input := { left := false, right := false, jump := false }

/-- A game on `floorLevel` with player `p`, no enemies and score 0. -/
def floorGame (p : Player) : Game :=
  { levelData := floorLevel
    currentLevel := 0
    player := p
    enemies := []
    score := 0
    camera := 0
    collectedHearts := [] }

/-- The player at rest on the ground of row 3: `y = 3 * TS - PLAYER_H`, grounded, `vy = 0`. -/
def standingPlayer : Player :=
  { resetPlayer floorLevel with
    x := 16, y := 33, onGround := true, lastSafeX := 16, lastSafeY := 33 }

/-- A level of 4 x 7 tiles whose bottom row (row 6) is solid ground; the start cell is in
the top row. -/
def dropLevel : Level :=
  { theme := "istanbul"
    playerStartX := 1
    playerStartY := 0
    enemies := []
    map := ["    ", "    ", "    ", "    ", "    ", "    ", "####"] }

/-- The game `loadLevel(0)` produces for `LEVELS = [dropLevel]`. -/
def dropStart : Game :=
  { levelData := dropLevel
    currentLevel := 0
    player := resetPlayer dropLevel
    enemies := []
    score := 0
    camera := 0
    collectedHearts := [] }

/-- The game after six frames of free fall from `dropStart` with `dt = 3` and no key held:
the player is at `y = 75`, falling at `MAX_FALL`, 6 pixels above the ground of row 6. -/
def dropFallen : Game :=
  runPlayer powWhole (List.replicate 6 ⟨idleInput, 3⟩) dropStart

/-- A level of 4 x 3 tiles with a single ground tile at column 0 of row 2 and a pit beside it;
the start cell is directly above the ground tile. -/
def ledgeLevel : Level :=
  { theme := "istanbul"
    playerStartX := 0
    playerStartY := 1
    enemies := []
    map := ["    ", "    ", "#   "] }

/-- Only the right key held. -/
def holdRight : Input := { left := false, right := true, jump := false }

/-- Only the jump key held. -/
def holdJump : Input := { left := false, right := false, jump := true }

/-- The game `loadLevel(0)` produces for `LEVELS = [ledgeLevel]`. -/
def ledgeStart : Game :=
  { levelData := ledgeLevel
    currentLevel := 0
    player := resetPlayer ledgeLevel
    enemies := []
    score := 0
    camera := 0
    collectedHearts := [] }

/-- Six frames with `dt = 3` on `ledgeLevel`: land, walk right for two frames, leave the
ground tile in the fourth frame, and fall for two more. -/
def ledgeRun : List Frame :=
  [⟨idleInput, 3⟩, ⟨holdRight, 3⟩, ⟨holdRight, 3⟩, ⟨holdRight, 3⟩, ⟨holdRight, 3⟩,
   ⟨holdRight, 3⟩]

/-- The game `loadLevel(0)` produces for `LEVELS = [floorLevel]`. -/
def floorStart : Game :=
  { levelData := floorLevel
    currentLevel := 0
    player := resetPlayer floorLevel
    enemies := []
    score := 0
    camera := 0
    collectedHearts := [] }

/-- Three frames with `dt = 3` during which jump is pressed and then held, in mid-air. -/
def heldJumpRun : List Frame :=
  [⟨holdJump, 3⟩, ⟨holdJump, 3⟩, ⟨holdJump, 3⟩]

/-- A game on `floorLevel` one frame before landing: the player falls with `vy = 2` and combo 3
just above the ground of row 3, and an enemy stands on that ground at the landing position. -/
def landingGame : Game :=
  { floorGame { resetPlayer floorLevel with x := 16, y := 32, vy := 2, combo := 3 } with
    enemies := [spawnEnemy 0 ⟨EnemyType.broken_heart, 1, 2, none, none⟩] }

/-- The enemy of type 'broken_heart' that `loadLevel` spawns on cell `(1, 2)` of level 0:
`x = 16`, `y = 34`, 12 wide and 14 high. -/
def groundEnemy : Enemy := spawnEnemy 0 ⟨EnemyType.broken_heart, 1, 2, none, none⟩

/-- A player moving downward onto `groundEnemy` with two stomps already in the combo. -/
def stompingPlayer : Player :=
  { resetPlayer floorLevel with x := 16, y := 112 / 5, vy := 12 / 5, combo := 2 }

/-- A level of one row, 30 tiles wide: 480 pixels, wider than the view of 400. -/
def wideLevel : Level :=
  { theme := "istanbul"
    playerStartX := 1
    playerStartY := 0
    enemies := []
    map := [String.mk (List.replicate 30 'G')] }

/-- A game on `wideLevel` with the player at the right edge, facing right, camera at 200. -/
def wideGame : Game :=
  { levelData := wideLevel
    currentLevel := 0
    player := { resetPlayer wideLevel with x := 470, facing := 1 }
    enemies := []
    score := 0
    camera := 200
    collectedHearts := [] }

/-- The player walking right at full speed on the ground tile of `ledgeLevel`, two pixels
before its box leaves the tile column. -/
def ledgeWalker : Player :=
  { resetPlayer ledgeLevel with
    x := 14, y := 17, vx := 23 / 10, onGround := true, lastSafeX := 14, lastSafeY := 17 }

/-- The game on `ledgeLevel` with `ledgeWalker`. -/
def ledgeWalkGame : Game := { ledgeStart with player := ledgeWalker }

/-- The state after frame 0 of the ledge walk (right held, `dt = 1`) followed by `n` further
frames with no key held and `dt = 1`. -/
def afterLedge (n : ℕ) : Game :=
  runPlayer powWhole (List.replicate n ⟨idleInput, 1⟩)
    (updatePlayer powWhole holdRight 1 ledgeWalkGame)

/-- The thorn that `loadLevel` spawns on cell `(1, 2)` of level 0: `x = 16`, `y = 32`, 14 wide
and 16 high. -/
def thornEnemy : Enemy := spawnEnemy 0 ⟨EnemyType.thorn, 1, 2, none, none⟩

/-- The player standing on `floorLevel` inside `groundEnemy`, with its last safe position two
tiles to the right. -/
def bumpingPlayer : Player := { standingPlayer with lastSafeX := 48 }


/-- Four frames with `dt = 1`: jump pressed, released, pressed again, released again. -/
def doubleTapRun : List Frame :=
  [⟨holdJump, 1⟩, ⟨idleInput, 1⟩, ⟨holdJump, 1⟩, ⟨idleInput, 1⟩]

/-- The game `floorStart` after `pre` frames without a key, one frame with jump held and `n`
more frames without a key, all with `dt = 1`. The player falls from the start cell and
touches the ground in the ninth call. -/
def afterPress (pre n : ℕ) : Game :=
  runPlayer powWhole
    (List.replicate pre ⟨idleInput, 1⟩ ++ [⟨holdJump, 1⟩] ++ List.replicate n ⟨idleInput, 1⟩)
    floorStart

/-- The first enemy of level 1 (patrol range 256 to 416), 0.2 pixels before its right bound
and facing right. -/
def patroller : Enemy :=
  { spawnEnemy 0 ⟨EnemyType.broken_heart, 20, 9, some 16, some 26⟩ with x := 2079 / 5 }

/-- A game whose only enemy is `patroller`. -/
def patrolGame : Game := { floorGame standingPlayer with enemies := [patroller] }

/-- An initialised audio manager: running context at time 0, not muted, no music armed. -/
def readyAudio : AudioManager :=
  { ctx := some ⟨false, 0, []⟩
    muted := false
    currentBGM := none
    bgmInterval := none
    initialized := true }

/-- A browser in which no timer has been armed yet. -/
def noTimers : Timers := ⟨[], 0⟩
/-- The player of `dropStart` falling at `MAX_FALL`. -/
def fallingPlayer : Player := { dropStart.player with vy := 7 }


/-- A level of 4 x 4 tiles with ground in row 3 and one heart at cell (1, 1), the start
cell. -/
def heartLevel : Level :=
  { theme := "istanbul"
    playerStartX := 1
    playerStartY := 1
    enemies := []
    map := ["    ", " H  ", "    ", "####"] }

/-- The game `loadLevel(0)` produces for `LEVELS = [heartLevel]`. -/
def heartStart : Game :=
  { floorGame standingPlayer with levelData := heartLevel, player := resetPlayer heartLevel }

/-- A few calls in a row: two themes, mute, unmute, a third theme. -/
def musicCalls : List AudioCall :=
  [AudioCall.playBGM "title", AudioCall.playBGM "memory", AudioCall.toggleMute,
   AudioCall.toggleMute, AudioCall.playBGM "finale"]


/-- A world showing a memory card, with a fresh audio manager and no timer armed. -/
def cardWorld : World :=
  { game := floorGame standingPlayer
    state := State.MEMORY_CARD
    stateTimer := 200
    transitionActive := false
    finaleTimeout := none
    audio := readyAudio
    timers := noTimers }


/-- The world after the start action's callback has run on `cardWorld` with the shipped
levels. -/
def startWorld : World :=
  (runContinuation LEVELS Continuation.startGame cardWorld).getD cardWorld

/-! # Theorems -/

/-! ## Lemmas on ranges and on the bounding box -/

theorem mem_cellRange (lo hi a : ℤ) : a ∈ cellRange lo hi ↔ lo ≤ a ∧ a ≤ hi := by
  unfold cellRange
  rw [List.mem_map]
  constructor
  · rintro ⟨i, hi', rfl⟩
    rw [List.mem_range] at hi'
    omega
  · rintro ⟨h1, h2⟩
    refine ⟨(a - lo).toNat, ?_, ?_⟩
    · rw [List.mem_range]
      omega
    · omega

theorem mem_boxCells (p : Player) (col row : ℤ) :
    (col, row) ∈ boxCells p ↔
      (⌊p.x / TS⌋ ≤ col ∧ col ≤ ⌈(p.x + PLAYER_W) / TS⌉ - 1) ∧
      (⌊p.y / TS⌋ ≤ row ∧ row ≤ ⌈(p.y + PLAYER_H) / TS⌉ - 1) := by
  unfold boxCells
  simp only [List.mem_flatMap, List.mem_map, mem_cellRange, Prod.mk.injEq]
  constructor
  · rintro ⟨r, hr, c, hc, rfl, rfl⟩
    exact ⟨hc, hr⟩
  · rintro ⟨hc, hr⟩
    exact ⟨row, hr, col, hc, rfl, rfl⟩

theorem tile_meets_iff (a w : ℚ) (c : ℤ) :
    ((c : ℚ) * TS < a + w ∧ a < ((c : ℚ) + 1) * TS) ↔
      (⌊a / TS⌋ ≤ c ∧ c ≤ ⌈(a + w) / TS⌉ - 1) := by
  have hTS : (0 : ℚ) < TS := by norm_num [TS]
  rw [Int.le_sub_one_iff, Int.lt_ceil, Int.floor_le_iff, lt_div_iff₀ hTS, div_lt_iff₀ hTS]
  constructor
  · rintro ⟨h1, h2⟩
    exact ⟨by linarith, h1⟩
  · rintro ⟨h1, h2⟩
    exact ⟨h2, by linarith⟩

theorem overlapsSolid_iff (L : Level) (p : Player) :
    overlapsSolid L p = true ↔ BoxMeetsSolid L p := by
  unfold overlapsSolid BoxMeetsSolid
  simp only [List.any_eq_true, Prod.exists, mem_boxCells]
  constructor
  · rintro ⟨col, row, ⟨hc, hr⟩, hs⟩
    exact ⟨col, row, hs, ((tile_meets_iff p.x PLAYER_W col).2 hc).1,
      ((tile_meets_iff p.x PLAYER_W col).2 hc).2,
      ((tile_meets_iff p.y PLAYER_H row).2 hr).1, ((tile_meets_iff p.y PLAYER_H row).2 hr).2⟩
  · rintro ⟨col, row, hs, h1, h2, h3, h4⟩
    exact ⟨col, row, ⟨(tile_meets_iff p.x PLAYER_W col).1 ⟨h1, h2⟩,
      (tile_meets_iff p.y PLAYER_H row).1 ⟨h3, h4⟩⟩, hs⟩

/-! ## Frame lemmas: the fields each phase of `updatePlayer` leaves unchanged -/

@[simp] theorem trackInput_coyoteTimer (inp : Input) (dt : ℚ) (p : Player) :
    (trackInput inp dt p).coyoteTimer = p.coyoteTimer := by
  unfold trackInput; dsimp only; split_ifs <;> rfl

@[simp] theorem trackInput_combo (inp : Input) (dt : ℚ) (p : Player) :
    (trackInput inp dt p).combo = p.combo := by
  unfold trackInput; dsimp only; split_ifs <;> rfl

@[simp] theorem trackInput_onGround (inp : Input) (dt : ℚ) (p : Player) :
    (trackInput inp dt p).onGround = p.onGround := by
  unfold trackInput; dsimp only; split_ifs <;> rfl

@[simp] theorem trackInput_vy (inp : Input) (dt : ℚ) (p : Player) :
    (trackInput inp dt p).vy = p.vy := by
  unfold trackInput; dsimp only; split_ifs <;> rfl

@[simp] theorem horizontal_coyoteTimer (pw : ℚ → ℚ) (inp : Input) (dt : ℚ) (p : Player) :
    (horizontal pw inp dt p).coyoteTimer = p.coyoteTimer := by
  unfold horizontal; dsimp only; split_ifs <;> rfl

@[simp] theorem horizontal_jumpBufferTimer (pw : ℚ → ℚ) (inp : Input) (dt : ℚ) (p : Player) :
    (horizontal pw inp dt p).jumpBufferTimer = p.jumpBufferTimer := by
  unfold horizontal; dsimp only; split_ifs <;> rfl

@[simp] theorem horizontal_wasJumpPressed (pw : ℚ → ℚ) (inp : Input) (dt : ℚ) (p : Player) :
    (horizontal pw inp dt p).wasJumpPressed = p.wasJumpPressed := by
  unfold horizontal; dsimp only; split_ifs <;> rfl

@[simp] theorem horizontal_combo (pw : ℚ → ℚ) (inp : Input) (dt : ℚ) (p : Player) :
    (horizontal pw inp dt p).combo = p.combo := by
  unfold horizontal; dsimp only; split_ifs <;> rfl

@[simp] theorem horizontal_onGround (pw : ℚ → ℚ) (inp : Input) (dt : ℚ) (p : Player) :
    (horizontal pw inp dt p).onGround = p.onGround := by
  unfold horizontal; dsimp only; split_ifs <;> rfl

@[simp] theorem horizontal_vy (pw : ℚ → ℚ) (inp : Input) (dt : ℚ) (p : Player) :
    (horizontal pw inp dt p).vy = p.vy := by
  unfold horizontal; dsimp only; split_ifs <;> rfl

@[simp] theorem jumpExecution_wasJumpPressed (jjp : Bool) (p : Player) :
    (jumpExecution jjp p).wasJumpPressed = p.wasJumpPressed := by
  unfold jumpExecution; split_ifs <;> rfl

@[simp] theorem jumpExecution_combo (jjp : Bool) (p : Player) :
    (jumpExecution jjp p).combo = p.combo := by
  unfold jumpExecution; split_ifs <;> rfl

@[simp] theorem variableJump_coyoteTimer (jjr : Bool) (p : Player) :
    (variableJump jjr p).coyoteTimer = p.coyoteTimer := by
  unfold variableJump; split_ifs <;> rfl

@[simp] theorem variableJump_jumpBufferTimer (jjr : Bool) (p : Player) :
    (variableJump jjr p).jumpBufferTimer = p.jumpBufferTimer := by
  unfold variableJump; split_ifs <;> rfl

@[simp] theorem variableJump_wasJumpPressed (jjr : Bool) (p : Player) :
    (variableJump jjr p).wasJumpPressed = p.wasJumpPressed := by
  unfold variableJump; split_ifs <;> rfl

@[simp] theorem variableJump_combo (jjr : Bool) (p : Player) :
    (variableJump jjr p).combo = p.combo := by
  unfold variableJump; split_ifs <;> rfl

@[simp] theorem variableJump_onGround (jjr : Bool) (p : Player) :
    (variableJump jjr p).onGround = p.onGround := by
  unfold variableJump; split_ifs <;> rfl

@[simp] theorem airState_coyoteTimer (p : Player) :
    (airState p).coyoteTimer = p.coyoteTimer := by
  unfold airState; split_ifs <;> rfl

@[simp] theorem airState_jumpBufferTimer (p : Player) :
    (airState p).jumpBufferTimer = p.jumpBufferTimer := by
  unfold airState; split_ifs <;> rfl

@[simp] theorem airState_wasJumpPressed (p : Player) :
    (airState p).wasJumpPressed = p.wasJumpPressed := by
  unfold airState; split_ifs <;> rfl

@[simp] theorem airState_combo (p : Player) :
    (airState p).combo = p.combo := by
  unfold airState; split_ifs <;> rfl

@[simp] theorem airState_onGround (p : Player) :
    (airState p).onGround = p.onGround := by
  unfold airState; split_ifs <;> rfl

@[simp] theorem airState_vy (p : Player) :
    (airState p).vy = p.vy := by
  unfold airState; split_ifs <;> rfl

@[simp] theorem gravity_coyoteTimer (dt : ℚ) (p : Player) :
    (gravity dt p).coyoteTimer = p.coyoteTimer := by
  rfl

@[simp] theorem gravity_jumpBufferTimer (dt : ℚ) (p : Player) :
    (gravity dt p).jumpBufferTimer = p.jumpBufferTimer := by
  rfl

@[simp] theorem gravity_wasJumpPressed (dt : ℚ) (p : Player) :
    (gravity dt p).wasJumpPressed = p.wasJumpPressed := by
  rfl

@[simp] theorem gravity_combo (dt : ℚ) (p : Player) :
    (gravity dt p).combo = p.combo := by
  rfl

@[simp] theorem gravity_onGround (dt : ℚ) (p : Player) :
    (gravity dt p).onGround = p.onGround := by
  rfl

@[simp] theorem coyoteTime_jumpBufferTimer (w : Bool) (dt : ℚ) (p : Player) :
    (coyoteTime w dt p).jumpBufferTimer = p.jumpBufferTimer := by
  unfold coyoteTime; dsimp only; split_ifs <;> rfl

@[simp] theorem coyoteTime_wasJumpPressed (w : Bool) (dt : ℚ) (p : Player) :
    (coyoteTime w dt p).wasJumpPressed = p.wasJumpPressed := by
  unfold coyoteTime; dsimp only; split_ifs <;> rfl

@[simp] theorem coyoteTime_combo (w : Bool) (dt : ℚ) (p : Player) :
    (coyoteTime w dt p).combo = p.combo := by
  unfold coyoteTime; dsimp only; split_ifs <;> rfl

@[simp] theorem coyoteTime_onGround (w : Bool) (dt : ℚ) (p : Player) :
    (coyoteTime w dt p).onGround = p.onGround := by
  unfold coyoteTime; dsimp only; split_ifs <;> rfl

@[simp] theorem coyoteTime_vy (w : Bool) (dt : ℚ) (p : Player) :
    (coyoteTime w dt p).vy = p.vy := by
  unfold coyoteTime; dsimp only; split_ifs <;> rfl

@[simp] theorem landing_coyoteTimer (w : Bool) (p : Player) :
    (landing w p).coyoteTimer = p.coyoteTimer := by
  unfold landing; split_ifs <;> rfl

@[simp] theorem landing_jumpBufferTimer (w : Bool) (p : Player) :
    (landing w p).jumpBufferTimer = p.jumpBufferTimer := by
  unfold landing; split_ifs <;> rfl

@[simp] theorem landing_wasJumpPressed (w : Bool) (p : Player) :
    (landing w p).wasJumpPressed = p.wasJumpPressed := by
  unfold landing; split_ifs <;> rfl

@[simp] theorem landing_onGround (w : Bool) (p : Player) :
    (landing w p).onGround = p.onGround := by
  unfold landing; split_ifs <;> rfl

@[simp] theorem landing_vy (w : Bool) (p : Player) :
    (landing w p).vy = p.vy := by
  unfold landing; split_ifs <;> rfl

@[simp] theorem squashReturn_coyoteTimer (dt : ℚ) (p : Player) :
    (squashReturn dt p).coyoteTimer = p.coyoteTimer := by
  rfl

@[simp] theorem squashReturn_jumpBufferTimer (dt : ℚ) (p : Player) :
    (squashReturn dt p).jumpBufferTimer = p.jumpBufferTimer := by
  rfl

@[simp] theorem squashReturn_wasJumpPressed (dt : ℚ) (p : Player) :
    (squashReturn dt p).wasJumpPressed = p.wasJumpPressed := by
  rfl

@[simp] theorem squashReturn_combo (dt : ℚ) (p : Player) :
    (squashReturn dt p).combo = p.combo := by
  rfl

@[simp] theorem squashReturn_onGround (dt : ℚ) (p : Player) :
    (squashReturn dt p).onGround = p.onGround := by
  rfl

@[simp] theorem squashReturn_vy (dt : ℚ) (p : Player) :
    (squashReturn dt p).vy = p.vy := by
  rfl

@[simp] theorem invincibility_coyoteTimer (dt : ℚ) (p : Player) :
    (invincibility dt p).coyoteTimer = p.coyoteTimer := by
  unfold invincibility; split_ifs <;> rfl

@[simp] theorem invincibility_jumpBufferTimer (dt : ℚ) (p : Player) :
    (invincibility dt p).jumpBufferTimer = p.jumpBufferTimer := by
  unfold invincibility; split_ifs <;> rfl

@[simp] theorem invincibility_wasJumpPressed (dt : ℚ) (p : Player) :
    (invincibility dt p).wasJumpPressed = p.wasJumpPressed := by
  unfold invincibility; split_ifs <;> rfl

@[simp] theorem invincibility_combo (dt : ℚ) (p : Player) :
    (invincibility dt p).combo = p.combo := by
  unfold invincibility; split_ifs <;> rfl

@[simp] theorem invincibility_onGround (dt : ℚ) (p : Player) :
    (invincibility dt p).onGround = p.onGround := by
  unfold invincibility; split_ifs <;> rfl

@[simp] theorem invincibility_vy (dt : ℚ) (p : Player) :
    (invincibility dt p).vy = p.vy := by
  unfold invincibility; split_ifs <;> rfl

@[simp] theorem animation_coyoteTimer (dt : ℚ) (p : Player) :
    (animation dt p).coyoteTimer = p.coyoteTimer := by
  unfold animation; dsimp only; split_ifs <;> rfl

@[simp] theorem animation_jumpBufferTimer (dt : ℚ) (p : Player) :
    (animation dt p).jumpBufferTimer = p.jumpBufferTimer := by
  unfold animation; dsimp only; split_ifs <;> rfl

@[simp] theorem animation_wasJumpPressed (dt : ℚ) (p : Player) :
    (animation dt p).wasJumpPressed = p.wasJumpPressed := by
  unfold animation; dsimp only; split_ifs <;> rfl

@[simp] theorem animation_combo (dt : ℚ) (p : Player) :
    (animation dt p).combo = p.combo := by
  unfold animation; dsimp only; split_ifs <;> rfl

@[simp] theorem animation_onGround (dt : ℚ) (p : Player) :
    (animation dt p).onGround = p.onGround := by
  unfold animation; dsimp only; split_ifs <;> rfl

@[simp] theorem animation_vy (dt : ℚ) (p : Player) :
    (animation dt p).vy = p.vy := by
  unfold animation; dsimp only; split_ifs <;> rfl

@[simp] theorem levelBounds_coyoteTimer (L : Level) (p : Player) :
    (levelBounds L p).coyoteTimer = p.coyoteTimer := by
  unfold levelBounds; dsimp only; split_ifs <;> rfl

@[simp] theorem levelBounds_jumpBufferTimer (L : Level) (p : Player) :
    (levelBounds L p).jumpBufferTimer = p.jumpBufferTimer := by
  unfold levelBounds; dsimp only; split_ifs <;> rfl

@[simp] theorem levelBounds_wasJumpPressed (L : Level) (p : Player) :
    (levelBounds L p).wasJumpPressed = p.wasJumpPressed := by
  unfold levelBounds; dsimp only; split_ifs <;> rfl

@[simp] theorem levelBounds_combo (L : Level) (p : Player) :
    (levelBounds L p).combo = p.combo := by
  unfold levelBounds; dsimp only; split_ifs <;> rfl

@[simp] theorem levelBounds_onGround (L : Level) (p : Player) :
    (levelBounds L p).onGround = p.onGround := by
  unfold levelBounds; dsimp only; split_ifs <;> rfl

@[simp] theorem levelBounds_vy (L : Level) (p : Player) :
    (levelBounds L p).vy = p.vy := by
  unfold levelBounds; dsimp only; split_ifs <;> rfl

@[simp] theorem fallSafety_coyoteTimer (L : Level) (p : Player) :
    (fallSafety L p).coyoteTimer = p.coyoteTimer := by
  unfold fallSafety; split_ifs <;> rfl

@[simp] theorem fallSafety_jumpBufferTimer (L : Level) (p : Player) :
    (fallSafety L p).jumpBufferTimer = p.jumpBufferTimer := by
  unfold fallSafety; split_ifs <;> rfl

@[simp] theorem fallSafety_wasJumpPressed (L : Level) (p : Player) :
    (fallSafety L p).wasJumpPressed = p.wasJumpPressed := by
  unfold fallSafety; split_ifs <;> rfl

@[simp] theorem fallSafety_combo (L : Level) (p : Player) :
    (fallSafety L p).combo = p.combo := by
  unfold fallSafety; split_ifs <;> rfl

@[simp] theorem fallSafety_onGround (L : Level) (p : Player) :
    (fallSafety L p).onGround = p.onGround := by
  unfold fallSafety; split_ifs <;> rfl

@[simp] theorem saveSafe_coyoteTimer (p : Player) :
    (saveSafe p).coyoteTimer = p.coyoteTimer := by
  unfold saveSafe; split_ifs <;> rfl

@[simp] theorem saveSafe_jumpBufferTimer (p : Player) :
    (saveSafe p).jumpBufferTimer = p.jumpBufferTimer := by
  unfold saveSafe; split_ifs <;> rfl

@[simp] theorem saveSafe_wasJumpPressed (p : Player) :
    (saveSafe p).wasJumpPressed = p.wasJumpPressed := by
  unfold saveSafe; split_ifs <;> rfl

@[simp] theorem saveSafe_combo (p : Player) :
    (saveSafe p).combo = p.combo := by
  unfold saveSafe; split_ifs <;> rfl

@[simp] theorem saveSafe_onGround (p : Player) :
    (saveSafe p).onGround = p.onGround := by
  unfold saveSafe; split_ifs <;> rfl

@[simp] theorem saveSafe_vy (p : Player) :
    (saveSafe p).vy = p.vy := by
  unfold saveSafe; split_ifs <;> rfl

/-- A relation that holds along every step of a left fold holds between its ends. -/
theorem foldl_rel {α β : Type} (R : α → α → Prop) (hrefl : ∀ a, R a a)
    (htrans : ∀ a b c, R a b → R b c → R a c) (f : α → β → α)
    (hf : ∀ a b, R a (f a b)) (l : List β) (a : α) : R a (l.foldl f a) := by
  induction l generalizing a with
  | nil => exact hrefl a
  | cons b l ih => exact htrans _ _ _ (hf a b) (ih (f a b))

theorem sameButX_refl (p : Player) : SameButX p p := rfl

theorem sameButX_trans (p q r : Player) (h1 : SameButX p q) (h2 : SameButX q r) :
    SameButX p r := by
  unfold SameButX at *
  rw [h2, h1]

theorem sameButY_refl (p : Player) : SameButY p p := rfl

theorem sameButY_trans (p q r : Player) (h1 : SameButY p q) (h2 : SameButY q r) :
    SameButY p r := by
  unfold SameButY at *
  rw [h2, h1]

theorem sameButContact_refl (p : Player) : SameButContact p p := rfl

theorem sameButContact_trans (p q r : Player) (h1 : SameButContact p q)
    (h2 : SameButContact q r) : SameButContact p r := by
  unfold SameButContact at *
  rw [h2, h1]

theorem collideCellX_same (L : Level) (row : ℤ) (p : Player) (col : ℤ) :
    SameButX p (collideCellX L row p col) := by
  unfold collideCellX SameButX
  dsimp only
  split_ifs <;> rfl

theorem resolveCollisionX_same (L : Level) (p : Player) :
    SameButX p (resolveCollisionX L p) := by
  unfold resolveCollisionX
  apply foldl_rel SameButX sameButX_refl sameButX_trans
  intro a row
  apply foldl_rel SameButX sameButX_refl sameButX_trans
  intro b col
  exact collideCellX_same L row b col

theorem moveX_same (L : Level) (dt : ℚ) (p : Player) : SameButX p (moveX L dt p) := by
  unfold moveX
  exact sameButX_trans p { p with x := p.x + p.vx * dt } _ rfl (resolveCollisionX_same L _)

theorem collideCellY_same (L : Level) (row : ℤ) (p : Player) (col : ℤ) :
    SameButY p (collideCellY L row p col) := by
  unfold collideCellY SameButY
  split_ifs <;> rfl

theorem resolveCollisionY_same (L : Level) (p : Player) :
    SameButY p (resolveCollisionY L p) := by
  unfold resolveCollisionY
  refine sameButY_trans p { p with onGround := false } _ rfl ?_
  apply foldl_rel SameButY sameButY_refl sameButY_trans
  intro a row
  apply foldl_rel SameButY sameButY_refl sameButY_trans
  intro b col
  exact collideCellY_same L row b col

theorem subStepY_same (L : Level) (v : ℚ) (p : Player) : SameButY p (subStepY L v p) := by
  unfold subStepY
  exact sameButY_trans p { p with y := p.y + v } _ rfl (resolveCollisionY_same L _)

theorem moveY_same (L : Level) (dt : ℚ) (p : Player) : SameButY p (moveY L dt p) := by
  unfold moveY
  dsimp only
  apply foldl_rel SameButY sameButY_refl sameButY_trans
  intro a _
  exact subStepY_same L _ a

theorem collideEnemy_same (p : Player) (score : ℕ) (e : Enemy) :
    SameButContact p (collideEnemy p score e).1 := by
  unfold collideEnemy SameButContact
  dsimp only
  split_ifs <;> rfl

theorem enemyContacts_same (p : Player) (score : ℕ) (es : List Enemy) :
    SameButContact p (enemyContacts p score es).player := by
  unfold enemyContacts
  induction es with
  | nil => exact sameButContact_refl p
  | cons e es ih =>
    rw [List.foldr_cons]
    exact sameButContact_trans _ _ _ ih (collideEnemy_same _ _ e)

/-! ## Fields kept by the collision folds and by the enemy loop -/

theorem sameButX_coyoteTimer {p q : Player} (h : SameButX p q) :
    q.coyoteTimer = p.coyoteTimer := by rw [h]

theorem sameButX_jumpBufferTimer {p q : Player} (h : SameButX p q) :
    q.jumpBufferTimer = p.jumpBufferTimer := by rw [h]

theorem sameButX_wasJumpPressed {p q : Player} (h : SameButX p q) :
    q.wasJumpPressed = p.wasJumpPressed := by rw [h]

theorem sameButX_combo {p q : Player} (h : SameButX p q) : q.combo = p.combo := by rw [h]

theorem sameButX_onGround {p q : Player} (h : SameButX p q) :
    q.onGround = p.onGround := by rw [h]

theorem sameButX_vy {p q : Player} (h : SameButX p q) : q.vy = p.vy := by rw [h]

theorem sameButY_coyoteTimer {p q : Player} (h : SameButY p q) :
    q.coyoteTimer = p.coyoteTimer := by rw [h]

theorem sameButY_jumpBufferTimer {p q : Player} (h : SameButY p q) :
    q.jumpBufferTimer = p.jumpBufferTimer := by rw [h]

theorem sameButY_wasJumpPressed {p q : Player} (h : SameButY p q) :
    q.wasJumpPressed = p.wasJumpPressed := by rw [h]

theorem sameButY_combo {p q : Player} (h : SameButY p q) : q.combo = p.combo := by rw [h]

theorem sameButContact_coyoteTimer {p q : Player} (h : SameButContact p q) :
    q.coyoteTimer = p.coyoteTimer := by rw [h]

theorem sameButContact_jumpBufferTimer {p q : Player} (h : SameButContact p q) :
    q.jumpBufferTimer = p.jumpBufferTimer := by rw [h]

theorem sameButContact_wasJumpPressed {p q : Player} (h : SameButContact p q) :
    q.wasJumpPressed = p.wasJumpPressed := by rw [h]

theorem sameButContact_onGround {p q : Player} (h : SameButContact p q) :
    q.onGround = p.onGround := by rw [h]

@[simp] theorem moveX_coyoteTimer (L : Level) (dt : ℚ) (p : Player) :
    (moveX L dt p).coyoteTimer = p.coyoteTimer := sameButX_coyoteTimer (moveX_same L dt p)

@[simp] theorem moveX_jumpBufferTimer (L : Level) (dt : ℚ) (p : Player) :
    (moveX L dt p).jumpBufferTimer = p.jumpBufferTimer := sameButX_jumpBufferTimer (moveX_same L dt p)

@[simp] theorem moveX_wasJumpPressed (L : Level) (dt : ℚ) (p : Player) :
    (moveX L dt p).wasJumpPressed = p.wasJumpPressed := sameButX_wasJumpPressed (moveX_same L dt p)

@[simp] theorem moveX_combo (L : Level) (dt : ℚ) (p : Player) :
    (moveX L dt p).combo = p.combo := sameButX_combo (moveX_same L dt p)

@[simp] theorem moveX_onGround (L : Level) (dt : ℚ) (p : Player) :
    (moveX L dt p).onGround = p.onGround := sameButX_onGround (moveX_same L dt p)

@[simp] theorem moveX_vy (L : Level) (dt : ℚ) (p : Player) :
    (moveX L dt p).vy = p.vy := sameButX_vy (moveX_same L dt p)

@[simp] theorem moveY_coyoteTimer (L : Level) (dt : ℚ) (p : Player) :
    (moveY L dt p).coyoteTimer = p.coyoteTimer := sameButY_coyoteTimer (moveY_same L dt p)

@[simp] theorem moveY_jumpBufferTimer (L : Level) (dt : ℚ) (p : Player) :
    (moveY L dt p).jumpBufferTimer = p.jumpBufferTimer := sameButY_jumpBufferTimer (moveY_same L dt p)

@[simp] theorem moveY_wasJumpPressed (L : Level) (dt : ℚ) (p : Player) :
    (moveY L dt p).wasJumpPressed = p.wasJumpPressed := sameButY_wasJumpPressed (moveY_same L dt p)

@[simp] theorem moveY_combo (L : Level) (dt : ℚ) (p : Player) :
    (moveY L dt p).combo = p.combo := sameButY_combo (moveY_same L dt p)

@[simp] theorem enemyContacts_coyoteTimer (p : Player) (score : ℕ) (es : List Enemy) :
    (enemyContacts p score es).player.coyoteTimer = p.coyoteTimer :=
  sameButContact_coyoteTimer (enemyContacts_same p score es)

@[simp] theorem enemyContacts_jumpBufferTimer (p : Player) (score : ℕ) (es : List Enemy) :
    (enemyContacts p score es).player.jumpBufferTimer = p.jumpBufferTimer :=
  sameButContact_jumpBufferTimer (enemyContacts_same p score es)

@[simp] theorem enemyContacts_wasJumpPressed (p : Player) (score : ℕ) (es : List Enemy) :
    (enemyContacts p score es).player.wasJumpPressed = p.wasJumpPressed :=
  sameButContact_wasJumpPressed (enemyContacts_same p score es)

@[simp] theorem enemyContacts_onGround (p : Player) (score : ℕ) (es : List Enemy) :
    (enemyContacts p score es).player.onGround = p.onGround :=
  sameButContact_onGround (enemyContacts_same p score es)

/-! ## The timers through one `updatePlayer` call -/

theorem afterJump_coyoteTimer (pw : ℚ → ℚ) (inp : Input) (dt : ℚ) (p : Player) :
    (afterJump pw inp dt p).coyoteTimer =
      if jumpFires pw inp dt p then 0 else p.coyoteTimer := by
  unfold afterJump jumpExecution jumpFires
  split_ifs <;> simp [beforeJump]

theorem afterJump_jumpBufferTimer (pw : ℚ → ℚ) (inp : Input) (dt : ℚ) (p : Player) :
    (afterJump pw inp dt p).jumpBufferTimer =
      if jumpFires pw inp dt p then 0 else (trackInput inp dt p).jumpBufferTimer := by
  unfold afterJump jumpExecution jumpFires
  split_ifs <;> simp [beforeJump]

theorem updatePlayer_coyoteTimer (pw : ℚ → ℚ) (inp : Input) (dt : ℚ) (g : Game) :
    (updatePlayer pw inp dt g).player.coyoteTimer =
      (coyoteTime g.player.onGround dt
        (moveAndCollide pw g.levelData inp dt g.player)).coyoteTimer := by
  simp [updatePlayer, playerPhysics, settle]

theorem moveAndCollide_coyoteTimer (pw : ℚ → ℚ) (L : Level) (inp : Input) (dt : ℚ)
    (p : Player) :
    (moveAndCollide pw L inp dt p).coyoteTimer = (afterJump pw inp dt p).coyoteTimer := by
  simp [moveAndCollide]

theorem updatePlayer_jumpBufferTimer (pw : ℚ → ℚ) (inp : Input) (dt : ℚ) (g : Game) :
    (updatePlayer pw inp dt g).player.jumpBufferTimer =
      (afterJump pw inp dt g.player).jumpBufferTimer := by
  simp [updatePlayer, playerPhysics, settle, moveAndCollide]

theorem coyoteTime_bounds (w : Bool) (dt : ℚ) (p : Player) (h0 : 0 ≤ dt) (h3 : dt ≤ 3)
    (hlo : -3 < p.coyoteTimer) (hhi : p.coyoteTimer ≤ COYOTE_FRAMES) :
    -3 < (coyoteTime w dt p).coyoteTimer ∧ (coyoteTime w dt p).coyoteTimer ≤ COYOTE_FRAMES := by
  unfold coyoteTime
  unfold COYOTE_FRAMES at *
  dsimp only
  split_ifs <;> simp_all <;> (try constructor) <;> linarith

theorem trackInput_jumpBufferTimer_bounds (inp : Input) (dt : ℚ) (p : Player) (h0 : 0 ≤ dt)
    (h3 : dt ≤ 3) (hlo : -3 < p.jumpBufferTimer) (hhi : p.jumpBufferTimer ≤ JUMP_BUFFER_FRAMES) :
    -3 < (trackInput inp dt p).jumpBufferTimer ∧
      (trackInput inp dt p).jumpBufferTimer ≤ JUMP_BUFFER_FRAMES := by
  unfold trackInput
  unfold JUMP_BUFFER_FRAMES at *
  dsimp only
  split_ifs <;> simp_all <;> (try constructor) <;> linarith

theorem updatePlayer_coyoteTimer_bounds (pw : ℚ → ℚ) (inp : Input) (dt : ℚ) (g : Game)
    (h0 : 0 ≤ dt) (h3 : dt ≤ 3) (hlo : -3 < g.player.coyoteTimer)
    (hhi : g.player.coyoteTimer ≤ COYOTE_FRAMES) :
    -3 < (updatePlayer pw inp dt g).player.coyoteTimer ∧
      (updatePlayer pw inp dt g).player.coyoteTimer ≤ COYOTE_FRAMES := by
  rw [updatePlayer_coyoteTimer]
  apply coyoteTime_bounds _ _ _ h0 h3
  · rw [moveAndCollide_coyoteTimer, afterJump_coyoteTimer]
    split_ifs
    · norm_num
    · exact hlo
  · rw [moveAndCollide_coyoteTimer, afterJump_coyoteTimer]
    split_ifs
    · norm_num [COYOTE_FRAMES]
    · exact hhi

theorem updatePlayer_jumpBufferTimer_bounds (pw : ℚ → ℚ) (inp : Input) (dt : ℚ) (g : Game)
    (h0 : 0 ≤ dt) (h3 : dt ≤ 3) (hlo : -3 < g.player.jumpBufferTimer)
    (hhi : g.player.jumpBufferTimer ≤ JUMP_BUFFER_FRAMES) :
    -3 < (updatePlayer pw inp dt g).player.jumpBufferTimer ∧
      (updatePlayer pw inp dt g).player.jumpBufferTimer ≤ JUMP_BUFFER_FRAMES := by
  rw [updatePlayer_jumpBufferTimer, afterJump_jumpBufferTimer]
  split_ifs
  · norm_num [JUMP_BUFFER_FRAMES]
  · exact trackInput_jumpBufferTimer_bounds inp dt g.player h0 h3 hlo hhi

/-- A property of the game that `loadLevel` establishes and every `updatePlayer` call with
`0 ≤ dt ≤ 3` keeps holds after every run. -/
theorem runPlayer_invariant (pw : ℚ → ℚ) (I : Game → Prop)
    (hstep : ∀ inp dt g, 0 ≤ dt → dt ≤ 3 → I g → I (updatePlayer pw inp dt g))
    (frames : List Frame) (g : Game) (hdt : ∀ f ∈ frames, 0 ≤ f.dt ∧ f.dt ≤ 3) (hg : I g) :
    I (runPlayer pw frames g) := by
  unfold runPlayer
  induction frames generalizing g with
  | nil => exact hg
  | cons f fs ih =>
    rw [List.foldl_cons]
    apply ih
    · intro f' hf'
      exact hdt f' (List.mem_cons_of_mem _ hf')
    · exact hstep f.inp f.dt g (hdt f (List.mem_cons_self _ _)).1
        (hdt f (List.mem_cons_self _ _)).2 hg

theorem loadLevel_player (LEVELS : List Level) (index : ℕ) (g g0 : Game)
    (h : loadLevel LEVELS index g = some g0) : g0.player = resetPlayer g0.levelData := by
  unfold loadLevel at h
  split at h
  · exact absurd h (by simp)
  · injection h with h
    rw [← h]

/-! ## Grounded after the vertical move means `vy = 0` -/

theorem collideCellY_grounded (L : Level) (row : ℤ) (p : Player) (col : ℤ)
    (h : p.onGround = true → p.vy = 0) :
    (collideCellY L row p col).onGround = true → (collideCellY L row p col).vy = 0 := by
  unfold collideCellY
  split_ifs
  · intro _
    rfl
  · intro _
    rfl
  · exact h
  · exact h

theorem foldl_invariant {α β : Type} (I : α → Prop) (f : α → β → α)
    (hf : ∀ a b, I a → I (f a b)) (l : List β) (a : α) (ha : I a) : I (l.foldl f a) := by
  induction l generalizing a with
  | nil => exact ha
  | cons b l ih => exact ih (f a b) (hf a b ha)

theorem resolveCollisionY_grounded (L : Level) (p : Player) :
    (resolveCollisionY L p).onGround = true → (resolveCollisionY L p).vy = 0 := by
  unfold resolveCollisionY
  dsimp only
  apply foldl_invariant (fun q : Player => q.onGround = true → q.vy = 0)
  · intro a row ha
    apply foldl_invariant (fun q : Player => q.onGround = true → q.vy = 0)
    · intro b col hb
      exact collideCellY_grounded L row b col hb
    · exact ha
  · intro h
    exact absurd h (by simp)

theorem one_le_subSteps (v : ℚ) : 1 ≤ subSteps v := le_max_left _ _

theorem moveY_grounded (L : Level) (dt : ℚ) (p : Player) :
    (moveY L dt p).onGround = true → (moveY L dt p).vy = 0 := by
  unfold moveY
  dsimp only
  obtain ⟨m, hm⟩ : ∃ m : ℕ, (subSteps (p.vy * dt)).toNat = m + 1 := by
    have := one_le_subSteps (p.vy * dt)
    exact ⟨(subSteps (p.vy * dt)).toNat - 1, by omega⟩
  rw [hm, List.range_succ, List.foldl_append]
  simp only [List.foldl_cons, List.foldl_nil]
  unfold subStepY
  exact resolveCollisionY_grounded L _

/-! ## The enemy loop when the player does not move downward -/

theorem collideEnemy_no_stomp (p : Player) (score : ℕ) (e : Enemy) (h : p.vy ≤ 0) :
    (collideEnemy p score e).1.combo = p.combo ∧ (collideEnemy p score e).1.vy ≤ 0 ∧
      (collideEnemy p score e).2.1 = score := by
  have hs : isStomp p e = false := by
    unfold isStomp
    have : ¬ p.vy > 0 := not_lt.mpr h
    simp [this]
  unfold collideEnemy
  rw [hs]
  split_ifs <;> simp_all

theorem enemyContacts_no_stomp (p : Player) (score : ℕ) (es : List Enemy) (h : p.vy ≤ 0) :
    (enemyContacts p score es).player.combo = p.combo ∧
      (enemyContacts p score es).player.vy ≤ 0 ∧ (enemyContacts p score es).score = score := by
  unfold enemyContacts
  induction es with
  | nil => exact ⟨rfl, h, rfl⟩
  | cons e es ih =>
    rw [List.foldr_cons]
    obtain ⟨h1, h2, h3⟩ := ih
    have hc := collideEnemy_no_stomp
      (List.foldr contactStep { player := p, score := score, enemies := [] } es).player
      (List.foldr contactStep { player := p, score := score, enemies := [] } es).score e h2
    unfold contactStep
    dsimp only
    exact ⟨hc.1.trans h1, hc.2.1, hc.2.2.trans h3⟩

/-! ## `settle` on the combo and on a zero vertical velocity -/

theorem settle_combo (L : Level) (w : Bool) (dt : ℚ) (p : Player) :
    (settle L w dt p).combo = (landing w p).combo := by
  simp [settle]
  unfold landing
  split_ifs <;> simp_all

theorem settle_onGround (L : Level) (w : Bool) (dt : ℚ) (p : Player) :
    (settle L w dt p).onGround = p.onGround := by
  simp [settle]

theorem fallSafety_vy_zero (L : Level) (p : Player) (h : p.vy = 0) :
    (fallSafety L p).vy = 0 := by
  unfold fallSafety
  split_ifs
  · rfl
  · exact h

theorem settle_vy_zero (L : Level) (w : Bool) (dt : ℚ) (p : Player) (h : p.vy = 0) :
    (settle L w dt p).vy = 0 := by
  unfold settle
  rw [saveSafe_vy]
  apply fallSafety_vy_zero
  simp [h]

theorem landing_combo_zero (p : Player) (h : p.onGround = true) :
    (landing false p).combo = 0 := by
  unfold landing
  simp [h]

/-! ## The heart loop -/

theorem collectCell_of_new (row : ℤ) (g : Game) (col : ℤ) (h : HeartInReach g col row)
    (hnew : (col, row) ∉ g.collectedHearts) :
    collectCell row g col =
      { g with
        collectedHearts := (col, row) :: g.collectedHearts
        player := { g.player with heartsCollected := g.player.heartsCollected + 1 }
        score := g.score + SCORE_HEART } := by
  unfold HeartInReach at h
  unfold collectCell
  dsimp only
  rw [if_pos h.1, if_neg hnew, if_pos h.2]

theorem collectCell_of_not (row : ℤ) (g : Game) (col : ℤ)
    (h : ¬ (HeartInReach g col row ∧ (col, row) ∉ g.collectedHearts)) :
    collectCell row g col = g := by
  unfold HeartInReach at h
  unfold collectCell
  dsimp only
  split_ifs with h1 h2 h3
  · rfl
  · exact absurd ⟨⟨h1, h3⟩, h2⟩ h
  · rfl
  · rfl

theorem sameButHearts_heartInReach {g r : Game} (h : SameButHearts g r) (col row : ℤ) :
    HeartInReach r col row ↔ HeartInReach g col row := by
  unfold HeartInReach
  rw [h]

theorem sameButHearts_refl (g : Game) : SameButHearts g g := rfl

theorem sameButHearts_trans (g r s : Game) (h1 : SameButHearts g r) (h2 : SameButHearts r s) :
    SameButHearts g s := by
  unfold SameButHearts at *
  rw [h2, h1]

theorem collectCell_same (row : ℤ) (g : Game) (col : ℤ) :
    SameButHearts g (collectCell row g col) := by
  by_cases h : HeartInReach g col row ∧ (col, row) ∉ g.collectedHearts
  · rw [collectCell_of_new row g col h.1 h.2]
    rfl
  · rw [collectCell_of_not row g col h]
    rfl

theorem collectCells_same (cells : List (ℤ × ℤ)) (g : Game) :
    SameButHearts g (collectCells cells g) := by
  unfold collectCells
  apply foldl_rel SameButHearts sameButHearts_refl sameButHearts_trans
  intro a rc
  exact collectCell_same rc.1 a rc.2

/-- What the heart loop adds over the cells `cells`: fresh, distinct keys of heart tiles,
each paid with `SCORE_HEART` and one heart. -/
theorem collectCells_awards (cells : List (ℤ × ℤ)) (g : Game) :
    ∃ new : List (ℤ × ℤ),
      (collectCells cells g).collectedHearts = new ++ g.collectedHearts ∧
      new.Nodup ∧
      (∀ k ∈ new, k ∉ g.collectedHearts ∧ getTile g.levelData k.1 k.2 = 'H') ∧
      (collectCells cells g).score = g.score + SCORE_HEART * new.length ∧
      (collectCells cells g).player.heartsCollected = g.player.heartsCollected + new.length := by
  induction cells generalizing g with
  | nil => exact ⟨[], rfl, List.nodup_nil, by simp, by simp [collectCells], by simp [collectCells]⟩
  | cons rc rest ih =>
    have hstep : collectCells (rc :: rest) g = collectCells rest (collectCell rc.1 g rc.2) := rfl
    rw [hstep]
    obtain ⟨new1, hc, hnd, hfresh, hscore, hhearts⟩ := ih (collectCell rc.1 g rc.2)
    by_cases h : HeartInReach g rc.2 rc.1 ∧ (rc.2, rc.1) ∉ g.collectedHearts
    · rw [collectCell_of_new rc.1 g rc.2 h.1 h.2] at hc hfresh hscore hhearts ⊢
      dsimp only at hc hfresh hscore hhearts
      refine ⟨new1 ++ [(rc.2, rc.1)], ?_, ?_, ?_, ?_, ?_⟩
      · rw [hc, List.append_assoc, List.singleton_append]
      · rw [List.nodup_append]
        refine ⟨hnd, List.nodup_singleton _, ?_⟩
        intro a ha hb
        rw [List.mem_singleton] at hb
        subst hb
        exact (hfresh _ ha).1 (List.mem_cons_self _ _)
      · intro k hk
        rw [List.mem_append, List.mem_singleton] at hk
        rcases hk with hk | hk
        · exact ⟨fun hin => (hfresh k hk).1 (List.mem_cons_of_mem _ hin), (hfresh k hk).2⟩
        · subst hk
          exact ⟨h.2, h.1.1⟩
      · rw [hscore, List.length_append, List.length_singleton]
        ring
      · rw [hhearts, List.length_append, List.length_singleton]
        ring
    · rw [collectCell_of_not rc.1 g rc.2 h] at hc hfresh hscore hhearts ⊢
      exact ⟨new1, hc, hnd, hfresh, hscore, hhearts⟩

theorem collectCells_mono (cells : List (ℤ × ℤ)) (g : Game) (k : ℤ × ℤ)
    (hk : k ∈ g.collectedHearts) : k ∈ (collectCells cells g).collectedHearts := by
  obtain ⟨new, hc, _⟩ := collectCells_awards cells g
  rw [hc]
  exact List.mem_append_right _ hk

/-- After the loop every visited heart within reach is recorded. -/
theorem collectCells_complete (cells : List (ℤ × ℤ)) (g : Game) :
    ∀ rc ∈ cells, HeartInReach g rc.2 rc.1 →
      (rc.2, rc.1) ∈ (collectCells cells g).collectedHearts := by
  induction cells generalizing g with
  | nil => intro rc hrc; exact absurd hrc (List.not_mem_nil _)
  | cons rc0 rest ih =>
    intro rc hrc hreach
    have hstep : collectCells (rc0 :: rest) g = collectCells rest (collectCell rc0.1 g rc0.2) :=
      rfl
    rw [hstep]
    rcases List.mem_cons.1 hrc with heq | hin
    · subst heq
      apply collectCells_mono
      by_cases h : HeartInReach g rc.2 rc.1 ∧ (rc.2, rc.1) ∉ g.collectedHearts
      · rw [collectCell_of_new rc.1 g rc.2 h.1 h.2]
        exact List.mem_cons_self _ _
      · rw [collectCell_of_not rc.1 g rc.2 h]
        by_contra hnot
        exact h ⟨hreach, hnot⟩
    · exact ih (collectCell rc0.1 g rc0.2) rc hin
        ((sameButHearts_heartInReach (collectCell_same rc0.1 g rc0.2) rc.2 rc.1).2 hreach)

/-- The loop changes nothing when every visited heart within reach is already recorded. -/
theorem collectCells_of_collected (cells : List (ℤ × ℤ)) (g : Game)
    (h : ∀ rc ∈ cells, HeartInReach g rc.2 rc.1 → (rc.2, rc.1) ∈ g.collectedHearts) :
    collectCells cells g = g := by
  induction cells with
  | nil => rfl
  | cons rc0 rest ih =>
    have hstep : collectCells (rc0 :: rest) g = collectCells rest (collectCell rc0.1 g rc0.2) :=
      rfl
    rw [hstep, collectCell_of_not rc0.1 g rc0.2
      (fun hh => hh.2 (h rc0 (List.mem_cons_self _ _) hh.1))]
    exact ih (fun rc hrc => h rc (List.mem_cons_of_mem _ hrc))

theorem checkHeartCollection_eq (g : Game) :
    checkHeartCollection g = collectCells (heartCells g.player) g := rfl

theorem sameButHearts_heartCells {g r : Game} (h : SameButHearts g r) :
    heartCells r.player = heartCells g.player := by
  unfold heartCells
  rw [h]

/-! ## The jump key through one `updatePlayer` call -/

theorem trackInput_wasJumpPressed (inp : Input) (dt : ℚ) (p : Player) :
    (trackInput inp dt p).wasJumpPressed = inp.jump := by
  unfold trackInput
  dsimp only
  split_ifs <;> rfl

theorem updatePlayer_wasJumpPressed (pw : ℚ → ℚ) (inp : Input) (dt : ℚ) (g : Game) :
    (updatePlayer pw inp dt g).player.wasJumpPressed = inp.jump := by
  simp [updatePlayer, playerPhysics, settle, moveAndCollide, afterJump, beforeJump,
    trackInput_wasJumpPressed]

theorem jumpFires_of_grounded_press (pw : ℚ → ℚ) (inp : Input) (dt : ℚ) (p : Player)
    (hg : p.onGround = true) (hj : inp.jump = true) (hw : p.wasJumpPressed = false) :
    jumpFires pw inp dt p = true := by
  simp [jumpFires, wantsJump, canJump, jumpJustPressed, beforeJump, hg, hj, hw]

theorem afterJump_vy_of_fires (pw : ℚ → ℚ) (inp : Input) (dt : ℚ) (p : Player)
    (h : jumpFires pw inp dt p = true) : (afterJump pw inp dt p).vy = JUMP_FORCE := by
  unfold jumpFires at h
  unfold afterJump jumpExecution
  rw [if_pos h]

theorem afterJump_vy_of_not_fires (pw : ℚ → ℚ) (inp : Input) (dt : ℚ) (p : Player)
    (h : jumpFires pw inp dt p = false) : (afterJump pw inp dt p).vy = p.vy := by
  unfold jumpFires at h
  unfold afterJump jumpExecution
  rw [if_neg (by simp [h])]
  simp [beforeJump]

theorem trackInput_jumpBufferTimer_of_held (inp : Input) (dt : ℚ) (p : Player)
    (hw : p.wasJumpPressed = true) (hb : p.jumpBufferTimer ≤ 0) :
    (trackInput inp dt p).jumpBufferTimer = p.jumpBufferTimer := by
  unfold trackInput jumpJustPressed
  simp [hw, not_lt.mpr hb]

theorem jumpFires_of_held (pw : ℚ → ℚ) (inp : Input) (dt : ℚ) (p : Player)
    (hw : p.wasJumpPressed = true) (hb : p.jumpBufferTimer ≤ 0) :
    jumpFires pw inp dt p = false := by
  have ht := trackInput_jumpBufferTimer_of_held inp dt p hw hb
  simp [jumpFires, wantsJump, jumpJustPressed, beforeJump, hw, ht, not_lt.mpr hb]

/-- While the jump key stays held and the buffer is empty, every call keeps both facts. -/
theorem updatePlayer_held_invariant (pw : ℚ → ℚ) (inp : Input) (dt : ℚ) (g : Game)
    (hj : inp.jump = true) (hw : g.player.wasJumpPressed = true)
    (hb : g.player.jumpBufferTimer ≤ 0) :
    (updatePlayer pw inp dt g).player.wasJumpPressed = true ∧
      (updatePlayer pw inp dt g).player.jumpBufferTimer ≤ 0 := by
  refine ⟨by rw [updatePlayer_wasJumpPressed, hj], ?_⟩
  rw [updatePlayer_jumpBufferTimer, afterJump_jumpBufferTimer,
    jumpFires_of_held pw inp dt g.player hw hb]
  simp [trackInput_jumpBufferTimer_of_held inp dt g.player hw hb, hb]

theorem runPlayer_held_invariant (pw : ℚ → ℚ) (frames : List Frame) (g : Game)
    (hheld : ∀ f ∈ frames, f.inp.jump = true) (hw : g.player.wasJumpPressed = true)
    (hb : g.player.jumpBufferTimer ≤ 0) :
    (runPlayer pw frames g).player.wasJumpPressed = true ∧
      (runPlayer pw frames g).player.jumpBufferTimer ≤ 0 := by
  unfold runPlayer
  induction frames generalizing g with
  | nil => exact ⟨hw, hb⟩
  | cons f fs ih =>
    rw [List.foldl_cons]
    have h := updatePlayer_held_invariant pw f.inp f.dt g (hheld f (List.mem_cons_self _ _)) hw hb
    exact ih (updatePlayer pw f.inp f.dt g)
      (fun f' hf' => hheld f' (List.mem_cons_of_mem _ hf')) h.1 h.2

/-! ## Vertical velocity that is not downward stays so -/

theorem collideCellY_vy_nonpos (L : Level) (row : ℤ) (p : Player) (col : ℤ) (h : p.vy ≤ 0) :
    (collideCellY L row p col).vy ≤ 0 := by
  unfold collideCellY
  split_ifs
  · exact le_refl _
  · exact le_refl _
  · exact h
  · exact h

theorem resolveCollisionY_vy_nonpos (L : Level) (p : Player) (h : p.vy ≤ 0) :
    (resolveCollisionY L p).vy ≤ 0 := by
  unfold resolveCollisionY
  dsimp only
  apply foldl_invariant (fun q : Player => q.vy ≤ 0)
  · intro a row ha
    apply foldl_invariant (fun q : Player => q.vy ≤ 0)
    · intro b col hb
      exact collideCellY_vy_nonpos L row b col hb
    · exact ha
  · exact h

theorem moveY_vy_nonpos (L : Level) (dt : ℚ) (p : Player) (h : p.vy ≤ 0) :
    (moveY L dt p).vy ≤ 0 := by
  unfold moveY
  dsimp only
  apply foldl_invariant (fun q : Player => q.vy ≤ 0)
  · intro a _ ha
    unfold subStepY
    exact resolveCollisionY_vy_nonpos L _ ha
  · exact h

theorem settle_vy_nonpos (L : Level) (w : Bool) (dt : ℚ) (p : Player) (h : p.vy ≤ 0) :
    (settle L w dt p).vy ≤ 0 := by
  unfold settle
  rw [saveSafe_vy]
  unfold fallSafety
  split_ifs
  · exact le_refl _
  · simpa using h

theorem updatePlayer_vy_nonpos (pw : ℚ → ℚ) (inp : Input) (dt : ℚ) (g : Game)
    (h : (moveAndCollide pw g.levelData inp dt g.player).vy ≤ 0) :
    (updatePlayer pw inp dt g).player.vy ≤ 0 := by
  unfold updatePlayer playerPhysics
  dsimp only
  exact (enemyContacts_no_stomp _ _ _ (settle_vy_nonpos _ _ _ _ h)).2.1

theorem updatePlayer_onGround (pw : ℚ → ℚ) (inp : Input) (dt : ℚ) (g : Game) :
    (updatePlayer pw inp dt g).player.onGround =
      (moveAndCollide pw g.levelData inp dt g.player).onGround := by
  simp [updatePlayer, playerPhysics, settle_onGround]

theorem moveAndCollide_vy_nonpos_of_fires (pw : ℚ → ℚ) (L : Level) (inp : Input) (p : Player)
    (h : jumpFires pw inp 1 p = true) : (moveAndCollide pw L inp 1 p).vy ≤ 0 := by
  unfold moveAndCollide
  apply moveY_vy_nonpos
  rw [moveX_vy]
  have hj := afterJump_vy_of_fires pw inp 1 p h
  unfold gravity airState variableJump
  dsimp only
  split_ifs <;> simp_all [JUMP_FORCE, GRAVITY, MAX_FALL] <;> norm_num at *

/-! ## The coyote timer through one call at `dt = 1` -/

theorem coyoteTime_armed (q : Player) (hq : q.onGround = false) (hv : 0 < q.vy) :
    (coyoteTime true 1 q).coyoteTimer = 6 := by
  unfold coyoteTime
  simp [hq, hv, COYOTE_FRAMES]
  norm_num

theorem coyoteTime_airborne_step (dt : ℚ) (q : Player) (hq : q.onGround = false) :
    (coyoteTime false dt q).coyoteTimer =
      if q.coyoteTimer > 0 then q.coyoteTimer - dt else q.coyoteTimer := by
  unfold coyoteTime
  dsimp only
  by_cases hc : q.coyoteTimer > 0
  · simp [hq, hc]
  · simp [hq, hc]

theorem coyoteTime_airborne (q : Player) (n : ℕ) (hq : q.onGround = false)
    (hc : q.coyoteTimer = ((6 - n : ℕ) : ℚ)) :
    (coyoteTime false 1 q).coyoteTimer = ((6 - (n + 1) : ℕ) : ℚ) := by
  rw [coyoteTime_airborne_step 1 q hq, hc]
  rcases Nat.lt_or_ge n 6 with hn | hn
  · obtain ⟨m, hm⟩ : ∃ m, 6 - n = m + 1 := ⟨5 - n, by omega⟩
    have hm' : 6 - (n + 1) = m := by omega
    rw [hm, hm']
    have hpos : ((m + 1 : ℕ) : ℚ) > 0 := by positivity
    rw [if_pos hpos]
    push_cast
    ring
  · have h1 : 6 - n = 0 := by omega
    have h2 : 6 - (n + 1) = 0 := by omega
    rw [h1, h2]
    simp

theorem jumpFires_of_no_press (pw : ℚ → ℚ) (inp : Input) (dt : ℚ) (p : Player)
    (hj : inp.jump = false) (hb : p.jumpBufferTimer ≤ 0) : jumpFires pw inp dt p = false := by
  have ht : (trackInput inp dt p).jumpBufferTimer = p.jumpBufferTimer := by
    unfold trackInput jumpJustPressed
    simp [hj, not_lt.mpr hb]
  simp [jumpFires, wantsJump, jumpJustPressed, beforeJump, hj, ht, not_lt.mpr hb]

theorem updatePlayer_jumpBufferTimer_of_no_press (pw : ℚ → ℚ) (inp : Input) (dt : ℚ) (g : Game)
    (hj : inp.jump = false) (hb : g.player.jumpBufferTimer ≤ 0) :
    (updatePlayer pw inp dt g).player.jumpBufferTimer ≤ 0 := by
  rw [updatePlayer_jumpBufferTimer, afterJump_jumpBufferTimer,
    jumpFires_of_no_press pw inp dt g.player hj hb]
  have ht : (trackInput inp dt g.player).jumpBufferTimer = g.player.jumpBufferTimer := by
    unfold trackInput jumpJustPressed
    simp [hj, not_lt.mpr hb]
  simpa [ht] using hb

/-- One airborne frame with no jump pressed, `dt = 1`: the coyote timer steps from
`6 - n` to `6 - (n + 1)` (truncated at 0) and the jump key and buffer stay released and empty. -/
theorem updatePlayer_airborne_frame (pw : ℚ → ℚ) (inp : Input) (g : Game) (n : ℕ)
    (hj : inp.jump = false) (h1 : g.player.onGround = false)
    (h3 : g.player.jumpBufferTimer ≤ 0) (h4 : g.player.coyoteTimer = ((6 - n : ℕ) : ℚ))
    (hair : (updatePlayer pw inp 1 g).player.onGround = false) :
    (updatePlayer pw inp 1 g).player.wasJumpPressed = false ∧
      (updatePlayer pw inp 1 g).player.jumpBufferTimer ≤ 0 ∧
      (updatePlayer pw inp 1 g).player.coyoteTimer = ((6 - (n + 1) : ℕ) : ℚ) := by
  refine ⟨by rw [updatePlayer_wasJumpPressed, hj],
    updatePlayer_jumpBufferTimer_of_no_press pw inp 1 g hj h3, ?_⟩
  rw [updatePlayer_onGround] at hair
  rw [updatePlayer_coyoteTimer, h1]
  apply coyoteTime_airborne _ n hair
  rw [moveAndCollide_coyoteTimer, afterJump_coyoteTimer,
    jumpFires_of_no_press pw inp 1 g.player hj h3]
  simpa using h4

/-- Frame 0 of a walk off a ledge, `dt = 1`: grounded at the start, no jump pressed, airborne
with `vy > 0` at the end.  The coyote timer is 6 when the call returns. -/
theorem updatePlayer_ledge_frame (pw : ℚ → ℚ) (inp : Input) (g : Game)
    (hj : inp.jump = false) (hg : g.player.onGround = true)
    (hair : (updatePlayer pw inp 1 g).player.onGround = false)
    (hfall : 0 < (updatePlayer pw inp 1 g).player.vy) :
    (updatePlayer pw inp 1 g).player.wasJumpPressed = false ∧
      (updatePlayer pw inp 1 g).player.jumpBufferTimer ≤ 0 ∧
      (updatePlayer pw inp 1 g).player.coyoteTimer = ((6 - 0 : ℕ) : ℚ) := by
  have hnofire : jumpFires pw inp 1 g.player = false := by
    by_contra hf
    have hf' : jumpFires pw inp 1 g.player = true := by simpa using hf
    have := updatePlayer_vy_nonpos pw inp 1 g
      (moveAndCollide_vy_nonpos_of_fires pw g.levelData inp g.player hf')
    exact absurd hfall (not_lt.mpr this)
  have hq : 0 < (moveAndCollide pw g.levelData inp 1 g.player).vy := by
    by_contra hle
    exact absurd hfall (not_lt.mpr (updatePlayer_vy_nonpos pw inp 1 g (not_lt.mp hle)))
  have hbuf : (trackInput inp 1 g.player).jumpBufferTimer ≤ 0 := by
    have h := hnofire
    simp only [jumpFires, wantsJump, canJump, beforeJump, horizontal_onGround,
      trackInput_onGround, hg, horizontal_jumpBufferTimer, Bool.true_or, Bool.and_true,
      Bool.or_eq_false_iff, decide_eq_false_iff_not, not_lt] at h
    exact h.2
  refine ⟨by rw [updatePlayer_wasJumpPressed, hj], ?_, ?_⟩
  · rw [updatePlayer_jumpBufferTimer, afterJump_jumpBufferTimer, hnofire]
    simpa using hbuf
  · rw [updatePlayer_onGround] at hair
    rw [updatePlayer_coyoteTimer, hg, coyoteTime_armed _ hair hq]
    norm_num

/-- Along airborne frames with no jump pressed and `dt = 1`, starting with the timer at
`6 - n`, the timer after `mid` is `6 - (n + mid.length)` truncated at 0. -/
theorem runPlayer_airborne_frames (pw : ℚ → ℚ) (mid : List Input) (g : Game) (n : ℕ)
    (hmid : ∀ i ∈ mid, i.jump = false)
    (hair : ∀ pre, pre <+: mid →
      (runPlayer pw (pre.map unitFrame) g).player.onGround = false)
    (h2 : g.player.wasJumpPressed = false) (h3 : g.player.jumpBufferTimer ≤ 0)
    (h4 : g.player.coyoteTimer = ((6 - n : ℕ) : ℚ)) :
    (runPlayer pw (mid.map unitFrame) g).player.onGround = false ∧
      (runPlayer pw (mid.map unitFrame) g).player.wasJumpPressed = false ∧
      (runPlayer pw (mid.map unitFrame) g).player.jumpBufferTimer ≤ 0 ∧
      (runPlayer pw (mid.map unitFrame) g).player.coyoteTimer
        = ((6 - (n + mid.length) : ℕ) : ℚ) := by
  induction mid generalizing g n with
  | nil => exact ⟨hair [] (List.prefix_refl _), h2, h3, by simpa using h4⟩
  | cons i rest ih =>
    have h1 : g.player.onGround = false := hair [] (List.nil_prefix)
    have hstep : ∀ l : List Input, runPlayer pw ((i :: l).map unitFrame) g =
        runPlayer pw (l.map unitFrame) (updatePlayer pw i 1 g) := fun l => rfl
    have hair1 : (updatePlayer pw i 1 g).player.onGround = false := by
      have := hair [i] (by simp)
      rwa [hstep []] at this
    obtain ⟨a, b, c⟩ := updatePlayer_airborne_frame pw i g n
      (hmid i (List.mem_cons_self _ _)) h1 h3 h4 hair1
    rw [hstep rest]
    have := ih (updatePlayer pw i 1 g) (n + 1)
      (fun j hj => hmid j (List.mem_cons_of_mem _ hj))
      (fun pre hpre => by
        rw [← hstep pre]
        exact hair (i :: pre) (by simpa using hpre))
      a b c
    rw [List.length_cons]
    have e : n + (rest.length + 1) = n + 1 + rest.length := by omega
    rw [e]
    exact this

/-- The coyote window: after walking off a ledge in frame 0 and staying airborne through the
frames `mid` (all with `dt = 1`, no jump pressed), a jump pressed in the next frame, frame
`k = mid.length + 1`, fires exactly when `k ≤ 6`. -/
theorem coyote_window_six_frames (pw : ℚ → ℚ) (g : Game) (inp0 : Input) (mid : List Input)
    (inpk : Input) (hg : g.player.onGround = true) (hj0 : inp0.jump = false)
    (hmid : ∀ i ∈ mid, i.jump = false) (hpress : inpk.jump = true)
    (hair : ∀ pre, pre <+: mid →
      (runPlayer pw ((inp0 :: pre).map unitFrame) g).player.onGround = false)
    (hfall : 0 < (updatePlayer pw inp0 1 g).player.vy) :
    jumpFires pw inpk 1 (runPlayer pw ((inp0 :: mid).map unitFrame) g).player
      = decide (mid.length + 1 ≤ 6) := by
  have hstep : ∀ l : List Input, runPlayer pw ((inp0 :: l).map unitFrame) g =
      runPlayer pw (l.map unitFrame) (updatePlayer pw inp0 1 g) := fun l => rfl
  have hair0 : (updatePlayer pw inp0 1 g).player.onGround = false := by
    have := hair [] List.nil_prefix
    rwa [hstep []] at this
  obtain ⟨a, b, c⟩ := updatePlayer_ledge_frame pw inp0 g hj0 hg hair0 hfall
  obtain ⟨r1, r2, r3, r4⟩ := runPlayer_airborne_frames pw mid (updatePlayer pw inp0 1 g) 0 hmid
    (fun pre hpre => by
      rw [← hstep pre]
      exact hair pre hpre)
    a b c
  rw [hstep mid]
  simp only [jumpFires, wantsJump, canJump, jumpJustPressed, beforeJump, hpress, r2,
    horizontal_onGround, trackInput_onGround, r1, horizontal_coyoteTimer,
    trackInput_coyoteTimer, r4]
  simp only [Bool.not_false, Bool.and_self, Bool.true_or, Bool.false_or, Bool.true_and,
    zero_add]
  rcases Nat.lt_or_ge mid.length 6 with hn | hn
  · have hpos : (0 : ℚ) < ((6 - mid.length : ℕ) : ℚ) := by
      have : 0 < 6 - mid.length := by omega
      exact_mod_cast this
    simp [hpos]
    omega
  · have h0 : (6 - mid.length : ℕ) = 0 := by omega
    rw [h0]
    simp
    omega

/-! ## A frame at rest on the ground -/

@[simp] theorem coyoteTime_y (w : Bool) (dt : ℚ) (p : Player) :
    (coyoteTime w dt p).y = p.y := by
  unfold coyoteTime; dsimp only; split_ifs <;> rfl

@[simp] theorem coyoteTime_state (w : Bool) (dt : ℚ) (p : Player) :
    (coyoteTime w dt p).state = p.state := by
  unfold coyoteTime; dsimp only; split_ifs <;> rfl

@[simp] theorem landing_y (w : Bool) (p : Player) :
    (landing w p).y = p.y := by
  unfold landing; split_ifs <;> rfl

@[simp] theorem landing_state (w : Bool) (p : Player) :
    (landing w p).state = p.state := by
  unfold landing; split_ifs <;> rfl

@[simp] theorem squashReturn_y (dt : ℚ) (p : Player) :
    (squashReturn dt p).y = p.y := by
  rfl

@[simp] theorem squashReturn_state (dt : ℚ) (p : Player) :
    (squashReturn dt p).state = p.state := by
  rfl

@[simp] theorem invincibility_y (dt : ℚ) (p : Player) :
    (invincibility dt p).y = p.y := by
  unfold invincibility; split_ifs <;> rfl

@[simp] theorem invincibility_state (dt : ℚ) (p : Player) :
    (invincibility dt p).state = p.state := by
  unfold invincibility; split_ifs <;> rfl

@[simp] theorem animation_y (dt : ℚ) (p : Player) :
    (animation dt p).y = p.y := by
  unfold animation; dsimp only; split_ifs <;> rfl

@[simp] theorem animation_state (dt : ℚ) (p : Player) :
    (animation dt p).state = p.state := by
  unfold animation; dsimp only; split_ifs <;> rfl

@[simp] theorem levelBounds_y (L : Level) (p : Player) :
    (levelBounds L p).y = p.y := by
  unfold levelBounds; dsimp only; split_ifs <;> rfl

@[simp] theorem levelBounds_state (L : Level) (p : Player) :
    (levelBounds L p).state = p.state := by
  unfold levelBounds; dsimp only; split_ifs <;> rfl

@[simp] theorem fallSafety_state (L : Level) (p : Player) :
    (fallSafety L p).state = p.state := by
  unfold fallSafety; split_ifs <;> rfl

@[simp] theorem saveSafe_y (p : Player) :
    (saveSafe p).y = p.y := by
  unfold saveSafe; split_ifs <;> rfl

@[simp] theorem saveSafe_state (p : Player) :
    (saveSafe p).state = p.state := by
  unfold saveSafe; split_ifs <;> rfl

theorem foldl_fixed {α β : Type} (f : α → β → α) (l : List β) (a : α)
    (h : ∀ b ∈ l, f a b = a) : l.foldl f a = a := by
  induction l with
  | nil => rfl
  | cons b l ih =>
    rw [List.foldl_cons, h b (List.mem_cons_self _ _)]
    exact ih (fun c hc => h c (List.mem_cons_of_mem _ hc))

theorem resolveCollisionX_of_free (L : Level) (p : Player) (h : CellsFree L p.x p.y) :
    resolveCollisionX L p = p := by
  unfold resolveCollisionX
  dsimp only
  apply foldl_fixed
  intro row hrow
  apply foldl_fixed
  intro col hcol
  rw [mem_cellRange] at hrow hcol
  unfold collideCellX
  rw [h col row hcol.1 hcol.2 hrow.1 hrow.2]
  rfl

theorem resolveCollisionY_of_free (L : Level) (p : Player) (h : CellsFree L p.x p.y) :
    resolveCollisionY L p = { p with onGround := false } := by
  unfold resolveCollisionY
  dsimp only
  apply foldl_fixed
  intro row hrow
  apply foldl_fixed
  intro col hcol
  rw [mem_cellRange] at hrow hcol
  unfold collideCellY
  rw [h col row hcol.1 hcol.2 hrow.1 hrow.2]
  rfl

theorem floor_resting_top (row : ℤ) (d : ℚ) (h0 : 0 ≤ d) (h1 : d < 1) :
    ⌊((row : ℚ) * TS - PLAYER_H + d) / TS⌋ = row - 1 := by
  rw [Int.floor_eq_iff]
  unfold TS PLAYER_H
  push_cast
  constructor
  · rw [le_div_iff₀ (by norm_num)]
    linarith
  · rw [div_lt_iff₀ (by norm_num)]
    linarith

theorem floor_resting_bottom (row : ℤ) (d : ℚ) (h0 : 0 ≤ d) (h1 : d < 1) :
    ⌊((row : ℚ) * TS - PLAYER_H + d + PLAYER_H - 1) / TS⌋ = row - 1 := by
  rw [Int.floor_eq_iff]
  unfold TS PLAYER_H
  push_cast
  constructor
  · rw [le_div_iff₀ (by norm_num)]
    linarith
  · rw [div_lt_iff₀ (by norm_num)]
    linarith

theorem cellsFree_resting (L : Level) (x : ℚ) (row : ℤ) (d : ℚ) (h0 : 0 ≤ d) (h1 : d < 1)
    (h : CellsFree L x ((row : ℚ) * TS - PLAYER_H)) :
    CellsFree L x ((row : ℚ) * TS - PLAYER_H + d) := by
  intro col r hc1 hc2 hr1 hr2
  rw [floor_resting_top row d h0 h1] at hr1
  rw [floor_resting_bottom row d h0 h1] at hr2
  apply h col r hc1 hc2
  · have := floor_resting_top row 0 (le_refl _) (by norm_num)
    rw [add_zero] at this
    rw [this]
    exact hr1
  · have := floor_resting_bottom row 0 (le_refl _) (by norm_num)
    rw [add_zero] at this
    rw [this]
    exact hr2


theorem isSolid_row_lt_height (L : Level) (col row : ℤ) (h : isSolid L col row = true) :
    row < L.height := by
  by_contra hlt
  have hge : row ≥ L.height := not_lt.mp hlt
  have : getTile L col row = ' ' := by
    unfold getTile
    rw [if_pos (Or.inr (Or.inl hge))]
  unfold isSolid at h
  rw [this] at h
  revert h
  decide

theorem subSteps_small (v : ℚ) (h0 : 0 ≤ v) (h1 : v ≤ TS * (8 / 10)) : subSteps v = 1 := by
  unfold subSteps
  apply max_eq_left
  rw [Int.ceil_le, abs_of_nonneg h0]
  have hpos : (0 : ℚ) < TS * (8 / 10) := by norm_num [TS]
  rw [div_le_iff₀ hpos]
  push_cast
  linarith

/-- The player after the vertical move of a frame at rest, `dt = 1`, no key held: gravity has
moved it `GRAVITY` pixels down and no tested cell holds the ground, so it is not grounded. -/
theorem moveAndCollide_resting (pw : ℚ → ℚ) (L : Level) (p : Player) (row : ℤ)
    (hg : p.onGround = true) (hvy : p.vy = 0) (hvx : p.vx = 0)
    (hy : p.y = (row : ℚ) * TS - PLAYER_H) (hb : p.jumpBufferTimer ≤ 0)
    (hfree : CellsFree L p.x p.y) :
    moveAndCollide pw L idleInput 1 p =
      { p with
        wasJumpPressed := false, vx := 0, state := AnimState.idle
        vy := GRAVITY, y := p.y + GRAVITY, onGround := false } := by
  have h1 : trackInput idleInput 1 p = { p with wasJumpPressed := false } := by
    unfold trackInput jumpJustPressed idleInput
    simp [not_lt.mpr hb]
  have h2 : beforeJump pw idleInput 1 p =
      { p with wasJumpPressed := false, vx := 0, state := AnimState.idle } := by
    unfold beforeJump
    rw [h1]
    unfold horizontal moveDir idleInput
    simp [hvx, hg]
  have h3 : afterJump pw idleInput 1 p =
      { p with wasJumpPressed := false, vx := 0, state := AnimState.idle } := by
    unfold afterJump jumpExecution
    rw [h2]
    simp [wantsJump, jumpJustPressed, idleInput, not_lt.mpr hb]
  unfold moveAndCollide
  rw [h3]
  have h4 : variableJump (jumpJustReleased idleInput p)
      { p with wasJumpPressed := false, vx := 0, state := AnimState.idle } =
      { p with wasJumpPressed := false, vx := 0, state := AnimState.idle } := by
    unfold variableJump
    simp [hvy]
  rw [h4]
  have h5 : airState { p with wasJumpPressed := false, vx := 0, state := AnimState.idle } =
      { p with wasJumpPressed := false, vx := 0, state := AnimState.idle } := by
    unfold airState
    simp [hg]
  rw [h5]
  have h6 : gravity 1 { p with wasJumpPressed := false, vx := 0, state := AnimState.idle } =
      { p with wasJumpPressed := false, vx := 0, state := AnimState.idle, vy := GRAVITY } := by
    unfold gravity
    simp [hvy, GRAVITY, MAX_FALL]
    norm_num
  rw [h6]
  have h7 : moveX L 1
      { p with wasJumpPressed := false, vx := 0, state := AnimState.idle, vy := GRAVITY } =
      { p with wasJumpPressed := false, vx := 0, state := AnimState.idle, vy := GRAVITY } := by
    unfold moveX
    simp only [zero_mul, add_zero]
    exact resolveCollisionX_of_free L _ hfree
  rw [h7]
  unfold moveY
  dsimp only
  rw [mul_one, subSteps_small GRAVITY (by norm_num [GRAVITY]) (by norm_num [GRAVITY, TS])]
  have hr : List.range (1 : ℤ).toNat = [0] := rfl
  rw [hr]
  simp only [List.foldl_cons, List.foldl_nil, Int.cast_one, div_one]
  unfold subStepY
  rw [resolveCollisionY_of_free]
  dsimp only
  rw [hy]
  exact cellsFree_resting L p.x row GRAVITY (by norm_num [GRAVITY]) (by norm_num [GRAVITY])
    (hy ▸ hfree)

theorem settle_vy_of_in_map (L : Level) (w : Bool) (dt : ℚ) (p : Player)
    (h : ¬ p.y > (L.height : ℚ) * TS + 32) : (settle L w dt p).vy = p.vy := by
  unfold settle
  rw [saveSafe_vy]
  unfold fallSafety
  rw [if_neg (by simpa using h)]
  simp

theorem settle_state (L : Level) (w : Bool) (dt : ℚ) (p : Player) :
    (settle L w dt p).state = p.state := by
  simp [settle]

/-- Every frame at rest leaves the ground: for every level, a grounded player at
`y = row * TS - PLAYER_H` over a solid tile of row `row`, with `vx = vy = 0`, an empty jump
buffer, its tested cells free and no enemies, ends one `updatePlayer` call with `dt = 1` and no
key held in state idle, with `vy = GRAVITY` and not grounded. -/
theorem resting_frame_leaves_ground (pw : ℚ → ℚ) (g : Game) (col row : ℤ)
    (hg : g.player.onGround = true) (hvy : g.player.vy = 0) (hvx : g.player.vx = 0)
    (hy : g.player.y = (row : ℚ) * TS - PLAYER_H) (hb : g.player.jumpBufferTimer ≤ 0)
    (hfree : CellsFree g.levelData g.player.x g.player.y)
    (hbelow : isSolid g.levelData col row = true) (hen : g.enemies = []) :
    (updatePlayer pw idleInput 1 g).player.state = AnimState.idle ∧
      (updatePlayer pw idleInput 1 g).player.vy = GRAVITY ∧
      (updatePlayer pw idleInput 1 g).player.onGround = false := by
  have hq := moveAndCollide_resting pw g.levelData g.player row hg hvy hvx hy hb hfree
  have hrow : (row : ℚ) < (g.levelData.height : ℚ) := by
    exact_mod_cast isSolid_row_lt_height g.levelData col row hbelow
  refine ⟨?_, ?_, ?_⟩
  · unfold updatePlayer playerPhysics
    simp [hen, enemyContacts, settle_state, hq]
  · unfold updatePlayer playerPhysics
    simp only [hen, enemyContacts, List.foldr_nil]
    rw [settle_vy_of_in_map, hq]
    rw [hq]
    dsimp only
    rw [hy]
    unfold TS PLAYER_H GRAVITY
    intro hgt
    norm_num at hgt
    unfold TS at hrow
    linarith
  · rw [updatePlayer_onGround, hq]

/-! ## Contacts that are not stomps -/

theorem collideEnemy_of_hit (p : Player) (score : ℕ) (e : Enemy) (halive : e.alive = true)
    (hover : overlaps p e = true)
    (hnot : ¬ (isStomp p e = true ∧ e.type ≠ EnemyType.thorn))
    (hinv : p.invincibleTimer ≤ 0) :
    collideEnemy p score e =
      ({ p with
         x := p.lastSafeX, y := p.lastSafeY, vx := 0, vy := 0
         invincibleTimer := INVINCIBLE_FRAMES },
       score, e) := by
  unfold collideEnemy
  have h1 : (isStomp p e && decide (e.type ≠ EnemyType.thorn)) = false := by
    by_contra h
    apply hnot
    simpa using h
  rw [h1]
  simp [halive, hover, hinv]

theorem collideEnemy_of_invincible (p : Player) (score : ℕ) (e : Enemy)
    (hnot : ¬ (isStomp p e = true ∧ e.type ≠ EnemyType.thorn))
    (hinv : 0 < p.invincibleTimer) :
    collideEnemy p score e = (p, score, e) := by
  unfold collideEnemy
  have h1 : (isStomp p e && decide (e.type ≠ EnemyType.thorn)) = false := by
    by_contra h
    apply hnot
    simpa using h
  have h2 : ¬ p.invincibleTimer ≤ 0 := not_le.mpr hinv
  rw [h1]
  simp [h2]

theorem collideEnemy_combo_of_not_stomp (p : Player) (score : ℕ) (e : Enemy)
    (hnot : ¬ (isStomp p e = true ∧ e.type ≠ EnemyType.thorn)) :
    (collideEnemy p score e).1.combo = p.combo ∧ (collideEnemy p score e).2.1 = score ∧
      (collideEnemy p score e).2.2 = e := by
  unfold collideEnemy
  have h1 : (isStomp p e && decide (e.type ≠ EnemyType.thorn)) = false := by
    by_contra h
    apply hnot
    simpa using h
  rw [h1]
  simp only [Bool.false_eq_true, if_false]
  split_ifs <;> exact ⟨rfl, rfl, rfl⟩

/-! ## The combo of a grounded player -/

theorem runPlayer_preserves (pw : ℚ → ℚ) (I : Game → Prop)
    (hstep : ∀ inp dt g, I g → I (updatePlayer pw inp dt g))
    (frames : List Frame) (g : Game) (hg : I g) : I (runPlayer pw frames g) := by
  unfold runPlayer
  induction frames generalizing g with
  | nil => exact hg
  | cons f fs ih =>
    rw [List.foldl_cons]
    exact ih _ (hstep f.inp f.dt g hg)

/-- When the call ends grounded, no stomp happens in it and the combo is what the landing
block leaves. -/
theorem updatePlayer_combo_of_grounded (pw : ℚ → ℚ) (inp : Input) (dt : ℚ) (g : Game)
    (hend : (updatePlayer pw inp dt g).player.onGround = true) :
    (updatePlayer pw inp dt g).player.combo =
      if g.player.onGround then g.player.combo else 0 := by
  rw [updatePlayer_onGround] at hend
  have hvy : (moveAndCollide pw g.levelData inp dt g.player).vy = 0 := by
    unfold moveAndCollide at hend ⊢
    exact moveY_grounded _ _ _ hend
  unfold updatePlayer playerPhysics
  dsimp only
  have hs := settle_vy_zero g.levelData g.player.onGround dt _ hvy
  rw [(enemyContacts_no_stomp _ g.score g.enemies (le_of_eq hs)).1, settle_combo]
  unfold landing
  cases hw : g.player.onGround with
  | false => simp [hend]
  | true => simp [moveAndCollide, afterJump, beforeJump]

theorem updatePlayer_grounded_combo (pw : ℚ → ℚ) (inp : Input) (dt : ℚ) (g : Game)
    (hg : g.player.onGround = true → g.player.combo = 0)
    (hend : (updatePlayer pw inp dt g).player.onGround = true) :
    (updatePlayer pw inp dt g).player.combo = 0 := by
  rw [updatePlayer_combo_of_grounded pw inp dt g hend]
  split_ifs with hw
  · exact hg hw
  · rfl

/-! ## A call in which the jump fires -/

theorem afterJump_onGround_of_fires (pw : ℚ → ℚ) (inp : Input) (dt : ℚ) (p : Player)
    (h : jumpFires pw inp dt p = true) : (afterJump pw inp dt p).onGround = false := by
  unfold jumpFires at h
  unfold afterJump jumpExecution
  rw [if_pos h]

theorem collideCellY_airborne (L : Level) (row : ℤ) (p : Player) (col : ℤ)
    (h : p.vy ≤ 0 ∧ p.onGround = false) :
    (collideCellY L row p col).vy ≤ 0 ∧ (collideCellY L row p col).onGround = false := by
  unfold collideCellY
  split_ifs with h1 h2 h3
  · exact absurd h2 (not_lt.mpr h.1)
  · exact ⟨le_refl _, h.2⟩
  · exact h
  · exact h

theorem moveY_airborne (L : Level) (dt : ℚ) (p : Player) (h : p.vy ≤ 0)
    (hg : p.onGround = false) : (moveY L dt p).onGround = false := by
  have : (moveY L dt p).vy ≤ 0 ∧ (moveY L dt p).onGround = false := by
    unfold moveY
    dsimp only
    apply foldl_invariant (fun q : Player => q.vy ≤ 0 ∧ q.onGround = false)
    · intro a _ ha
      unfold subStepY resolveCollisionY
      dsimp only
      apply foldl_invariant (fun q : Player => q.vy ≤ 0 ∧ q.onGround = false)
      · intro b row hb
        apply foldl_invariant (fun q : Player => q.vy ≤ 0 ∧ q.onGround = false)
        · intro c col hc
          exact collideCellY_airborne L row c col hc
        · exact hb
      · exact ⟨ha.1, rfl⟩
    · exact ⟨h, hg⟩
  exact this.2

/-- The velocity right before the horizontal move of a call in which the jump fires is upward
when `dt ≤ 3`. -/
theorem gravity_vy_neg_of_fires (pw : ℚ → ℚ) (inp : Input) (dt : ℚ) (p : Player)
    (hdt : dt ≤ 3) (h : jumpFires pw inp dt p = true) :
    (gravity dt (airState (variableJump (jumpJustReleased inp p)
      (afterJump pw inp dt p)))).vy < 0 := by
  have hj := afterJump_vy_of_fires pw inp dt p h
  unfold gravity airState variableJump
  dsimp only
  split_ifs <;> simp_all [JUMP_FORCE, GRAVITY, MAX_FALL] <;> norm_num at * <;> linarith

theorem moveAndCollide_of_fires (pw : ℚ → ℚ) (L : Level) (inp : Input) (dt : ℚ) (p : Player)
    (hdt : dt ≤ 3) (h : jumpFires pw inp dt p = true) :
    (moveAndCollide pw L inp dt p).onGround = false ∧ (moveAndCollide pw L inp dt p).vy ≤ 0 := by
  have hv := gravity_vy_neg_of_fires pw inp dt p hdt h
  have hg : (gravity dt (airState (variableJump (jumpJustReleased inp p)
      (afterJump pw inp dt p)))).onGround = false := by
    simp [afterJump_onGround_of_fires pw inp dt p h]
  unfold moveAndCollide
  refine ⟨moveY_airborne _ _ _ ?_ ?_, moveY_vy_nonpos _ _ _ ?_⟩
  · rw [moveX_vy]
    exact le_of_lt hv
  · rw [moveX_onGround]
    exact hg
  · rw [moveX_vy]
    exact le_of_lt hv

theorem coyoteTime_of_not_falling (w : Bool) (dt : ℚ) (q : Player) (hv : q.vy ≤ 0)
    (hc : q.coyoteTimer ≤ 0) : (coyoteTime w dt q).coyoteTimer ≤ 0 := by
  unfold coyoteTime
  dsimp only
  have h1 : ¬ q.vy > 0 := not_lt.mpr hv
  have h2 : ¬ q.coyoteTimer > 0 := not_lt.mpr hc
  simp only [h1, decide_False, Bool.and_false, Bool.false_eq_true, if_false, h2, Bool.false_and]
  split_ifs
  · exact le_refl _
  · exact hc

theorem coyoteTime_of_airborne_start (dt : ℚ) (q : Player) (hc : q.coyoteTimer ≤ 0) :
    (coyoteTime false dt q).coyoteTimer ≤ 0 := by
  unfold coyoteTime
  dsimp only
  have h2 : ¬ q.coyoteTimer > 0 := not_lt.mpr hc
  simp only [Bool.false_and, Bool.false_eq_true, if_false, h2, decide_False]
  split_ifs
  · exact le_refl _
  · exact hc

theorem afterJump_coyoteTimer_nonpos (pw : ℚ → ℚ) (inp : Input) (dt : ℚ) (p : Player)
    (hc : p.coyoteTimer ≤ 0) : (afterJump pw inp dt p).coyoteTimer ≤ 0 := by
  rw [afterJump_coyoteTimer]
  split_ifs
  · exact le_refl _
  · exact hc

theorem jumpFires_of_airborne (pw : ℚ → ℚ) (inp : Input) (dt : ℚ) (p : Player)
    (hg : p.onGround = false) (hc : p.coyoteTimer ≤ 0) : jumpFires pw inp dt p = false := by
  simp [jumpFires, canJump, beforeJump, hg, not_lt.mpr hc]

/-- While the player starts a call airborne with no coyote time, the call leaves no coyote
time. -/
theorem updatePlayer_coyoteTimer_of_airborne (pw : ℚ → ℚ) (inp : Input) (dt : ℚ) (g : Game)
    (hg : g.player.onGround = false) (hc : g.player.coyoteTimer ≤ 0) :
    (updatePlayer pw inp dt g).player.coyoteTimer ≤ 0 := by
  rw [updatePlayer_coyoteTimer, hg]
  apply coyoteTime_of_airborne_start
  rw [moveAndCollide_coyoteTimer]
  exact afterJump_coyoteTimer_nonpos pw inp dt g.player hc

theorem runPlayer_append (pw : ℚ → ℚ) (xs ys : List Frame) (g : Game) :
    runPlayer pw (xs ++ ys) g = runPlayer pw ys (runPlayer pw xs g) := by
  unfold runPlayer
  rw [List.foldl_append]

/-- Along frames after each of which the player is airborne, starting airborne with no coyote
time, there is no coyote time. -/
theorem runPlayer_coyoteTimer_of_airborne (pw : ℚ → ℚ) (frames : List Frame) (g : Game)
    (hair : ∀ pre, pre <+: frames → (runPlayer pw pre g).player.onGround = false)
    (hc : g.player.coyoteTimer ≤ 0) : (runPlayer pw frames g).player.coyoteTimer ≤ 0 := by
  induction frames using List.reverseRecOn with
  | nil => exact hc
  | append_singleton fs f ih =>
    rw [runPlayer_append]
    have h1 := ih (fun pre hpre => hair pre (hpre.trans (List.prefix_append _ _)))
    have h2 := hair fs (List.prefix_append _ _)
    exact updatePlayer_coyoteTimer_of_airborne pw f.inp f.dt _ h2 h1


/-! ## The jump buffer along airborne frames -/

theorem trackInput_buffer_press (inp : Input) (p : Player)
    (hjjp : jumpJustPressed inp p = true) : (trackInput inp 1 p).jumpBufferTimer = 7 := by
  unfold trackInput
  simp [hjjp, JUMP_BUFFER_FRAMES]
  norm_num

theorem trackInput_buffer_step (inp : Input) (p : Player) (n : ℕ)
    (hjjp : jumpJustPressed inp p = false) (hb : p.jumpBufferTimer = ((7 - n : ℕ) : ℚ)) :
    (trackInput inp 1 p).jumpBufferTimer = ((7 - (n + 1) : ℕ) : ℚ) := by
  unfold trackInput
  simp only [hjjp, Bool.false_eq_true, if_false]
  rcases Nat.lt_or_ge n 7 with hn | hn
  · obtain ⟨m, hm⟩ : ∃ m, 7 - n = m + 1 := ⟨6 - n, by omega⟩
    have hm2 : 7 - (n + 1) = m := by omega
    rw [hm2]
    rw [hm] at hb
    have hpos : p.jumpBufferTimer > 0 := by
      rw [hb]; push_cast; positivity
    rw [if_pos hpos]
    simp [hb]
  · have h0 : 7 - n = 0 := by omega
    have h1 : 7 - (n + 1) = 0 := by omega
    rw [h0] at hb
    rw [h1]
    simp [hb]

/-- One frame with `dt = 1` that starts airborne without coyote time and has no new press:
no jump fires, the coyote timer stays empty and the buffer steps from `7 - n` to
`7 - (n + 1)` (truncated at 0). -/
theorem updatePlayer_buffer_frame (pw : ℚ → ℚ) (inp : Input) (g : Game) (n : ℕ)
    (hg : g.player.onGround = false) (hc : g.player.coyoteTimer ≤ 0)
    (hjjp : jumpJustPressed inp g.player = false)
    (hb : g.player.jumpBufferTimer = ((7 - n : ℕ) : ℚ)) :
    (updatePlayer pw inp 1 g).player.wasJumpPressed = inp.jump ∧
      (updatePlayer pw inp 1 g).player.coyoteTimer ≤ 0 ∧
      (updatePlayer pw inp 1 g).player.jumpBufferTimer = ((7 - (n + 1) : ℕ) : ℚ) := by
  refine ⟨updatePlayer_wasJumpPressed pw inp 1 g,
    updatePlayer_coyoteTimer_of_airborne pw inp 1 g hg hc, ?_⟩
  rw [updatePlayer_jumpBufferTimer, afterJump_jumpBufferTimer,
    jumpFires_of_airborne pw inp 1 g.player hg hc]
  simpa using trackInput_buffer_step inp g.player n hjjp hb

/-- Along frames with `dt = 1` that each start airborne, without coyote time at the start and
without a new press of jump, the buffer after `mid` is `7 - (n + mid.length)` truncated
at 0; `prev` is the input of the frame before. -/
theorem runPlayer_buffer_frames (pw : ℚ → ℚ) (mid : List Input) (g : Game) (prev : Input)
    (n : ℕ) (hprev : g.player.wasJumpPressed = prev.jump)
    (hchain : List.Chain (fun a b : Input => b.jump = true → a.jump = true) prev mid)
    (hair : ∀ j, j < mid.length →
      (runPlayer pw ((mid.take j).map unitFrame) g).player.onGround = false)
    (hc : g.player.coyoteTimer ≤ 0)
    (hb : g.player.jumpBufferTimer = ((7 - n : ℕ) : ℚ)) :
    (runPlayer pw (mid.map unitFrame) g).player.wasJumpPressed = ((prev :: mid).getLast
        (List.cons_ne_nil _ _)).jump ∧
      (runPlayer pw (mid.map unitFrame) g).player.jumpBufferTimer
        = ((7 - (n + mid.length) : ℕ) : ℚ) := by
  induction mid generalizing g prev n with
  | nil => exact ⟨hprev, by simpa using hb⟩
  | cons i rest ih =>
    have hstep : ∀ l : List Input, runPlayer pw ((i :: l).map unitFrame) g =
        runPlayer pw (l.map unitFrame) (updatePlayer pw i 1 g) := fun l => rfl
    have hg : g.player.onGround = false := hair 0 (by simp)
    rw [List.chain_cons] at hchain
    have hjjp : jumpJustPressed i g.player = false := by
      unfold jumpJustPressed
      rw [hprev]
      cases hi : i.jump
      · rfl
      · rw [hchain.1 hi]; rfl
    obtain ⟨a, b, c⟩ := updatePlayer_buffer_frame pw i g n hg hc hjjp hb
    have := ih (updatePlayer pw i 1 g) i (n + 1) a hchain.2
      (fun j hj => by
        rw [← hstep (rest.take j)]
        exact hair (j + 1) (by simpa using hj))
      b c
    rw [hstep rest, List.length_cons]
    have e : n + (rest.length + 1) = n + 1 + rest.length := by omega
    rw [e, List.getLast_cons (List.cons_ne_nil _ _)]
    exact this

theorem chain_append_singleton {α : Type} (R : α → α → Prop) (a b : α) (l : List α)
    (h : List.Chain R a (l ++ [b])) :
    List.Chain R a l ∧ R ((a :: l).getLast (List.cons_ne_nil _ _)) b := by
  induction l generalizing a with
  | nil =>
    rw [List.nil_append, List.chain_cons] at h
    exact ⟨List.Chain.nil, h.1⟩
  | cons c l ih =>
    rw [List.cons_append, List.chain_cons] at h
    obtain ⟨h1, h2⟩ := ih c h.2
    refine ⟨List.Chain.cons h.1 h1, ?_⟩
    rw [List.getLast_cons (List.cons_ne_nil _ _)]
    exact h2

/-- The jump buffer window: jump is first pressed in frame 0 while the player is airborne
without coyote time and is not pressed again; the player is airborne at the start of the
frames `mid` and grounded at the start of the next frame, frame `k = mid.length + 1` (all
frames with `dt = 1`). The buffered jump fires in frame `k` exactly when `k ≤ 6`. -/
theorem jump_buffer_window_six_frames (pw : ℚ → ℚ) (g : Game) (inp0 : Input)
    (mid : List Input) (inpk : Input) (hg : g.player.onGround = false)
    (hc : g.player.coyoteTimer ≤ 0) (hw : g.player.wasJumpPressed = false)
    (hj0 : inp0.jump = true)
    (hchain : List.Chain (fun a b : Input => b.jump = true → a.jump = true) inp0
      (mid ++ [inpk]))
    (hair : ∀ j, j < mid.length →
      (runPlayer pw ((inp0 :: mid.take j).map unitFrame) g).player.onGround = false)
    (hland : (runPlayer pw ((inp0 :: mid).map unitFrame) g).player.onGround = true) :
    jumpFires pw inpk 1 (runPlayer pw ((inp0 :: mid).map unitFrame) g).player
      = decide (mid.length + 1 ≤ 6) := by
  have hstep : ∀ l : List Input, runPlayer pw ((inp0 :: l).map unitFrame) g =
      runPlayer pw (l.map unitFrame) (updatePlayer pw inp0 1 g) := fun l => rfl
  have hjjp0 : jumpJustPressed inp0 g.player = true := by
    unfold jumpJustPressed; rw [hj0, hw]; rfl
  have hb0 : (updatePlayer pw inp0 1 g).player.jumpBufferTimer = ((7 - 0 : ℕ) : ℚ) := by
    rw [updatePlayer_jumpBufferTimer, afterJump_jumpBufferTimer,
      jumpFires_of_airborne pw inp0 1 g.player hg hc]
    simpa using trackInput_buffer_press inp0 g.player hjjp0
  obtain ⟨hch, hlast⟩ := chain_append_singleton _ inp0 inpk mid hchain
  obtain ⟨r1, r2⟩ := runPlayer_buffer_frames pw mid (updatePlayer pw inp0 1 g) inp0 0
    (updatePlayer_wasJumpPressed pw inp0 1 g) hch
    (fun j hj => by
      rw [← hstep (mid.take j)]
      exact hair j hj)
    (updatePlayer_coyoteTimer_of_airborne pw inp0 1 g hg hc) hb0
  rw [hstep mid] at hland ⊢
  have hjjp : jumpJustPressed inpk (runPlayer pw (mid.map unitFrame)
      (updatePlayer pw inp0 1 g)).player = false := by
    unfold jumpJustPressed
    rw [r1]
    cases hi : inpk.jump
    · rfl
    · rw [hlast hi]; rfl
  have ht := trackInput_buffer_step inpk _ (0 + mid.length) hjjp r2
  simp only [jumpFires, wantsJump, canJump, beforeJump, hjjp, horizontal_onGround,
    trackInput_onGround, hland, horizontal_jumpBufferTimer, ht]
  simp only [Bool.false_or, Bool.true_or, Bool.and_true, zero_add]
  rcases Nat.lt_or_ge mid.length 6 with hn | hn
  · have hpos : (0 : ℚ) < ((7 - (mid.length + 1) : ℕ) : ℚ) := by
      have : 0 < 7 - (mid.length + 1) := by omega
      exact_mod_cast this
    simp [hpos]
    omega
  · have h0 : (7 - (mid.length + 1) : ℕ) = 0 := by omega
    rw [h0]
    simp
    omega


/-! ## Enemy patrol -/

/-- The loop body on an alive enemy that is not a thorn: the moved position is clamped to the
patrol bounds and every other patrol datum is kept. -/
theorem updateEnemy_patrol (sn : ℚ → ℚ) (dt : ℚ) (e : Enemy) (halive : e.alive = true)
    (htype : e.type ≠ EnemyType.thorn) :
    (updateEnemy sn dt e).x =
        (if e.x + e.vx * dt * e.facing ≤ e.patrolLeft then e.patrolLeft
         else if e.x + e.vx * dt * e.facing ≥ e.patrolRight then e.patrolRight
         else e.x + e.vx * dt * e.facing) ∧
      (updateEnemy sn dt e).facing =
        (if e.x + e.vx * dt * e.facing ≤ e.patrolLeft then 1
         else if e.x + e.vx * dt * e.facing ≥ e.patrolRight then -1
         else e.facing) ∧
      (updateEnemy sn dt e).patrolLeft = e.patrolLeft ∧
      (updateEnemy sn dt e).patrolRight = e.patrolRight ∧
      (updateEnemy sn dt e).alive = true ∧
      (updateEnemy sn dt e).type = e.type := by
  unfold updateEnemy
  simp only [halive, Bool.not_true, Bool.false_eq_true, if_false, if_neg htype]
  split_ifs <;> simp_all

theorem updateEnemy_alive (sn : ℚ → ℚ) (dt : ℚ) (e : Enemy) :
    (updateEnemy sn dt e).alive = e.alive := by
  unfold updateEnemy
  dsimp only
  split_ifs <;> rfl

theorem loadLevel_enemies (Ls : List Level) (index : ℕ) (g0 g : Game)
    (h : loadLevel Ls index g0 = some g) :
    ∃ L, Ls[index]? = some L ∧ g.enemies = L.enemies.map (spawnEnemy index) := by
  unfold loadLevel at h
  cases hL : Ls[index]? with
  | none => rw [hL] at h; cases h
  | some L =>
    rw [hL] at h
    simp only [Option.some.injEq] at h
    exact ⟨L, rfl, by rw [← h]⟩

/-- Every enemy `loadLevel` builds from the shipped table has `patrolLeft ≤ patrolRight`. -/
theorem LEVELS_patrol_ordered (index : ℕ) (g0 g : Game)
    (h : loadLevel LEVELS index g0 = some g) :
    ∀ e ∈ g.enemies, e.patrolLeft ≤ e.patrolRight := by
  obtain ⟨L, hL, he⟩ := loadLevel_enemies LEVELS index g0 g h
  rw [he]
  have hlt : index < 6 := by
    by_contra hge
    have : LEVELS[index]? = none := by
      apply List.getElem?_eq_none
      simp only [LEVELS, List.length_cons, List.length_nil]
      omega
    rw [this] at hL
    cases hL
  have key : ∀ i : Fin 6, ∀ L, LEVELS[i.val]? = some L →
      ∀ e ∈ L.enemies.map (spawnEnemy i.val), e.patrolLeft ≤ e.patrolRight := by
    intro i
    fin_cases i <;>
    · intro L hL
      simp only [LEVELS, List.getElem?_cons_zero, List.getElem?_cons_succ, Option.some.injEq] at hL
      subst hL
      decide!
  exact key ⟨index, hlt⟩ L hL


/-! ## The music loop -/

/-- A voice started at `t` ends at `t` plus the sum of its note durations. -/
theorem playVoice_end (beatDur gate : ℚ) (type : Wave) (voice : List (Option ℤ × ℚ)) (t : ℚ)
    (a : AudioManager) :
    (playVoice beatDur gate type voice t a).1 = t + (voice.map fun n => n.2).sum * beatDur := by
  induction voice generalizing t a with
  | nil => simp [playVoice]
  | cons n rest ih =>
    obtain ⟨freq, beats⟩ := n
    simp only [playVoice, ih, List.map_cons, List.sum_cons]
    ring

theorem foldl_beats (voice : List (Option ℤ × ℚ)) (s : ℚ) :
    voice.foldl (fun sum n => sum + n.2) s = s + (voice.map fun n => n.2).sum := by
  induction voice generalizing s with
  | nil => simp
  | cons n rest ih =>
    simp only [List.foldl_cons, ih, List.map_cons, List.sum_cons]
    ring

theorem fallbackDuration_eq (m : Melody) :
    fallbackDuration m (60 / m.tempo) = specLeadDuration m := by
  unfold fallbackDuration specLeadDuration
  rw [foldl_beats]
  ring

/-- What `playSequence` returns: nothing when muted or suspended, else the duration
accumulated note by note, which is the specified one. -/
theorem playSequence_duration (m : Melody) (a : AudioManager) (c : AudioContext)
    (hctx : a.ctx = some c) :
    (playSequence m (60 / m.tempo) a).1 =
      if a.muted = true ∨ c.suspended = true then none else some (specLeadDuration m) := by
  unfold playSequence
  rw [hctx]
  dsimp only
  by_cases h : a.muted = true ∨ c.suspended = true
  · have : (a.muted || c.suspended) = true := by simpa using h
    rw [if_pos this, if_pos h]
  · have : ¬ (a.muted || c.suspended) = true := by simpa using h
    rw [if_neg this, if_neg h]
    dsimp only
    rw [playVoice_end]
    unfold specLeadDuration
    congr 1
    ring

theorem stopBGM_ctx (a : AudioManager) (ts : Timers) : (stopBGM a ts).1.ctx = a.ctx := by
  unfold stopBGM
  split
  · split_ifs <;> rfl
  · rfl

theorem stopBGM_muted (a : AudioManager) (ts : Timers) : (stopBGM a ts).1.muted = a.muted := by
  unfold stopBGM
  split
  · split_ifs <;> rfl
  · rfl

theorem stopBGM_lastId (a : AudioManager) (ts : Timers) :
    (stopBGM a ts).2.lastId = ts.lastId := by
  unfold stopBGM
  split
  · split_ifs <;> rfl
  · rfl

/-- The duration `playBGM` passes on to `setInterval` (times 1000, at least 1000). -/
theorem playBGM_timers (theme : String) (a : AudioManager) (ts : Timers) (c : AudioContext)
    (hctx : a.ctx = some c) (hpos : 0 < specLeadDuration (getMelody theme)) :
    (playBGM theme a ts).2 =
      (setInterval (Callback.bgmLoop theme)
        (max (specLeadDuration (getMelody theme) * 1000) 1000) (stopBGM a ts).2).1 ∧
    (playBGM theme a ts).1.bgmInterval = some (ts.lastId + 1) ∧
    (playBGM theme a ts).1.currentBGM = some theme := by
  have hc : (stopBGM a ts).1.ctx = some c := by rw [stopBGM_ctx, hctx]
  have hd := playSequence_duration (getMelody theme) (stopBGM a ts).1 c hc
  unfold playBGM
  rw [hctx]
  dsimp only
  rw [hd, fallbackDuration_eq]
  refine ⟨?_, ?_, rfl⟩
  · have hne : ¬ (specLeadDuration (getMelody theme) = 0 ∨
        specLeadDuration (getMelody theme) ≤ 0) := by
      intro h
      rcases h with h | h <;> linarith
    by_cases h1 : (stopBGM a ts).1.muted = true ∨ c.suspended = true
    · rw [if_pos h1]
    · rw [if_neg h1]
      dsimp only
      rw [if_neg hne]
  · simp only [setInterval, stopBGM_lastId]

theorem getMelody_mem (theme : String) :
    getMelody theme ∈ themeNames.map getMelody := by
  by_cases h : theme ∈ themeNames
  · exact List.mem_map_of_mem _ h
  · have : getMelody theme = getMelody "istanbul" := by
      simp only [themeNames, List.mem_cons, List.mem_singleton, not_or, List.not_mem_nil,
        or_false] at h
      obtain ⟨h1, h2, h3, h4, h5, h6, h7, h8, h9, h10, h11, h12⟩ := h
      unfold getMelody
      simp only [h1, h2, h3, h4, h5, h6, h7, h8, h9, h10, h11, h12, if_false]
      decide!
    rw [this]
    exact List.mem_map_of_mem _ (by decide)

theorem specLeadDuration_pos (theme : String) : 0 < specLeadDuration (getMelody theme) := by
  have h : ∀ m ∈ themeNames.map getMelody, 0 < specLeadDuration m := by decide!
  exact h _ (getMelody_mem theme)


/-! ## Score changes in one `update` call -/

/-- The loop body either resolves a stomp, or keeps score, enemy and combo and leaves `vy`
as it was or at 0. -/
theorem collideEnemy_cases (p : Player) (score : ℕ) (e : Enemy) :
    (0 < p.vy ∧ e.alive = true ∧
      (collideEnemy p score e).1.combo = p.combo + 1 ∧
      (collideEnemy p score e).1.vy ≤ 0 ∧
      (collideEnemy p score e).2.1 = score + SCORE_STOMP * min (p.combo + 1) 5 ∧
      (collideEnemy p score e).2.2.alive = false) ∨
    ((collideEnemy p score e).1.combo = p.combo ∧
      ((collideEnemy p score e).1.vy = p.vy ∨ (collideEnemy p score e).1.vy = 0) ∧
      (collideEnemy p score e).2.1 = score ∧
      (collideEnemy p score e).2.2 = e) := by
  by_cases hs : isStomp p e = true ∧ e.type ≠ EnemyType.thorn
  · by_cases ha : e.alive = true ∧ overlaps p e = true
    · left
      have hv : 0 < p.vy := by
        have := hs.1
        unfold isStomp at this
        simp only [Bool.and_eq_true, decide_eq_true_eq] at this
        exact this.1
      have h1 : (isStomp p e && decide (e.type ≠ EnemyType.thorn)) = true := by
        simp [hs.1, hs.2]
      have hc : collideEnemy p score e =
          ({ p with
             vy := JUMP_FORCE * (6 / 10), combo := p.combo + 1, squashY := 6 / 10
             squashX := 14 / 10 },
           score + SCORE_STOMP * min (p.combo + 1) 5,
           { e with alive := false, deathTimer := 30 }) := by
        unfold collideEnemy
        rw [h1]
        simp [ha.1, ha.2]
      rw [hc]
      refine ⟨hv, ha.1, rfl, ?_, rfl, rfl⟩
      show JUMP_FORCE * (6 / 10) ≤ 0
      unfold JUMP_FORCE
      norm_num
    · right
      have : collideEnemy p score e = (p, score, e) := by
        unfold collideEnemy
        by_cases h1 : e.alive = true
        · have h2 : overlaps p e = false := by
            cases h : overlaps p e
            · rfl
            · exact absurd ⟨h1, h⟩ ha
          simp [h1, h2]
        · simp [h1]
      rw [this]
      exact ⟨rfl, Or.inl rfl, rfl, rfl⟩
  · obtain ⟨h1, h2, h3⟩ := collideEnemy_combo_of_not_stomp p score e hs
    right
    refine ⟨h1, ?_, h2, h3⟩
    unfold collideEnemy
    have hb : (isStomp p e && decide (e.type ≠ EnemyType.thorn)) = false := by
      by_contra h
      apply hs
      simpa using h
    rw [hb]
    simp only [Bool.false_eq_true, if_false]
    split_ifs
    · exact Or.inl rfl
    · exact Or.inr rfl
    · exact Or.inl rfl
    · exact Or.inl rfl

theorem deadCount_cons (e : Enemy) (es : List Enemy) :
    deadCount (e :: es) = deadCount es + (if e.alive then 0 else 1) := by
  unfold deadCount
  rw [List.countP_cons]
  cases e.alive <;> simp

/-- The enemy loop resolves at most one stomp: with `k` the number of stomps, the score
grows by `k * (SCORE_STOMP * min combo 5)` for the final combo, the combo by `k`, and `k`
enemies die. -/
theorem enemyContacts_stomps (p : Player) (score : ℕ) (es : List Enemy) :
    ∃ k : ℕ, k ≤ 1 ∧
      (enemyContacts p score es).score =
        score + k * (SCORE_STOMP * min (enemyContacts p score es).player.combo 5) ∧
      (enemyContacts p score es).player.combo = p.combo + k ∧
      (k = 1 → (enemyContacts p score es).player.vy ≤ 0) ∧
      deadCount (enemyContacts p score es).enemies = deadCount es + k := by
  unfold enemyContacts
  induction es with
  | nil => exact ⟨0, by omega, by simp, by simp, by simp, by simp⟩
  | cons e es ih =>
    rw [List.foldr_cons]
    obtain ⟨k, hk, hs, hc, hv, hd⟩ := ih
    generalize List.foldr contactStep { player := p, score := score, enemies := [] } es = c
      at hs hc hv hd
    unfold contactStep
    dsimp only
    rcases collideEnemy_cases c.player c.score e with
      ⟨h0, ha, h1, h2, h3, h4⟩ | ⟨h1, h2, h3, h4⟩
    · have hk0 : k = 0 := by
        rcases Nat.le_one_iff_eq_zero_or_eq_one.mp hk with h | h
        · exact h
        · exact absurd (hv h) (not_le.mpr h0)
      subst hk0
      refine ⟨1, le_refl _, ?_, ?_, fun _ => h2, ?_⟩
      · rw [h3, h1, hs]
        simp
      · rw [h1, hc]
      · rw [deadCount_cons, deadCount_cons, h4, ha, hd]
        simp
    · refine ⟨k, hk, ?_, ?_, ?_, ?_⟩
      · rw [h3, h1, hs]
      · rw [h1, hc]
      · intro hk1
        rcases h2 with h | h
        · rw [h]; exact hv hk1
        · rw [h]
      · rw [deadCount_cons, deadCount_cons, h4, hd]
        omega

theorem deadCount_updateEnemies (sn : ℚ → ℚ) (dt : ℚ) (g : Game) :
    deadCount (updateEnemies sn dt g).enemies = deadCount g.enemies := by
  unfold updateEnemies deadCount
  dsimp only
  rw [List.countP_map]
  congr 1
  funext e
  simp [updateEnemy_alive]

/-- The game after the five game steps of a PLAYING frame, before `checkPortal`. -/
theorem playing_steps_score (pw sn : ℚ → ℚ) (inp : Input) (dt : ℚ) (g : Game) :
    ∃ stomps hearts : ℕ, stomps ≤ 1 ∧
      (checkHeartCollection (updateCamera dt (updateEnemies sn dt
        (updatePlayer pw inp dt g)))).score =
        g.score + stomps * (SCORE_STOMP * min (checkHeartCollection (updateCamera dt
          (updateEnemies sn dt (updatePlayer pw inp dt g)))).player.combo 5) +
          hearts * SCORE_HEART ∧
      deadCount (checkHeartCollection (updateCamera dt (updateEnemies sn dt
        (updatePlayer pw inp dt g)))).enemies = deadCount g.enemies + stomps ∧
      (checkHeartCollection (updateCamera dt (updateEnemies sn dt
        (updatePlayer pw inp dt g)))).collectedHearts.length =
        g.collectedHearts.length + hearts := by
  obtain ⟨k, hk, hs, _, _, hd⟩ :=
    enemyContacts_stomps (playerPhysics pw g.levelData inp dt g.player) g.score g.enemies
  set g1 := updatePlayer pw inp dt g with hg1
  have e1 : g1.score = g.score + k * (SCORE_STOMP * min g1.player.combo 5) := hs
  have e2 : deadCount g1.enemies = deadCount g.enemies + k := hd
  have e3 : g1.collectedHearts = g.collectedHearts := rfl
  set g2 := updateCamera dt (updateEnemies sn dt g1) with hg2
  have f1 : g2.score = g1.score := rfl
  have f2 : g2.player = g1.player := rfl
  have f3 : deadCount g2.enemies = deadCount g1.enemies := deadCount_updateEnemies sn dt g1
  have f4 : g2.collectedHearts = g1.collectedHearts := rfl
  obtain ⟨new, hc, _, _, hsc, _⟩ := collectCells_awards (heartCells g2.player) g2
  have hsame := collectCells_same (heartCells g2.player) g2
  rw [← checkHeartCollection_eq] at hc hsc hsame
  have hcombo : (checkHeartCollection g2).player.combo = g2.player.combo := by
    unfold SameButHearts at hsame
    rw [hsame]
  have hen : (checkHeartCollection g2).enemies = g2.enemies := by
    unfold SameButHearts at hsame
    rw [hsame]
  refine ⟨k, new.length, hk, ?_, ?_, ?_⟩
  · rw [hsc, hcombo, f1, f2, e1]
    ring
  · rw [hen, f3, e2]
  · rw [hc, List.length_append, f4, e3]
    ring

theorem stopMusic_game (w : World) : (stopMusic w).game = w.game := rfl

theorem stopMusic_state (w : World) : (stopMusic w).state = w.state := rfl

theorem clearFinaleTimeout_game (w : World) : (clearFinaleTimeout w).game = w.game := by
  unfold clearFinaleTimeout
  split
  · split_ifs <;> rfl
  · rfl

theorem clearFinaleTimeout_state (w : World) : (clearFinaleTimeout w).state = w.state := by
  unfold clearFinaleTimeout
  split
  · split_ifs <;> rfl
  · rfl

theorem showFinale_game (w : World) : (showFinale w).game = w.game := by
  unfold showFinale
  dsimp only
  split
  · split_ifs <;> rfl
  · rfl

theorem showFinale_state (w : World) : (showFinale w).state = w.state := by
  unfold showFinale
  dsimp only
  split
  · split_ifs <;> rfl
  · rfl

/-- The function `setState` leaves the game data alone. -/
theorem setState_game (s : State) (w : World) : (setState s w).game = w.game := by
  unfold setState
  cases s <;> simp [clearFinaleTimeout_game, showLevelIntro, showMemoryCard, playMusic,
    stopMusic, showFinale_game]

theorem setState_state (s : State) (w : World) : (setState s w).state = s := by
  unfold setState
  cases s <;> simp [clearFinaleTimeout_state, showLevelIntro, showMemoryCard, playMusic,
    stopMusic, showFinale_state]

theorem transitionTo_game (k : Continuation) (w : World) : (transitionTo k w).game = w.game := by
  unfold transitionTo
  split_ifs <;> rfl

theorem transitionTo_state (k : Continuation) (w : World) :
    (transitionTo k w).state = w.state := by
  unfold transitionTo
  split_ifs <;> rfl


theorem update_game_of_not_playing (pw sn : ℚ → ℚ) (inp : Input) (dt : ℚ) (w : World)
    (h : w.state ≠ State.PLAYING) : (update pw sn inp dt w).game = w.game := by
  unfold update
  split
  · split_ifs
    · unfold playMusic
      dsimp only
      rw [setState_game]
    · rfl
  · rename_i hs
    exact absurd hs h
  · split_ifs
    · rw [transitionTo_game]
    · rfl
  · rfl

theorem update_of_playing (pw sn : ℚ → ℚ) (inp : Input) (dt : ℚ) (w : World)
    (h : w.state = State.PLAYING) :
    update pw sn inp dt w =
      checkPortal
        { w with
          game := checkHeartCollection (updateCamera dt (updateEnemies sn dt
            (updatePlayer pw inp dt w.game))) } := by
  unfold update
  rw [h]


/-! ## Tiles -/

theorem getTile_out_of_range (L : Level) (col row : ℤ)
    (h : row < 0 ∨ L.height ≤ row ∨ col < 0 ∨ L.width ≤ col) : getTile L col row = ' ' := by
  unfold getTile
  rw [if_pos h]

theorem getTile_missing_row (L : Level) (col row : ℤ) (h : L.map[row.toNat]? = none) :
    getTile L col row = ' ' := by
  unfold getTile
  rw [h]
  split_ifs <;> rfl

theorem getTile_short_row (L : Level) (col row : ℤ) (rowStr : String)
    (hrow : L.map[row.toNat]? = some rowStr) (hcol : (rowStr.length : ℤ) ≤ col) :
    getTile L col row = ' ' := by
  unfold getTile
  rw [hrow]
  have : rowStr.data[col.toNat]? = none := by
    apply List.getElem?_eq_none
    have : rowStr.data.length = rowStr.length := rfl
    omega
  simp only [this]
  split_ifs <;> rfl

theorem isSolid_iff (L : Level) (col row : ℤ) :
    isSolid L col row = true ↔
      getTile L col row = '#' ∨ getTile L col row = 'G' ∨ getTile L col row = '=' := by
  unfold isSolid
  simp [or_assoc]

/-! ## The size of a vertical sub-step -/

theorem subSteps_pos (v : ℚ) : (0 : ℚ) < (subSteps v : ℚ) := by
  have := one_le_subSteps v
  exact_mod_cast (by omega : 0 < subSteps v)

theorem subSteps_bound (v : ℚ) : |v / (subSteps v : ℚ)| ≤ TS * (8 / 10) := by
  have hpos := subSteps_pos v
  have h128 : (0 : ℚ) < TS * (8 / 10) := by norm_num [TS]
  rw [abs_div, abs_of_pos hpos, div_le_iff₀ hpos]
  have h1 : |v| / (TS * (8 / 10)) ≤ (subSteps v : ℚ) := by
    have h2 : (⌈|v| / (TS * (8 / 10))⌉ : ℤ) ≤ subSteps v := le_max_right _ _
    calc |v| / (TS * (8 / 10)) ≤ ((⌈|v| / (TS * (8 / 10))⌉ : ℤ) : ℚ) := Int.le_ceil _
      _ ≤ (subSteps v : ℚ) := by exact_mod_cast h2
  rw [div_le_iff₀ h128] at h1
  linarith

theorem subStepY_of_free (L : Level) (v : ℚ) (q : Player)
    (h : CellsFree L q.x (q.y + v)) :
    subStepY L v q = { q with y := q.y + v, onGround := false } := by
  unfold subStepY
  exact resolveCollisionY_of_free L { q with y := q.y + v } h

theorem foldl_subStepY_free (L : Level) (v : ℚ) (p : Player) (n : ℕ)
    (h : ∀ k : ℕ, 1 ≤ k → k ≤ n + 1 → CellsFree L p.x (p.y + (k : ℚ) * v)) :
    (List.range (n + 1)).foldl (fun q _ => subStepY L v q) p =
      { p with y := p.y + ((n + 1 : ℕ) : ℚ) * v, onGround := false } := by
  induction n with
  | zero =>
    rw [List.range_succ, List.foldl_append]
    simp only [List.range_zero, List.foldl_cons, List.foldl_nil]
    have h1 := h 1 (le_refl _) (le_refl _)
    have e : p.y + ((1 : ℕ) : ℚ) * v = p.y + v := by push_cast; ring
    rw [e] at h1
    rw [subStepY_of_free L v p h1]
    simp
  | succ n ih =>
    rw [List.range_succ, List.foldl_append, ih (fun k h1 h2 => h k h1 (by omega))]
    simp only [List.foldl_cons, List.foldl_nil]
    have h1 := h (n + 1 + 1) (by omega) (le_refl _)
    have e : p.y + ((n + 1 + 1 : ℕ) : ℚ) * v = p.y + ((n + 1 : ℕ) : ℚ) * v + v := by
      push_cast
      ring
    rw [e] at h1
    rw [subStepY_of_free L v
      { p with y := p.y + ((n + 1 : ℕ) : ℚ) * v, onGround := false } h1]
    simp only [Player.mk.injEq, and_true, true_and]
    push_cast
    ring

/-- Without a contact the sub-steps together move the player by exactly `vy * dt`. -/
theorem moveY_of_free (L : Level) (dt : ℚ) (p : Player) (h : NoContactY L dt p) :
    moveY L dt p = { p with y := p.y + p.vy * dt, onGround := false } := by
  unfold moveY
  dsimp only
  obtain ⟨m, hm⟩ : ∃ m : ℕ, (subSteps (p.vy * dt)).toNat = m + 1 := by
    have := one_le_subSteps (p.vy * dt)
    exact ⟨(subSteps (p.vy * dt)).toNat - 1, by omega⟩
  unfold NoContactY at h
  rw [hm] at h ⊢
  rw [foldl_subStepY_free L _ p m h]
  have hs : ((m + 1 : ℕ) : ℚ) = (subSteps (p.vy * dt) : ℚ) := by
    have h1 := one_le_subSteps (p.vy * dt)
    have : ((m + 1 : ℕ) : ℤ) = subSteps (p.vy * dt) := by
      rw [← hm]
      exact Int.toNat_of_nonneg (by omega)
    exact_mod_cast this
  have hpos := subSteps_pos (p.vy * dt)
  rw [hs, mul_div_cancel₀ _ (ne_of_gt hpos)]


theorem cellsFree_iff (L : Level) (x y : ℚ) :
    CellsFree L x y ↔
      ∀ col ∈ cellRange ⌊x / TS⌋ ⌊(x + PLAYER_W - 1) / TS⌋,
        ∀ row ∈ cellRange ⌊y / TS⌋ ⌊(y + PLAYER_H - 1) / TS⌋, isSolid L col row = false := by
  unfold CellsFree
  constructor
  · intro h col hcol row hrow
    rw [mem_cellRange] at hcol hrow
    exact h col row hcol.1 hcol.2 hrow.1 hrow.2
  · intro h col row h1 h2 h3 h4
    exact h col ((mem_cellRange _ _ _).mpr ⟨h1, h2⟩) row ((mem_cellRange _ _ _).mpr ⟨h3, h4⟩)

/-! ## The particle loop -/

theorem advanceParticle_eq (dt : ℚ) (p : Particle) : advanceParticle dt p = specAdvance dt p :=
  rfl

theorem particleStep_last (dt : ℚ) (pre suf : List Particle) (p : Particle) :
    particleStep dt (pre ++ p :: suf) pre.length =
      pre ++ ([specAdvance dt p].filter fun q => decide (0 < q.life)) ++ suf := by
  unfold particleStep
  have hget : (pre ++ p :: suf)[pre.length]? = some p := by
    rw [List.getElem?_append_right (le_refl _)]
    simp
  rw [hget]
  dsimp only
  rw [advanceParticle_eq]
  have hset : (pre ++ p :: suf).set pre.length (specAdvance dt p) =
      pre ++ specAdvance dt p :: suf := by
    rw [List.set_append_right _ _ (le_refl _)]
    simp
  rw [hset]
  by_cases h : (specAdvance dt p).life ≤ 0
  · rw [if_pos h]
    have : ¬ 0 < (specAdvance dt p).life := not_lt.mpr h
    rw [List.eraseIdx_append_of_length_le (le_refl _)]
    simp [this]
  · rw [if_neg h]
    have : 0 < (specAdvance dt p).life := not_le.mp h
    simp [this]

theorem foldl_particleStep (dt : ℚ) (pre suf : List Particle) :
    (List.range pre.length).reverse.foldl (particleStep dt) (pre ++ suf) =
      specUpdateParticles dt pre ++ suf := by
  induction pre using List.reverseRecOn generalizing suf with
  | nil => simp [specUpdateParticles]
  | append_singleton pre p ih =>
    rw [List.length_append, List.length_singleton, List.range_succ, List.reverse_append,
      List.reverse_singleton, List.singleton_append, List.foldl_cons, List.append_assoc,
      List.singleton_append, particleStep_last, List.append_assoc, ih]
    unfold specUpdateParticles
    rw [List.map_append, List.filter_append, List.append_assoc]
    rfl

/-- The loop of `updateParticles` computes the advanced list filtered by `life > 0`. -/
theorem updateParticles_eq_spec (dt : ℚ) (ps : List Particle) :
    updateParticles dt ps = specUpdateParticles dt ps := by
  have := foldl_particleStep dt ps []
  simpa [updateParticles] using this


/-! ## Stomps in one call -/

theorem playerPhysics_combo_le (pw : ℚ → ℚ) (L : Level) (inp : Input) (dt : ℚ) (p : Player) :
    (playerPhysics pw L inp dt p).combo ≤ p.combo := by
  unfold playerPhysics
  rw [settle_combo]
  have h : (moveAndCollide pw L inp dt p).combo = p.combo := by
    simp [moveAndCollide, afterJump, beforeJump]
  unfold landing
  split_ifs
  · simp
  · dsimp only
    rw [h]
  · rw [h]

theorem isStomp_of_vy_nonpos (p : Player) (e : Enemy) (h : p.vy ≤ 0) : isStomp p e = false := by
  unfold isStomp
  have : ¬ p.vy > 0 := not_lt.mpr h
  simp [this]

/-! ## The player stays within the level width -/

@[simp] theorem trackInput_lastSafeX (inp : Input) (dt : ℚ) (p : Player) :
    (trackInput inp dt p).lastSafeX = p.lastSafeX := by
  unfold trackInput; dsimp only; split_ifs <;> rfl

@[simp] theorem horizontal_lastSafeX (pw : ℚ → ℚ) (inp : Input) (dt : ℚ) (p : Player) :
    (horizontal pw inp dt p).lastSafeX = p.lastSafeX := by
  unfold horizontal; dsimp only; split_ifs <;> rfl

@[simp] theorem jumpExecution_lastSafeX (jjp : Bool) (p : Player) :
    (jumpExecution jjp p).lastSafeX = p.lastSafeX := by
  unfold jumpExecution; split_ifs <;> rfl

@[simp] theorem variableJump_lastSafeX (jjr : Bool) (p : Player) :
    (variableJump jjr p).lastSafeX = p.lastSafeX := by
  unfold variableJump; split_ifs <;> rfl

@[simp] theorem airState_lastSafeX (p : Player) : (airState p).lastSafeX = p.lastSafeX := by
  unfold airState; split_ifs <;> rfl

@[simp] theorem gravity_lastSafeX (dt : ℚ) (p : Player) :
    (gravity dt p).lastSafeX = p.lastSafeX := by
  rfl

@[simp] theorem moveX_lastSafeX (L : Level) (dt : ℚ) (p : Player) :
    (moveX L dt p).lastSafeX = p.lastSafeX := by
  have h := moveX_same L dt p
  unfold SameButX at h
  rw [h]

@[simp] theorem moveY_lastSafeX (L : Level) (dt : ℚ) (p : Player) :
    (moveY L dt p).lastSafeX = p.lastSafeX := by
  have h := moveY_same L dt p
  unfold SameButY at h
  rw [h]

@[simp] theorem coyoteTime_lastSafeX (w : Bool) (dt : ℚ) (p : Player) :
    (coyoteTime w dt p).lastSafeX = p.lastSafeX := by
  unfold coyoteTime; dsimp only; split_ifs <;> rfl

@[simp] theorem landing_lastSafeX (w : Bool) (p : Player) :
    (landing w p).lastSafeX = p.lastSafeX := by
  unfold landing; split_ifs <;> rfl

@[simp] theorem squashReturn_lastSafeX (dt : ℚ) (p : Player) :
    (squashReturn dt p).lastSafeX = p.lastSafeX := by
  rfl

@[simp] theorem invincibility_lastSafeX (dt : ℚ) (p : Player) :
    (invincibility dt p).lastSafeX = p.lastSafeX := by
  unfold invincibility; split_ifs <;> rfl

@[simp] theorem animation_lastSafeX (dt : ℚ) (p : Player) :
    (animation dt p).lastSafeX = p.lastSafeX := by
  unfold animation; dsimp only; split_ifs <;> rfl

@[simp] theorem levelBounds_lastSafeX (L : Level) (p : Player) :
    (levelBounds L p).lastSafeX = p.lastSafeX := by
  unfold levelBounds; dsimp only; split_ifs <;> rfl

/-- The clamp of lines 748-750 puts `x` within the level as soon as the level is at least as
wide as the player. -/
theorem levelBounds_x (L : Level) (p : Player) (h : 0 ≤ (L.width : ℚ) * TS - PLAYER_W) :
    XInLevel L (levelBounds L p).x := by
  unfold levelBounds XInLevel
  dsimp only
  split_ifs with h1 h2 h3
  · exact ⟨h, le_refl _⟩
  · exact ⟨le_refl _, not_lt.mp h2⟩
  · exact ⟨h, le_refl _⟩
  · exact ⟨not_lt.mp h1, not_lt.mp h3⟩

/-- After the part of `updatePlayer` before the enemy loop, `x` and `lastSafeX` lie within the
level when `lastSafeX` did before. -/
theorem playerPhysics_x (pw : ℚ → ℚ) (L : Level) (inp : Input) (dt : ℚ) (p : Player)
    (hsafe : XInLevel L p.lastSafeX) :
    XInLevel L (playerPhysics pw L inp dt p).x ∧
      XInLevel L (playerPhysics pw L inp dt p).lastSafeX := by
  have hL : 0 ≤ (L.width : ℚ) * TS - PLAYER_W := le_trans hsafe.1 hsafe.2
  unfold playerPhysics settle
  generalize hq : animation dt (invincibility dt (squashReturn dt
    (landing p.onGround (coyoteTime p.onGround dt (moveAndCollide pw L inp dt p))))) = q
  have hqs : q.lastSafeX = p.lastSafeX := by
    rw [← hq]
    simp [moveAndCollide, afterJump, beforeJump]
  have hx := levelBounds_x L q hL
  have hs : (levelBounds L q).lastSafeX = p.lastSafeX := by rw [levelBounds_lastSafeX, hqs]
  generalize levelBounds L q = r at hx hs
  have hfx : XInLevel L (fallSafety L r).x ∧ (fallSafety L r).lastSafeX = p.lastSafeX := by
    unfold fallSafety
    split_ifs
    · exact ⟨by rw [← hs] at hsafe; exact hsafe, hs⟩
    · exact ⟨hx, hs⟩
  generalize fallSafety L r = s at hfx
  unfold saveSafe
  split_ifs
  · exact ⟨hfx.1, hfx.1⟩
  · exact ⟨hfx.1, by rw [hfx.2]; exact hsafe⟩

theorem collideEnemy_x (p : Player) (score : ℕ) (e : Enemy) :
    ((collideEnemy p score e).1.x = p.x ∨ (collideEnemy p score e).1.x = p.lastSafeX) ∧
      (collideEnemy p score e).1.lastSafeX = p.lastSafeX := by
  unfold collideEnemy
  dsimp only
  split_ifs <;> simp

theorem enemyContacts_x (L : Level) (p : Player) (score : ℕ) (es : List Enemy)
    (hx : XInLevel L p.x) (hsafe : XInLevel L p.lastSafeX) :
    XInLevel L (enemyContacts p score es).player.x ∧
      XInLevel L (enemyContacts p score es).player.lastSafeX := by
  unfold enemyContacts
  induction es with
  | nil => exact ⟨hx, hsafe⟩
  | cons e es ih =>
    rw [List.foldr_cons]
    generalize List.foldr contactStep { player := p, score := score, enemies := [] } es = c
      at ih
    unfold contactStep
    dsimp only
    obtain ⟨h1, h2⟩ := collideEnemy_x c.player c.score e
    rw [h2]
    refine ⟨?_, ih.2⟩
    rcases h1 with h | h
    · rw [h]; exact ih.1
    · rw [h]; exact ih.2

/-- One `updatePlayer` call keeps `x` and `lastSafeX` within the level. -/
theorem updatePlayer_x (pw : ℚ → ℚ) (inp : Input) (dt : ℚ) (g : Game)
    (hsafe : XInLevel g.levelData g.player.lastSafeX) :
    (updatePlayer pw inp dt g).levelData = g.levelData ∧
      XInLevel g.levelData (updatePlayer pw inp dt g).player.x ∧
      XInLevel g.levelData (updatePlayer pw inp dt g).player.lastSafeX := by
  obtain ⟨h1, h2⟩ := playerPhysics_x pw g.levelData inp dt g.player hsafe
  exact ⟨rfl, enemyContacts_x g.levelData _ g.score g.enemies h1 h2⟩

/-! ## Counting hearts -/

theorem heartCols_length (cs : List Char) (i : ℕ) : (heartCols cs i).length = cs.count 'H' := by
  induction cs generalizing i with
  | nil => rfl
  | cons c cs ih =>
    simp only [heartCols, List.length_append, ih, List.count_cons]
    by_cases h : c = 'H'
    · simp [h]
      omega
    · simp [h]

theorem mem_heartCols (cs : List Char) (i j : ℕ) (h : cs[j]? = some 'H') :
    i + j ∈ heartCols cs i := by
  induction cs generalizing i j with
  | nil => simp at h
  | cons c cs ih =>
    simp only [heartCols, List.mem_append]
    cases j with
    | zero =>
      left
      simp only [List.getElem?_cons_zero, Option.some.injEq] at h
      simp [h]
    | succ j =>
      right
      simp only [List.getElem?_cons_succ] at h
      have := ih (i + 1) j h
      have e : i + (j + 1) = i + 1 + j := by omega
      rw [e]
      exact this

theorem heartKeysFrom_length (rows : List String) (r : ℕ) :
    (heartKeysFrom rows r).length = (rows.map fun s => s.data.count 'H').sum := by
  induction rows generalizing r with
  | nil => rfl
  | cons s rest ih =>
    simp only [heartKeysFrom, List.length_append, List.length_map, heartCols_length, ih,
      List.map_cons, List.sum_cons]

theorem mem_heartKeysFrom (rows : List String) (r i j : ℕ) (s : String)
    (hrow : rows[i]? = some s) (hcol : s.data[j]? = some 'H') :
    ((j : ℤ), ((r + i : ℕ) : ℤ)) ∈ heartKeysFrom rows r := by
  induction rows generalizing r i with
  | nil => simp at hrow
  | cons s0 rest ih =>
    simp only [heartKeysFrom, List.mem_append, List.mem_map]
    cases i with
    | zero =>
      left
      simp only [List.getElem?_cons_zero, Option.some.injEq] at hrow
      subst hrow
      refine ⟨j, ?_, rfl⟩
      have := mem_heartCols s0.data 0 j hcol
      simpa using this
    | succ i =>
      right
      simp only [List.getElem?_cons_succ] at hrow
      have := ih (r + 1) i hrow
      have e : r + (i + 1) = r + 1 + i := by omega
      rw [e]
      exact this

/-- A cell whose tile is 'H' lies inside the level and is one of its heart keys. -/
theorem heart_tile_in_range (L : Level) (col row : ℤ) (h : getTile L col row = 'H') :
    0 ≤ col ∧ col < L.width ∧ 0 ≤ row ∧ row < L.height ∧ (col, row) ∈ heartKeysFrom L.map 0 := by
  unfold getTile at h
  split_ifs at h with hr
  · exact absurd h (by decide)
  · have hr1 : 0 ≤ row := by
      by_contra hc
      exact hr (Or.inl (not_le.mp hc))
    have hr2 : row < L.height := by
      by_contra hc
      exact hr (Or.inr (Or.inl (not_lt.mp hc)))
    have hc1 : 0 ≤ col := by
      by_contra hc
      exact hr (Or.inr (Or.inr (Or.inl (not_le.mp hc))))
    have hc2 : col < L.width := by
      by_contra hc
      exact hr (Or.inr (Or.inr (Or.inr (not_lt.mp hc))))
    refine ⟨hc1, hc2, hr1, hr2, ?_⟩
    cases hm : L.map[row.toNat]? with
    | none =>
      simp [hm] at h
    | some s =>
      cases hs : s.data[col.toNat]? with
      | none =>
        simp [hm, hs] at h
      | some c =>
        simp only [hm, hs] at h
        subst h
        have := mem_heartKeysFrom L.map 0 row.toNat col.toNat s hm hs
        have e1 : ((col.toNat : ℕ) : ℤ) = col := Int.toNat_of_nonneg hc1
        have e2 : ((0 + row.toNat : ℕ) : ℤ) = row := by
          rw [zero_add]
          exact Int.toNat_of_nonneg hr1
        rw [e1, e2] at this
        exact this

/-- Distinct heart tiles are at most as many as the 'H' characters of the map. -/
theorem heart_keys_le_totalHearts (L : Level) (keys : List (ℤ × ℤ)) (hnd : keys.Nodup)
    (hk : ∀ k ∈ keys, getTile L k.1 k.2 = 'H') : keys.length ≤ L.totalHearts := by
  have hsub : keys ⊆ heartKeysFrom L.map 0 := by
    intro k hkin
    exact (heart_tile_in_range L k.1 k.2 (hk k hkin)).2.2.2.2
  have := (List.subperm_of_subset hnd hsub).length_le
  rw [heartKeysFrom_length] at this
  exact this

theorem checkHeartCollection_consistent (g : Game) (h : HeartsConsistent g) :
    (checkHeartCollection g).levelData = g.levelData ∧
      HeartsConsistent (checkHeartCollection g) := by
  obtain ⟨new, hc, hnd, hfresh, _, hh⟩ := collectCells_awards (heartCells g.player) g
  have hsame := collectCells_same (heartCells g.player) g
  rw [← checkHeartCollection_eq] at hc hh hsame
  have hl : (checkHeartCollection g).levelData = g.levelData := by
    unfold SameButHearts at hsame
    rw [hsame]
  obtain ⟨h1, h2, h3⟩ := h
  refine ⟨hl, ?_, ?_, ?_⟩
  · rw [hh, hc, List.length_append, h1]
    ring
  · rw [hc, List.nodup_append]
    exact ⟨hnd, h2, fun a ha hb => (hfresh a ha).1 hb⟩
  · intro k hk
    rw [hl]
    rw [hc, List.mem_append] at hk
    rcases hk with hk | hk
    · exact (hfresh k hk).2
    · exact h3 k hk

theorem collectAt_consistent (positions : List (ℚ × ℚ)) (g : Game) (h : HeartsConsistent g) :
    (collectAt positions g).levelData = g.levelData ∧
      HeartsConsistent (collectAt positions g) := by
  unfold collectAt
  induction positions generalizing g with
  | nil => exact ⟨rfl, h⟩
  | cons xy rest ih =>
    rw [List.foldl_cons]
    have h0 : HeartsConsistent { g with player := { g.player with x := xy.1, y := xy.2 } } := h
    obtain ⟨a, b⟩ := checkHeartCollection_consistent _ h0
    obtain ⟨c, d⟩ := ih _ b
    exact ⟨by rw [c, a], d⟩

theorem loadLevel_hearts (Ls : List Level) (index : ℕ) (g g0 : Game)
    (h : loadLevel Ls index g = some g0) : HeartsConsistent g0 := by
  unfold loadLevel at h
  split at h
  · exact absurd h (by simp)
  · injection h with h
    rw [← h]
    exact ⟨rfl, List.nodup_nil, fun k hk => absurd hk (List.not_mem_nil _)⟩

/-! ## The tones of one pass -/

theorem playNote_running (f : ℤ) (duration : ℚ) (type : Wave) (t : ℚ) (a : AudioManager)
    (c : AudioContext) (hctx : a.ctx = some c) (hm : a.muted = false) (ht : t ≠ 0) :
    playNote (some f) duration type t a =
      withTones a c (c.tones ++ [⟨f, type, t, t + duration⟩]) := by
  unfold playNote withTones
  rw [hctx]
  simp [hm, ht]

theorem withTones_ctx (a : AudioManager) (c : AudioContext) (ts : List Tone) :
    (withTones a c ts).ctx = some { c with tones := ts } := rfl

theorem withTones_muted (a : AudioManager) (c : AudioContext) (ts : List Tone) :
    (withTones a c ts).muted = a.muted := rfl

theorem withTones_withTones (a : AudioManager) (c : AudioContext) (ts us : List Tone) :
    withTones (withTones a c ts) { c with tones := ts } us = withTones a c us := rfl

theorem withTones_self (a : AudioManager) (c : AudioContext) (hctx : a.ctx = some c) :
    withTones a c c.tones = a := by
  cases a
  simp only at hctx
  subst hctx
  rfl

/-- The tones one voice adds on a running, unmuted manager: each has the type of the voice,
starts at or after the start `t` of the voice and stops no later than `t` plus the total
duration of the voice. -/
theorem playVoice_tones (beatDur gate : ℚ) (type : Wave) (hb : 0 ≤ beatDur)
    (hg1 : gate ≤ 1) (voice : List (Option ℤ × ℚ)) (hv : ∀ n ∈ voice, 0 ≤ n.2) (t : ℚ)
    (ht : 0 < t) (a : AudioManager) (c : AudioContext) (hctx : a.ctx = some c)
    (hm : a.muted = false) :
    ∃ new : List Tone,
      (playVoice beatDur gate type voice t a).2 = withTones a c (c.tones ++ new) ∧
      ∀ tn ∈ new, tn.wave = type ∧ t ≤ tn.start ∧
        tn.stop ≤ t + (voice.map fun n => n.2).sum * beatDur := by
  induction voice generalizing t a c with
  | nil =>
    refine ⟨[], ?_, fun tn h => absurd h (List.not_mem_nil _)⟩
    simp only [playVoice, List.append_nil]
    exact (withTones_self a c hctx).symm
  | cons n rest ih =>
    obtain ⟨freq, beats⟩ := n
    have hbeats : 0 ≤ beats := hv (freq, beats) (List.mem_cons_self _ _)
    have hdur : 0 ≤ beats * beatDur := mul_nonneg hbeats hb
    have hrest : ∀ m ∈ rest, 0 ≤ m.2 := fun m hm => hv m (List.mem_cons_of_mem _ hm)
    have hsum : 0 ≤ (rest.map fun n => n.2).sum * beatDur := by
      apply mul_nonneg _ hb
      apply List.sum_nonneg
      intro x hx
      obtain ⟨m, hm1, hm2⟩ := List.mem_map.mp hx
      rw [← hm2]
      exact hrest m hm1
    simp only [playVoice, List.map_cons, List.sum_cons]
    cases freq with
    | none =>
      simp only [Option.isSome_none, Bool.false_eq_true, if_false]
      obtain ⟨new, h1, h2⟩ := ih hrest (t + beats * beatDur) (by linarith) a c hctx hm
      refine ⟨new, h1, ?_⟩
      intro tn htn
      obtain ⟨a1, a2, a3⟩ := h2 tn htn
      exact ⟨a1, by linarith, by linarith⟩
    | some f =>
      simp only [Option.isSome_some, if_true]
      rw [playNote_running f _ type t a c hctx hm (ne_of_gt ht)]
      obtain ⟨new, h1, h2⟩ := ih hrest (t + beats * beatDur) (by linarith)
        (withTones a c (c.tones ++ [⟨f, type, t, t + beats * beatDur * gate⟩]))
        { c with tones := c.tones ++ [⟨f, type, t, t + beats * beatDur * gate⟩] }
        (withTones_ctx _ _ _) hm
      refine ⟨⟨f, type, t, t + beats * beatDur * gate⟩ :: new, ?_, ?_⟩
      · rw [h1, withTones_withTones]
        simp
      · intro tn htn
        rcases List.mem_cons.mp htn with h | h
        · subst h
          refine ⟨rfl, le_refl _, ?_⟩
          have : beats * beatDur * gate ≤ beats * beatDur := by
            calc beats * beatDur * gate ≤ beats * beatDur * 1 :=
                  mul_le_mul_of_nonneg_left hg1 hdur
              _ = beats * beatDur := mul_one _
          show t + beats * beatDur * gate ≤ t + (beats + _) * beatDur
          linarith
        · obtain ⟨a1, a2, a3⟩ := h2 tn h
          exact ⟨a1, by linarith, by linarith⟩

/-- The tones one pass of `playSequence` adds on a running, unmuted manager: the bass tones
(type triangle) lie between `now` and `now` plus the total duration of the bass voice. -/
theorem playSequence_bass_tones (m : Melody) (a : AudioManager) (c : AudioContext)
    (hctx : a.ctx = some c) (hm : a.muted = false) (hs : c.suspended = false)
    (hc : 0 ≤ c.currentTime) (ht : 0 ≤ m.tempo) (hl : ∀ n ∈ m.lead, 0 ≤ n.2)
    (hb : ∀ n ∈ m.bass, 0 ≤ n.2) :
    ∃ new : List Tone,
      (playSequence m (60 / m.tempo) a).2 = withTones a c (c.tones ++ new) ∧
      ∀ tn ∈ new, tn.wave = Wave.triangle →
        c.currentTime + 1 / 10 ≤ tn.start ∧
        tn.stop ≤ c.currentTime + 1 / 10 + bassBeats m * (60 / m.tempo) := by
  have hbd : (0 : ℚ) ≤ 60 / m.tempo := div_nonneg (by norm_num) ht
  have hnow : 0 < c.currentTime + 1 / 10 := by linarith
  unfold playSequence
  rw [hctx]
  simp only [hm, hs, Bool.or_self, Bool.false_eq_true, if_false]
  obtain ⟨new1, h1, h2⟩ := playVoice_tones (60 / m.tempo) (9 / 10) Wave.square hbd
    (by norm_num) m.lead hl (c.currentTime + 1 / 10) hnow a c hctx hm
  rw [h1]
  obtain ⟨new2, h3, h4⟩ := playVoice_tones (60 / m.tempo) (85 / 100) Wave.triangle hbd
    (by norm_num) m.bass hb (c.currentTime + 1 / 10) hnow
    (withTones a c (c.tones ++ new1)) { c with tones := c.tones ++ new1 }
    (withTones_ctx _ _ _) hm
  rw [h3, withTones_withTones]
  refine ⟨new1 ++ new2, by simp, ?_⟩
  intro tn htn hw
  rcases List.mem_append.mp htn with h | h
  · have := (h2 tn h).1
    rw [hw] at this
    cases this
  · obtain ⟨_, a2, a3⟩ := h4 tn h
    exact ⟨a2, a3⟩

theorem getMelody_nonneg (theme : String) :
    0 ≤ (getMelody theme).tempo ∧ (∀ n ∈ (getMelody theme).lead, 0 ≤ n.2) ∧
      ∀ n ∈ (getMelody theme).bass, 0 ≤ n.2 := by
  have h : ∀ m ∈ themeNames.map getMelody,
      0 ≤ m.tempo ∧ (∀ n ∈ m.lead, 0 ≤ n.2) ∧ ∀ n ∈ m.bass, 0 ≤ n.2 := by decide!
  exact h _ (getMelody_mem theme)

theorem alignedThemes_bass_le (theme : String) (h : theme ∈ alignedThemes) :
    bassBeats (getMelody theme) ≤ leadBeats (getMelody theme) := by
  have key : ∀ t ∈ alignedThemes, bassBeats (getMelody t) ≤ leadBeats (getMelody t) := by
    decide!
  exact key theme h

theorem specLeadDuration_eq (m : Melody) : specLeadDuration m = leadBeats m * (60 / m.tempo) := by
  unfold specLeadDuration leadBeats
  rw [mul_div_assoc]

/-! ## At most one music timer -/

theorem stopBGM_of_none (a : AudioManager) (ts : Timers) (h : a.bgmInterval = none) :
    stopBGM a ts = ({ a with currentBGM := none }, ts) := by
  unfold stopBGM
  rw [h]

theorem stopBGM_of_some (a : AudioManager) (ts : Timers) (id : ℕ)
    (h : a.bgmInterval = some id) (h0 : id ≠ 0) :
    stopBGM a ts = ({ a with bgmInterval := none, currentBGM := none }, clearInterval id ts) := by
  unfold stopBGM
  rw [h]
  simp only [if_pos h0]

theorem stopBGM_of_zero (a : AudioManager) (ts : Timers) (h : a.bgmInterval = some 0) :
    stopBGM a ts = ({ a with currentBGM := none }, ts) := by
  unfold stopBGM
  rw [h]
  simp

theorem stopBGM_bgmTimers (a : AudioManager) (ts : Timers) (h : BgmTracked a ts) :
    bgmTimers (stopBGM a ts).2 = [] ∧ (stopBGM a ts).1.currentBGM = none ∧
      ((stopBGM a ts).1.bgmInterval = none ∨ (stopBGM a ts).1.bgmInterval = some 0) := by
  obtain hb | ⟨id, hb⟩ : a.bgmInterval = none ∨ ∃ id, a.bgmInterval = some id := by
    cases a.bgmInterval <;> simp
  · rw [stopBGM_of_none a ts hb]
    refine ⟨?_, rfl, Or.inl hb⟩
    apply List.eq_nil_iff_forall_not_mem.mpr
    intro t ht
    have := (h.2 t ht).1
    rw [hb] at this
    cases this
  · by_cases h0 : id ≠ 0
    · rw [stopBGM_of_some a ts id hb h0]
      refine ⟨?_, rfl, Or.inl rfl⟩
      apply List.eq_nil_iff_forall_not_mem.mpr
      intro t ht
      unfold bgmTimers clearInterval at ht
      rw [List.mem_filter, List.mem_filter] at ht
      have hmem : t ∈ bgmTimers ts := List.mem_filter.mpr ⟨ht.1.1, ht.2⟩
      have hid := (h.2 t hmem).1
      rw [hb] at hid
      have : t.id = id := (Option.some.inj hid).symm
      simp [this] at ht
    · have hz : id = 0 := by
        by_contra hc
        exact h0 hc
      subst hz
      rw [stopBGM_of_zero a ts hb]
      refine ⟨?_, rfl, Or.inr hb⟩
      apply List.eq_nil_iff_forall_not_mem.mpr
      intro t ht
      obtain ⟨h1, h2⟩ := h.2 t ht
      rw [hb] at h1
      exact h2 (Option.some.inj h1).symm

theorem stopBGM_tracked (a : AudioManager) (ts : Timers) (h : BgmTracked a ts) :
    BgmTracked (stopBGM a ts).1 (stopBGM a ts).2 := by
  obtain ⟨h1, _, _⟩ := stopBGM_bgmTimers a ts h
  unfold BgmTracked
  rw [h1]
  exact ⟨by simp, fun t ht => absurd ht (List.not_mem_nil _)⟩

/-- On a manager with a context, `playBGM(theme)` leaves exactly one music timer armed, the
new one, and holds its id. -/
theorem playBGM_bgmTimers (theme : String) (a : AudioManager) (ts : Timers)
    (c : AudioContext) (hctx : a.ctx = some c) (h : BgmTracked a ts) :
    bgmTimers (playBGM theme a ts).2 =
      [⟨ts.lastId + 1, Callback.bgmLoop theme,
        max (specLeadDuration (getMelody theme) * 1000) 1000, true⟩] ∧
    (playBGM theme a ts).1.bgmInterval = some (ts.lastId + 1) ∧
    (playBGM theme a ts).1.currentBGM = some theme := by
  obtain ⟨h1, h2, h3⟩ := playBGM_timers theme a ts c hctx (specLeadDuration_pos theme)
  obtain ⟨hs, _, _⟩ := stopBGM_bgmTimers a ts h
  refine ⟨?_, h2, h3⟩
  rw [h1]
  unfold bgmTimers at hs ⊢
  simp only [setInterval, List.filter_append, hs, List.nil_append, stopBGM_lastId]
  rfl

theorem playBGM_tracked (theme : String) (a : AudioManager) (ts : Timers)
    (h : BgmTracked a ts) : BgmTracked (playBGM theme a ts).1 (playBGM theme a ts).2 := by
  cases hctx : a.ctx with
  | none =>
    have : playBGM theme a ts = (a, ts) := by
      unfold playBGM
      rw [hctx]
    rw [this]
    exact h
  | some c =>
    obtain ⟨h1, h2, _⟩ := playBGM_bgmTimers theme a ts c hctx h
    unfold BgmTracked
    rw [h1]
    refine ⟨le_refl _, ?_⟩
    intro t ht
    rw [List.mem_singleton] at ht
    subst ht
    exact ⟨h2, Nat.succ_ne_zero _⟩

theorem toggleMute_tracked (a : AudioManager) (ts : Timers) (h : BgmTracked a ts) :
    BgmTracked (toggleMute a ts).1 (toggleMute a ts).2 := by
  unfold toggleMute
  dsimp only
  split_ifs
  · exact stopBGM_tracked _ ts h
  · exact h

theorem runCalls_tracked (calls : List AudioCall) (s : AudioManager × Timers)
    (h : BgmTracked s.1 s.2) : BgmTracked (runCalls calls s).1 (runCalls calls s).2 := by
  unfold runCalls
  induction calls generalizing s with
  | nil => exact h
  | cons call rest ih =>
    rw [List.foldl_cons]
    apply ih
    cases call with
    | playBGM theme => exact playBGM_tracked theme s.1 s.2 h
    | stopBGM => exact stopBGM_tracked s.1 s.2 h
    | toggleMute => exact toggleMute_tracked s.1 s.2 h

theorem playNote_ctx_isSome (freq : Option ℤ) (duration : ℚ) (type : Wave) (t : ℚ)
    (a : AudioManager) : (playNote freq duration type t a).ctx.isSome = a.ctx.isSome := by
  unfold playNote
  split
  · rename_i c f hc
    split_ifs
    · rfl
    · rw [hc]
      rfl
    · rw [hc]
      rfl
  · rfl

theorem playVoice_ctx_isSome (beatDur gate : ℚ) (type : Wave) (voice : List (Option ℤ × ℚ))
    (t : ℚ) (a : AudioManager) :
    (playVoice beatDur gate type voice t a).2.ctx.isSome = a.ctx.isSome := by
  induction voice generalizing t a with
  | nil => rfl
  | cons n rest ih =>
    obtain ⟨freq, beats⟩ := n
    simp only [playVoice]
    rw [ih]
    split_ifs
    · exact playNote_ctx_isSome _ _ _ _ _
    · rfl

theorem playSequence_ctx_isSome (m : Melody) (beatDur : ℚ) (a : AudioManager) :
    (playSequence m beatDur a).2.ctx.isSome = a.ctx.isSome := by
  unfold playSequence
  split
  · rfl
  · split_ifs
    · rfl
    · dsimp only
      rw [playVoice_ctx_isSome, playVoice_ctx_isSome]

theorem playBGM_ctx_isSome (theme : String) (a : AudioManager) (ts : Timers) :
    (playBGM theme a ts).1.ctx.isSome = a.ctx.isSome := by
  unfold playBGM
  split
  · rfl
  · dsimp only
    rw [playSequence_ctx_isSome, stopBGM_ctx]

theorem toggleMute_ctx (a : AudioManager) (ts : Timers) : (toggleMute a ts).1.ctx = a.ctx := by
  unfold toggleMute
  dsimp only
  split_ifs
  · rw [stopBGM_ctx]
  · rfl

theorem runCalls_ctx_isSome (calls : List AudioCall) (s : AudioManager × Timers) :
    (runCalls calls s).1.ctx.isSome = s.1.ctx.isSome := by
  unfold runCalls
  induction calls generalizing s with
  | nil => rfl
  | cons call rest ih =>
    rw [List.foldl_cons, ih]
    cases call with
    | playBGM theme => exact playBGM_ctx_isSome theme s.1 s.2
    | stopBGM => exact congrArg Option.isSome (stopBGM_ctx s.1 s.2)
    | toggleMute => exact congrArg Option.isSome (toggleMute_ctx s.1 s.2)

/-! ## Timers through `setState` -/

theorem setTimeout_idsBounded (cb : Callback) (d : ℚ) (ts : Timers) (h : IdsBounded ts) :
    IdsBounded (setTimeout cb d ts).1 := by
  intro t ht
  simp only [setTimeout, List.mem_append, List.mem_singleton] at ht ⊢
  rcases ht with ht | ht
  · exact le_trans (h t ht) (Nat.le_succ _)
  · rw [ht]

theorem setInterval_idsBounded (cb : Callback) (d : ℚ) (ts : Timers) (h : IdsBounded ts) :
    IdsBounded (setInterval cb d ts).1 := by
  intro t ht
  simp only [setInterval, List.mem_append, List.mem_singleton] at ht ⊢
  rcases ht with ht | ht
  · exact le_trans (h t ht) (Nat.le_succ _)
  · rw [ht]

theorem clearTimeout_idsBounded (id : ℕ) (ts : Timers) (h : IdsBounded ts) :
    IdsBounded (clearTimeout id ts) := by
  intro t ht
  simp only [clearTimeout, List.mem_filter] at ht ⊢
  exact h t ht.1

theorem clearInterval_idsBounded (id : ℕ) (ts : Timers) (h : IdsBounded ts) :
    IdsBounded (clearInterval id ts) := clearTimeout_idsBounded id ts h

theorem setTimeout_idRetired (id : ℕ) (cb : Callback) (d : ℚ) (ts : Timers)
    (h : IdRetired id ts) : IdRetired id (setTimeout cb d ts).1 := by
  refine ⟨le_trans h.1 (Nat.le_succ _), ?_⟩
  intro t ht
  simp only [setTimeout, List.mem_append, List.mem_singleton] at ht
  rcases ht with ht | ht
  · exact h.2 t ht
  · rw [ht]
    have := h.1
    show ts.lastId + 1 ≠ id
    omega

theorem setInterval_idRetired (id : ℕ) (cb : Callback) (d : ℚ) (ts : Timers)
    (h : IdRetired id ts) : IdRetired id (setInterval cb d ts).1 := by
  refine ⟨le_trans h.1 (Nat.le_succ _), ?_⟩
  intro t ht
  simp only [setInterval, List.mem_append, List.mem_singleton] at ht
  rcases ht with ht | ht
  · exact h.2 t ht
  · rw [ht]
    have := h.1
    show ts.lastId + 1 ≠ id
    omega

theorem clearTimeout_idRetired (id k : ℕ) (ts : Timers) (h : IdRetired id ts) :
    IdRetired id (clearTimeout k ts) := by
  refine ⟨h.1, ?_⟩
  intro t ht
  simp only [clearTimeout, List.mem_filter] at ht
  exact h.2 t ht.1

theorem clearInterval_idRetired (id k : ℕ) (ts : Timers) (h : IdRetired id ts) :
    IdRetired id (clearInterval k ts) := clearTimeout_idRetired id k ts h

theorem setTimeout_finaleTimers (cb : Callback) (d : ℚ) (ts : Timers) :
    finaleTimers (setTimeout cb d ts).1 =
      finaleTimers ts ++
        if cb = Callback.finaleMusic then [⟨ts.lastId + 1, cb, d, false⟩] else [] := by
  unfold finaleTimers setTimeout
  rw [List.filter_append]
  by_cases h : cb = Callback.finaleMusic <;> simp [h]

theorem setInterval_finaleTimers (theme : String) (d : ℚ) (ts : Timers) :
    finaleTimers (setInterval (Callback.bgmLoop theme) d ts).1 = finaleTimers ts := by
  unfold finaleTimers setInterval
  rw [List.filter_append]
  simp

theorem clearTimeout_finaleTimers (id : ℕ) (ts : Timers) :
    finaleTimers (clearTimeout id ts) = (finaleTimers ts).filter fun t => t.id ≠ id := by
  unfold finaleTimers clearTimeout
  simp only [List.filter_filter]
  congr 1
  funext t
  exact Bool.and_comm _ _

theorem clearInterval_finaleTimers (id : ℕ) (ts : Timers) :
    finaleTimers (clearInterval id ts) = (finaleTimers ts).filter fun t => t.id ≠ id :=
  clearTimeout_finaleTimers id ts

/-- What `stopBGM` does to the timers: nothing, or one `clearInterval`. -/
theorem stopBGM_timers (a : AudioManager) (ts : Timers) :
    (stopBGM a ts).2 = ts ∨ ∃ id, (stopBGM a ts).2 = clearInterval id ts := by
  unfold stopBGM
  split
  · split_ifs
    · exact Or.inr ⟨_, rfl⟩
    · exact Or.inl rfl
  · exact Or.inl rfl

/-- What `playBGM` does to the timers: nothing, or `stopBGM` followed by one `setInterval`
of a music pass. -/
theorem playBGM_timers_shape (theme : String) (a : AudioManager) (ts : Timers) :
    (playBGM theme a ts).2 = ts ∨
      ∃ d, (playBGM theme a ts).2 = (setInterval (Callback.bgmLoop theme) d (stopBGM a ts).2).1 := by
  unfold playBGM
  split
  · exact Or.inl rfl
  · exact Or.inr ⟨_, rfl⟩

/-- The three properties of a timer table that the music calls keep. -/
theorem stopBGM_keeps (a : AudioManager) (ts : Timers) (id : ℕ) :
    (IdsBounded ts → IdsBounded (stopBGM a ts).2) ∧
    (IdRetired id ts → IdRetired id (stopBGM a ts).2) ∧
    (finaleTimers ts = [] → finaleTimers (stopBGM a ts).2 = []) := by
  rcases stopBGM_timers a ts with h | ⟨k, h⟩
  · rw [h]
    exact ⟨fun x => x, fun x => x, fun x => x⟩
  · rw [h]
    refine ⟨clearInterval_idsBounded k ts, clearInterval_idRetired id k ts, ?_⟩
    intro h0
    rw [clearInterval_finaleTimers, h0]
    rfl

theorem playBGM_keeps (theme : String) (a : AudioManager) (ts : Timers) (id : ℕ) :
    (IdsBounded ts → IdsBounded (playBGM theme a ts).2) ∧
    (IdRetired id ts → IdRetired id (playBGM theme a ts).2) ∧
    (finaleTimers ts = [] → finaleTimers (playBGM theme a ts).2 = []) := by
  obtain ⟨s1, s2, s3⟩ := stopBGM_keeps a ts id
  rcases playBGM_timers_shape theme a ts with h | ⟨d, h⟩
  · rw [h]
    exact ⟨fun x => x, fun x => x, fun x => x⟩
  · rw [h]
    refine ⟨fun x => setInterval_idsBounded _ _ _ (s1 x),
      fun x => setInterval_idRetired id _ _ _ (s2 x), ?_⟩
    intro h0
    rw [setInterval_finaleTimers]
    exact s3 h0

/-- The timers after the first part of `setState` (line 219): the finale-music timeout is
cancelled, its id is retired and `finaleTimeout` is null. -/
theorem clearFinaleTimeout_spec (w : World) (h : FinaleTracked w) :
    (clearFinaleTimeout w).finaleTimeout = none ∧
    finaleTimers (clearFinaleTimeout w).timers = [] ∧
    IdsBounded (clearFinaleTimeout w).timers ∧
    (clearFinaleTimeout w).timers.lastId = w.timers.lastId ∧
    ∀ t ∈ finaleTimers w.timers, IdRetired t.id (clearFinaleTimeout w).timers := by
  obtain ⟨h0, hb, ht⟩ := h
  obtain hf | ⟨id, hf⟩ : w.finaleTimeout = none ∨ ∃ id, w.finaleTimeout = some id := by
    cases w.finaleTimeout <;> simp
  · have hw : clearFinaleTimeout w = w := by
      unfold clearFinaleTimeout
      rw [hf]
    have hnil : finaleTimers w.timers = [] := by
      apply List.eq_nil_iff_forall_not_mem.mpr
      intro t htm
      have := ht t htm
      rw [hf] at this
      cases this
    rw [hw]
    refine ⟨hf, hnil, hb, rfl, ?_⟩
    intro t htm
    rw [hnil] at htm
    exact absurd htm (List.not_mem_nil _)
  · have hid : id ≠ 0 := by
      intro hz
      rw [hz] at hf
      exact h0 hf
    have hw : clearFinaleTimeout w =
        { w with timers := clearTimeout id w.timers, finaleTimeout := none } := by
      unfold clearFinaleTimeout
      rw [hf]
      simp only [if_pos hid]
    rw [hw]
    refine ⟨rfl, ?_, clearTimeout_idsBounded id w.timers hb, rfl, ?_⟩
    · show finaleTimers (clearTimeout id w.timers) = []
      rw [clearTimeout_finaleTimers]
      apply List.eq_nil_iff_forall_not_mem.mpr
      intro t htm
      rw [List.mem_filter] at htm
      have := ht t htm.1
      rw [hf] at this
      have e : t.id = id := (Option.some.inj this).symm
      simp [e] at htm
    · intro t htm
      have := ht t htm
      rw [hf] at this
      have e : t.id = id := (Option.some.inj this).symm
      rw [e]
      refine ⟨?_, ?_⟩
      · rw [← e]
        exact hb t (List.mem_filter.mp htm).1
      · intro u hu
        simp only [clearTimeout, List.mem_filter, decide_eq_true_eq] at hu
        exact hu.2

theorem setState_stateTimer (s : State) (w : World) : (setState s w).stateTimer = 0 := by
  have h : ∀ v : World, (clearFinaleTimeout v).stateTimer = v.stateTimer := by
    intro v
    unfold clearFinaleTimeout
    split
    · split_ifs <;> rfl
    · rfl
  have hf : ∀ v : World, (showFinale v).stateTimer = v.stateTimer := by
    intro v
    unfold showFinale
    dsimp only
    split
    · split_ifs <;> rfl
    · rfl
  unfold setState
  cases s <;> simp [h, hf, showLevelIntro, showMemoryCard, playMusic, stopMusic]

/-- The function `showFinale` on a world whose finale-music timeout has been cancelled. -/
theorem showFinale_of_cleared (w : World) (h : w.finaleTimeout = none) :
    showFinale w =
      { stopMusic w with
        timers := (setTimeout Callback.finaleMusic 2000 (stopMusic w).timers).1
        finaleTimeout := some ((stopMusic w).timers.lastId + 1) } := by
  unfold showFinale
  have : (stopMusic w).finaleTimeout = none := h
  simp only [this]
  rfl

/-- What `setState` leaves of the timers, given what line 219 left. -/
theorem setState_tail (s : State) (w : World) (k : ℕ)
    (h1 : (clearFinaleTimeout { w with state := s, stateTimer := 0 }).finaleTimeout = none)
    (h2 : finaleTimers (clearFinaleTimeout { w with state := s, stateTimer := 0 }).timers = [])
    (h3 : IdsBounded (clearFinaleTimeout { w with state := s, stateTimer := 0 }).timers) :
    IdsBounded (setState s w).timers ∧
    (IdRetired k (clearFinaleTimeout { w with state := s, stateTimer := 0 }).timers →
      IdRetired k (setState s w).timers) ∧
    (s ≠ State.FINALE →
      finaleTimers (setState s w).timers = [] ∧ (setState s w).finaleTimeout = none) ∧
    (s = State.FINALE →
      ∃ id, finaleTimers (setState s w).timers = [⟨id, Callback.finaleMusic, 2000, false⟩] ∧
        (setState s w).finaleTimeout = some id ∧ id ≠ 0) := by
  generalize hv : clearFinaleTimeout { w with state := s, stateTimer := 0 } = v at h1 h2 h3
  have hs : ∀ u : World, (IdsBounded u.timers → IdsBounded (stopMusic u).timers) ∧
      (IdRetired k u.timers → IdRetired k (stopMusic u).timers) ∧
      (finaleTimers u.timers = [] → finaleTimers (stopMusic u).timers = []) :=
    fun u => stopBGM_keeps u.audio u.timers k
  have hp : ∀ (theme : String) (u : World),
      (IdsBounded u.timers → IdsBounded (playMusic theme u).timers) ∧
      (IdRetired k u.timers → IdRetired k (playMusic theme u).timers) ∧
      (finaleTimers u.timers = [] → finaleTimers (playMusic theme u).timers = []) :=
    fun theme u => playBGM_keeps theme u.audio u.timers k
  cases s with
  | LOADING =>
    have e : setState State.LOADING w = v := by rw [← hv]; rfl
    rw [e]
    exact ⟨h3, fun x => x, fun _ => ⟨h2, h1⟩, fun hc => by cases hc⟩
  | PLAYING =>
    have e : setState State.PLAYING w = v := by rw [← hv]; rfl
    rw [e]
    exact ⟨h3, fun x => x, fun _ => ⟨h2, h1⟩, fun hc => by cases hc⟩
  | TITLE =>
    have e : setState State.TITLE w =
        { v with timers := (setTimeout Callback.showButton 1100 v.timers).1 } := by
      rw [← hv]; rfl
    rw [e]
    refine ⟨setTimeout_idsBounded _ _ _ h3, fun x => setTimeout_idRetired k _ _ _ x,
      fun _ => ⟨?_, h1⟩, fun hc => by cases hc⟩
    show finaleTimers (setTimeout Callback.showButton 1100 v.timers).1 = []
    rw [setTimeout_finaleTimers, h2]
    simp
  | LEVEL_INTRO =>
    have e : setState State.LEVEL_INTRO w = stopMusic v := by rw [← hv]; rfl
    rw [e]
    exact ⟨(hs v).1 h3, (hs v).2.1, fun _ => ⟨(hs v).2.2 h2, h1⟩, fun hc => by cases hc⟩
  | LEVEL_COMPLETE =>
    have e : setState State.LEVEL_COMPLETE w = stopMusic v := by rw [← hv]; rfl
    rw [e]
    exact ⟨(hs v).1 h3, (hs v).2.1, fun _ => ⟨(hs v).2.2 h2, h1⟩, fun hc => by cases hc⟩
  | MEMORY_CARD =>
    have e : setState State.MEMORY_CARD w = playMusic "memory" (stopMusic v) := by
      rw [← hv]; rfl
    rw [e]
    exact ⟨(hp _ _).1 ((hs v).1 h3), fun x => (hp _ _).2.1 ((hs v).2.1 x),
      fun _ => ⟨(hp _ _).2.2 ((hs v).2.2 h2), h1⟩, fun hc => by cases hc⟩
  | FINALE =>
    have e : setState State.FINALE w =
        { showFinale v with
          timers := (setTimeout Callback.showButton 3100 (showFinale v).timers).1 } := by
      rw [← hv]; rfl
    rw [e, showFinale_of_cleared v h1]
    dsimp only
    refine ⟨setTimeout_idsBounded _ _ _ (setTimeout_idsBounded _ _ _ ((hs v).1 h3)),
      fun x => setTimeout_idRetired k _ _ _ (setTimeout_idRetired k _ _ _ ((hs v).2.1 x)),
      fun hc => absurd rfl hc, fun _ => ⟨(stopMusic v).timers.lastId + 1, ?_, rfl,
        Nat.succ_ne_zero _⟩⟩
    rw [setTimeout_finaleTimers, setTimeout_finaleTimers, (hs v).2.2 h2]
    simp

/-! ## The level index -/

theorem loadLevel_of_lt (Ls : List Level) (index : ℕ) (g : Game) (h : index < Ls.length) :
    ∃ g1, loadLevel Ls index g = some g1 ∧ g1.currentLevel = index ∧
      Ls[index]? = some g1.levelData := by
  unfold loadLevel
  have : Ls[index]? = some (Ls[index]) := List.getElem?_eq_getElem h
  rw [this]
  exact ⟨_, rfl, rfl, rfl⟩

theorem loadLevel_lt (Ls : List Level) (index : ℕ) (g g1 : Game)
    (h : loadLevel Ls index g = some g1) : index < Ls.length ∧ g1.currentLevel = index := by
  unfold loadLevel at h
  split at h
  · cases h
  · rename_i L hL
    injection h with h
    rw [← h]
    refine ⟨?_, rfl⟩
    by_contra hc
    rw [List.getElem?_eq_none (not_lt.mp hc)] at hL
    cases hL

theorem checkHeartCollection_currentLevel (g : Game) :
    (checkHeartCollection g).currentLevel = g.currentLevel := by
  have h := collectCells_same (heartCells g.player) g
  rw [← checkHeartCollection_eq] at h
  unfold SameButHearts at h
  rw [h]

theorem checkPortal_currentLevel (w : World) :
    (checkPortal w).game.currentLevel = w.game.currentLevel := by
  unfold checkPortal completeLevel
  split_ifs
  · rw [setState_game]
  · rfl

theorem update_currentLevel (pw sn : ℚ → ℚ) (inp : Input) (dt : ℚ) (w : World) :
    (update pw sn inp dt w).game.currentLevel = w.game.currentLevel := by
  by_cases h : w.state = State.PLAYING
  · rw [update_of_playing pw sn inp dt w h, checkPortal_currentLevel]
    dsimp only
    rw [checkHeartCollection_currentLevel]
    rfl
  · rw [update_game_of_not_playing pw sn inp dt w h]

/-- Each step that starts with the level index inside a nonempty table succeeds and keeps
the index inside the table. -/
theorem stepWorld_level (pw sn : ℚ → ℚ) (Ls : List Level) (s : Step) (w : World)
    (h : w.game.currentLevel < Ls.length) :
    ∃ w1, stepWorld pw sn Ls s w = some w1 ∧ w1.game.currentLevel < Ls.length := by
  cases s with
  | frame inp dt =>
    refine ⟨_, rfl, ?_⟩
    rw [update_currentLevel]
    exact h
  | callback k =>
    cases k with
    | startGame =>
      obtain ⟨g1, h1, h2, _⟩ := loadLevel_of_lt Ls 0 { w.game with score := 0 }
        (lt_of_le_of_lt (Nat.zero_le _) h)
      refine ⟨setState State.LEVEL_INTRO { w with game := g1 }, ?_, ?_⟩
      · simp only [stepWorld, runContinuation, h1, Option.map_some']
      · rw [setState_game]
        dsimp only
        rw [h2]
        exact lt_of_le_of_lt (Nat.zero_le _) h
    | nextLevel =>
      by_cases hlt : (w.game.currentLevel : ℤ) < (Ls.length : ℤ) - 1
      · have hlt' : w.game.currentLevel + 1 < Ls.length := by omega
        obtain ⟨g1, h1, h2, _⟩ := loadLevel_of_lt Ls (w.game.currentLevel + 1) w.game hlt'
        refine ⟨setState State.LEVEL_INTRO { w with game := g1 }, ?_, ?_⟩
        · simp only [stepWorld, runContinuation, if_pos hlt, h1, Option.map_some']
        · rw [setState_game]
          dsimp only
          rw [h2]
          exact hlt'
      · refine ⟨setState State.FINALE w, ?_, ?_⟩
        · simp only [stepWorld, runContinuation, if_neg hlt]
        · rw [setState_game]
          exact h
    | replay =>
      refine ⟨_, rfl, ?_⟩
      rw [setState_game]
      exact h
    | showMemoryCard =>
      refine ⟨_, rfl, ?_⟩
      rw [setState_game]
      exact h

theorem runWorld_level (pw sn : ℚ → ℚ) (Ls : List Level) (steps : List Step) (w : World)
    (h : w.game.currentLevel < Ls.length) :
    ∃ w1, runWorld pw sn Ls steps w = some w1 ∧ w1.game.currentLevel < Ls.length := by
  induction steps generalizing w with
  | nil => exact ⟨w, rfl, h⟩
  | cons s rest ih =>
    obtain ⟨w1, h1, h2⟩ := stepWorld_level pw sn Ls s w h
    obtain ⟨w2, h3, h4⟩ := ih w1 h2
    refine ⟨w2, ?_, h4⟩
    simp only [runWorld, h1, Option.some_bind, h3]

/-- With the shipped levels the start action's callback succeeds in every world. -/
theorem startGame_shipped (v : World) :
    ∃ v1, runContinuation LEVELS Continuation.startGame v = some v1 := by
  obtain ⟨g1, h1, _, _⟩ := loadLevel_of_lt LEVELS 0 { v.game with score := 0 } (by decide)
  exact ⟨setState State.LEVEL_INTRO { v with game := g1 },
    by simp only [runContinuation, h1, Option.map_some']⟩

/-! ## C1: the bounding box after `updatePlayer` -/

/-- C1, evaluated at a failing input: on `dropLevel` the player falls from the start cell of
`loadLevel(0)` for six frames with `dt = 3` and reaches `y = 75` at `MAX_FALL`, its box clear
of every solid tile.  The next `updatePlayer` call with `dt = 3` and no input splits the
vertical move of 21 pixels into two sub-steps of 10.5.  The first sub-step lands the player on
row 6 (`y = 81`, `vy = 0`), the second still adds 10.5 to `y`, and `resolveCollisionY` moves
nothing when `vy = 0`: the call returns with `y = 91.5`, not grounded, and the box
`[91.5, 106.5)` inside the solid tile `(1, 6)`.  The last conjunct is the frame of C2: a player
at rest on `floorLevel` ends one call with `dt = 1` with its box 0.4 pixels inside the ground. -/
theorem updatePlayer_substep_sinks_into_ground :
    loadLevel [dropLevel] 0 (floorGame standingPlayer) = some dropStart ∧
    dropFallen.player.y = 75 ∧ dropFallen.player.vy = MAX_FALL ∧
    (0 : ℚ) ≤ 3 ∧ (3 : ℚ) ≤ 3 ∧
    ¬ BoxMeetsSolid dropLevel dropFallen.player ∧
    BoxMeetsSolid dropLevel (updatePlayer powWhole idleInput 3 dropFallen).player ∧
    (updatePlayer powWhole idleInput 3 dropFallen).player.y = 183 / 2 ∧
    (updatePlayer powWhole idleInput 3 dropFallen).player.vy = 0 ∧
    (updatePlayer powWhole idleInput 3 dropFallen).player.onGround = false ∧
    isSolid dropLevel 1 6 = true ∧
    (¬ BoxMeetsSolid floorLevel standingPlayer ∧
      BoxMeetsSolid floorLevel
        (updatePlayer powWhole idleInput 1 (floorGame standingPlayer)).player) := by
  refine ⟨by decide!, by decide!, by decide!, by norm_num, by norm_num, ?_, ?_, by decide!,
    by decide!, by decide!, by decide!, ?_, ?_⟩
  · rw [← overlapsSolid_iff]
    decide!
  · rw [← overlapsSolid_iff]
    decide!
  · rw [← overlapsSolid_iff]
    decide!
  · rw [← overlapsSolid_iff]
    decide!

/-! ## C2: one frame at rest on the ground -/

/-- C2, evaluated at a failing input: the player rests on the ground of row 3 of `floorLevel`
(grounded, `vy = 0`, `y = 3 * TS - PLAYER_H`, solid tile below, box clear, empty jump buffer)
and no key is held.  After one `updatePlayer` call with `dt = 1` the animation state is idle
and `vx` is still 0, but gravity has moved the player 0.4 pixels down, `resolveCollisionY`
looks only at rows up to `floor((y + PLAYER_H - 1) / TS) = 2` and finds no tile, so the call
returns with `vy = GRAVITY` and `onGround = false` instead of `vy = 0`. -/
theorem updatePlayer_standing_frame_keeps_gravity :
    standingPlayer.onGround = true ∧ standingPlayer.vy = 0 ∧
    standingPlayer.y = 3 * TS - PLAYER_H ∧ isSolid floorLevel 1 3 = true ∧
    standingPlayer.jumpBufferTimer = 0 ∧
    ¬ BoxMeetsSolid floorLevel standingPlayer ∧
    powWhole 1 = FRICTION ∧
    (updatePlayer powWhole idleInput 1 (floorGame standingPlayer)).player.state
      = AnimState.idle ∧
    (updatePlayer powWhole idleInput 1 (floorGame standingPlayer)).player.vx = 0 ∧
    (updatePlayer powWhole idleInput 1 (floorGame standingPlayer)).player.vy = GRAVITY ∧
    (updatePlayer powWhole idleInput 1 (floorGame standingPlayer)).player.vy ≠ 0 ∧
    (updatePlayer powWhole idleInput 1 (floorGame standingPlayer)).player.onGround = false := by
  refine ⟨by decide!, by decide!, by decide!, by decide!, by decide!, ?_, by decide!,
    by decide!, by decide!, by decide!, by decide!, by decide!⟩
  rw [← overlapsSolid_iff]
  decide!

/-! ## C3: the coyote timer along a run -/

/-- C3, counterexample: on `ledgeLevel` the run `ledgeRun` from `loadLevel(0)` (six frames,
each with `dt = 3`) leaves the ground tile in its fourth frame, where the coyote timer is armed
with 7 and decremented to 4; the next two frames in the air bring it to 1 and then to
`1 - 3 = -2`, below 0. -/
theorem coyoteTimer_negative_after_ledgeRun :
    loadLevel [ledgeLevel] 0 (floorGame standingPlayer) = some ledgeStart ∧
    (∀ f ∈ ledgeRun, 0 ≤ f.dt ∧ f.dt ≤ 3) ∧
    (runPlayer powWhole ledgeRun ledgeStart).player.coyoteTimer = -2 ∧
    ¬ (0 ≤ (runPlayer powWhole ledgeRun ledgeStart).player.coyoteTimer ∧
        (runPlayer powWhole ledgeRun ledgeStart).player.coyoteTimer ≤ COYOTE_FRAMES) := by
  refine ⟨by decide!, by decide!, by decide!, by decide!⟩

/-- C3, amended: in every run that starts from `loadLevel` and applies `updatePlayer` with
arbitrary inputs and every `dt` in `[0, 3]`, the coyote timer satisfies
`-3 ≤ coyoteTimer ≤ COYOTE_FRAMES` after every call: the timer is decremented by `dt`, at most
3, only while it is positive, and is not clamped at 0. The lower bound is stated as `≤`: the
source subtracts in doubles, where a tiny positive timer minus 3 is stored as exactly -3. -/
theorem coyoteTimer_bounds_along_run (pw : ℚ → ℚ) (LEVELS : List Level) (index : ℕ)
    (g g0 : Game) (hload : loadLevel LEVELS index g = some g0) (frames : List Frame)
    (hdt : ∀ f ∈ frames, 0 ≤ f.dt ∧ f.dt ≤ 3) :
    -3 ≤ (runPlayer pw frames g0).player.coyoteTimer ∧
      (runPlayer pw frames g0).player.coyoteTimer ≤ COYOTE_FRAMES := by
  have h : -3 < (runPlayer pw frames g0).player.coyoteTimer ∧
      (runPlayer pw frames g0).player.coyoteTimer ≤ COYOTE_FRAMES := by
    apply runPlayer_invariant pw
      (fun q => -3 < q.player.coyoteTimer ∧ q.player.coyoteTimer ≤ COYOTE_FRAMES)
      (fun inp dt q h0 h3 hq => updatePlayer_coyoteTimer_bounds pw inp dt q h0 h3 hq.1 hq.2)
      frames g0 hdt
    rw [loadLevel_player LEVELS index g g0 hload]
    norm_num [resetPlayer, COYOTE_FRAMES]
  exact ⟨le_of_lt h.1, h.2⟩

/-- C3, amended, at a concrete run: the bounds hold along `ledgeRun` on `ledgeLevel`. -/
theorem coyoteTimer_bounds_along_run_witness :
    -3 ≤ (runPlayer powWhole ledgeRun ledgeStart).player.coyoteTimer ∧
      (runPlayer powWhole ledgeRun ledgeStart).player.coyoteTimer ≤ COYOTE_FRAMES :=
  coyoteTimer_bounds_along_run powWhole [ledgeLevel] 0 (floorGame standingPlayer) ledgeStart
    (by decide!) ledgeRun (by decide!)

/-! ## C4: the jump buffer timer along a run -/

/-- C4, counterexample: on `floorLevel` the run `heldJumpRun` from `loadLevel(0)` presses jump
in mid-air in its first frame and holds it, each frame with `dt = 3`: the jump buffer timer is
set to 8 and decremented to 5, then to 2, then to `2 - 3 = -1`, below 0. -/
theorem jumpBufferTimer_negative_after_heldJumpRun :
    loadLevel [floorLevel] 0 (floorGame standingPlayer) = some floorStart ∧
    (∀ f ∈ heldJumpRun, 0 ≤ f.dt ∧ f.dt ≤ 3) ∧
    (runPlayer powWhole heldJumpRun floorStart).player.jumpBufferTimer = -1 ∧
    ¬ (0 ≤ (runPlayer powWhole heldJumpRun floorStart).player.jumpBufferTimer ∧
        (runPlayer powWhole heldJumpRun floorStart).player.jumpBufferTimer
          ≤ JUMP_BUFFER_FRAMES) := by
  refine ⟨by decide!, by decide!, by decide!, by decide!⟩

/-- C4, amended: in every run that starts from `loadLevel` and applies `updatePlayer` with
arbitrary inputs and every `dt` in `[0, 3]`, the jump buffer timer satisfies
`-3 ≤ jumpBufferTimer ≤ JUMP_BUFFER_FRAMES` after every call: the timer is decremented by `dt`,
at most 3, only while it is positive, and is not clamped at 0. The lower bound is stated as
`≤`: the source subtracts in doubles, where a tiny positive timer minus 3 is stored as exactly
-3. -/
theorem jumpBufferTimer_bounds_along_run (pw : ℚ → ℚ) (LEVELS : List Level) (index : ℕ)
    (g g0 : Game) (hload : loadLevel LEVELS index g = some g0) (frames : List Frame)
    (hdt : ∀ f ∈ frames, 0 ≤ f.dt ∧ f.dt ≤ 3) :
    -3 ≤ (runPlayer pw frames g0).player.jumpBufferTimer ∧
      (runPlayer pw frames g0).player.jumpBufferTimer ≤ JUMP_BUFFER_FRAMES := by
  have h : -3 < (runPlayer pw frames g0).player.jumpBufferTimer ∧
      (runPlayer pw frames g0).player.jumpBufferTimer ≤ JUMP_BUFFER_FRAMES := by
    apply runPlayer_invariant pw
      (fun q => -3 < q.player.jumpBufferTimer ∧ q.player.jumpBufferTimer ≤ JUMP_BUFFER_FRAMES)
      (fun inp dt q h0 h3 hq => updatePlayer_jumpBufferTimer_bounds pw inp dt q h0 h3 hq.1 hq.2)
      frames g0 hdt
    rw [loadLevel_player LEVELS index g g0 hload]
    norm_num [resetPlayer, JUMP_BUFFER_FRAMES]
  exact ⟨le_of_lt h.1, h.2⟩

/-- C4, amended, at a concrete run: the bounds hold along `heldJumpRun` on `floorLevel`. -/
theorem jumpBufferTimer_bounds_along_run_witness :
    -3 ≤ (runPlayer powWhole heldJumpRun floorStart).player.jumpBufferTimer ∧
      (runPlayer powWhole heldJumpRun floorStart).player.jumpBufferTimer
        ≤ JUMP_BUFFER_FRAMES :=
  jumpBufferTimer_bounds_along_run powWhole [floorLevel] 0 (floorGame standingPlayer) floorStart
    (by decide!) heldJumpRun (by decide!)

/-! ## C5: landing resets the combo -/

/-- C5: in every `updatePlayer` call in which the player is not grounded at the start and is
grounded after the vertical collision resolution, the combo is 0 when the call returns,
whatever the combo was before and whatever enemies are present. -/
theorem landing_frame_ends_with_combo_zero (pw : ℚ → ℚ) (inp : Input) (dt : ℚ) (g : Game)
    (hair : g.player.onGround = false)
    (hland : (moveAndCollide pw g.levelData inp dt g.player).onGround = true) :
    (updatePlayer pw inp dt g).player.combo = 0 := by
  have hvy : (moveAndCollide pw g.levelData inp dt g.player).vy = 0 := by
    unfold moveAndCollide at hland ⊢
    exact moveY_grounded _ _ _ hland
  unfold updatePlayer playerPhysics
  dsimp only
  rw [hair]
  have hs := settle_vy_zero g.levelData false dt _ hvy
  rw [(enemyContacts_no_stomp _ g.score g.enemies (le_of_eq hs)).1, settle_combo]
  exact landing_combo_zero _ hland

/-- C5 at a concrete frame: on `floorLevel` a falling player with combo 3 lands in the frame
while an enemy overlaps the landing position, and the call returns with combo 0. -/
theorem landing_frame_ends_with_combo_zero_witness :
    landingGame.player.onGround = false ∧ landingGame.player.combo = 3 ∧
    (moveAndCollide powWhole landingGame.levelData idleInput 1 landingGame.player).onGround
      = true ∧
    (updatePlayer powWhole idleInput 1 landingGame).player.combo = 0 :=
  ⟨by decide!, by decide!, by decide!,
    landing_frame_ends_with_combo_zero powWhole idleInput 1 landingGame (by decide!)
      (by decide!)⟩

/-! ## C6: heart collection -/

/-- C6: `checkHeartCollection` adds a list `new` of distinct keys to `collectedHearts`, none of
which was recorded before and each of which is an 'H' tile; it raises the score by exactly
`SCORE_HEART` and `heartsCollected` by exactly 1 for each of them; and calling it a second
time with the player unmoved changes nothing at all. -/
theorem checkHeartCollection_awards_once (g : Game) :
    ∃ new : List (ℤ × ℤ),
      (checkHeartCollection g).collectedHearts = new ++ g.collectedHearts ∧
      new.Nodup ∧
      (∀ k ∈ new, k ∉ g.collectedHearts ∧ getTile g.levelData k.1 k.2 = 'H') ∧
      (checkHeartCollection g).score = g.score + SCORE_HEART * new.length ∧
      (checkHeartCollection g).player.heartsCollected
        = g.player.heartsCollected + new.length ∧
      checkHeartCollection (checkHeartCollection g) = checkHeartCollection g := by
  obtain ⟨new, h1, h2, h3, h4, h5⟩ := collectCells_awards (heartCells g.player) g
  refine ⟨new, h1, h2, h3, h4, h5, ?_⟩
  have hsame := collectCells_same (heartCells g.player) g
  rw [checkHeartCollection_eq g, checkHeartCollection_eq, sameButHearts_heartCells hsame]
  apply collectCells_of_collected
  intro rc hrc hreach
  exact collectCells_complete (heartCells g.player) g rc hrc
    ((sameButHearts_heartInReach hsame rc.2 rc.1).1 hreach)

/-! ## C7: the stomp award -/

/-- C7: when the enemy loop of `updatePlayer` resolves a stomp (the enemy is alive, overlaps
the player, the contact is a stomp and the enemy is not a thorn) with the combo equal to `c`
before the collision, the combo becomes `c + 1` and the score grows by exactly
`SCORE_STOMP * min (c + 1) 5`: 600 for the third stomp in a row (`c = 2`) and 1000 for every
stomp from the fifth on (`c ≥ 4`). -/
theorem stomp_awards_combo_score (p : Player) (score : ℕ) (e : Enemy)
    (halive : e.alive = true) (hover : overlaps p e = true) (hstomp : isStomp p e = true)
    (htype : e.type ≠ EnemyType.thorn) :
    (collideEnemy p score e).1.combo = p.combo + 1 ∧
    (collideEnemy p score e).2.1 = score + SCORE_STOMP * min (p.combo + 1) 5 ∧
    (collideEnemy p score e).2.1 = score + 200 * min (p.combo + 1) 5 ∧
    (p.combo = 2 → (collideEnemy p score e).2.1 = score + 600) ∧
    (4 ≤ p.combo → (collideEnemy p score e).2.1 = score + 1000) := by
  have hc : collideEnemy p score e =
      ({ p with vy := JUMP_FORCE * (6 / 10), combo := p.combo + 1, squashY := 6 / 10,
                squashX := 14 / 10 },
       score + SCORE_STOMP * min (p.combo + 1) 5,
       { e with alive := false, deathTimer := 30 }) := by
    unfold collideEnemy
    simp [halive, hover, hstomp, htype]
  rw [hc]
  refine ⟨rfl, rfl, rfl, ?_, ?_⟩
  · intro h2
    simp [h2, SCORE_STOMP]
  · intro h4
    have : min (p.combo + 1) 5 = 5 := by omega
    simp [this, SCORE_STOMP]

/-- C7 at a concrete contact: the third stomp in a row on `groundEnemy` adds 600. -/
theorem stomp_awards_combo_score_witness :
    groundEnemy.alive = true ∧ overlaps stompingPlayer groundEnemy = true ∧
    isStomp stompingPlayer groundEnemy = true ∧ groundEnemy.type ≠ EnemyType.thorn ∧
    stompingPlayer.combo = 2 ∧
    (collideEnemy stompingPlayer 0 groundEnemy).1.combo = 3 ∧
    (collideEnemy stompingPlayer 0 groundEnemy).2.1 = 600 := by
  have h := stomp_awards_combo_score stompingPlayer 0 groundEnemy (by decide!) (by decide!)
    (by decide!) (by decide!)
  exact ⟨by decide!, by decide!, by decide!, by decide!, by decide!, h.1,
    by simpa using h.2.2.2.1 (by decide!)⟩

/-! ## C8: the camera stays inside the level -/

/-- C8: for every level at least `RENDER_W` pixels wide and every player position, facing,
previous camera position and `dt`, the camera after `updateCamera(dt)` lies in
`[0, levelData.width * TS - RENDER_W]`. -/
theorem updateCamera_within_level (dt : ℚ) (g : Game)
    (hwide : RENDER_W ≤ (g.levelData.width : ℚ) * TS) :
    0 ≤ (updateCamera dt g).camera ∧
      (updateCamera dt g).camera ≤ (g.levelData.width : ℚ) * TS - RENDER_W := by
  unfold updateCamera
  dsimp only
  exact ⟨le_max_left _ _, max_le (sub_nonneg.mpr hwide) (min_le_left _ _)⟩

/-- C8 at a concrete game: on `wideLevel` (480 pixels) with the player at the right edge the
camera stays within `[0, 80]`. -/
theorem updateCamera_within_level_witness :
    RENDER_W ≤ (wideGame.levelData.width : ℚ) * TS ∧
    0 ≤ (updateCamera 3 wideGame).camera ∧
      (updateCamera 3 wideGame).camera ≤ (wideGame.levelData.width : ℚ) * TS - RENDER_W :=
  ⟨by decide!, updateCamera_within_level 3 wideGame (by decide!)⟩

/-! ## C9: one impulse per jump press -/

/-- C9: for a grounded player, in the frame where jump goes from released to pressed the jump
block of `updatePlayer` fires and sets `vy` to `JUMP_FORCE` before gravity is added; and in
every following frame during which jump stays held, whatever the other inputs, the `dt`, the
level and the enemies (so also after landing), the jump block does not fire and leaves `vy`
as it was.  (The state of the jump buffer before the press plays no part.) -/
theorem jump_press_fires_exactly_once (pw : ℚ → ℚ) (inp : Input) (dt : ℚ) (g : Game)
    (hground : g.player.onGround = true) (hjump : inp.jump = true)
    (hreleased : g.player.wasJumpPressed = false) :
    jumpFires pw inp dt g.player = true ∧
    (afterJump pw inp dt g.player).vy = JUMP_FORCE ∧
    ∀ (pre : List Frame) (f : Frame), (∀ f' ∈ pre, f'.inp.jump = true) → f.inp.jump = true →
      jumpFires pw f.inp f.dt (runPlayer pw pre (updatePlayer pw inp dt g)).player = false ∧
      (afterJump pw f.inp f.dt (runPlayer pw pre (updatePlayer pw inp dt g)).player).vy
        = (runPlayer pw pre (updatePlayer pw inp dt g)).player.vy := by
  have hfire := jumpFires_of_grounded_press pw inp dt g.player hground hjump hreleased
  refine ⟨hfire, afterJump_vy_of_fires pw inp dt g.player hfire, ?_⟩
  intro pre f hpre _
  have hw : (updatePlayer pw inp dt g).player.wasJumpPressed = true := by
    rw [updatePlayer_wasJumpPressed, hjump]
  have hb : (updatePlayer pw inp dt g).player.jumpBufferTimer ≤ 0 := by
    rw [updatePlayer_jumpBufferTimer, afterJump_jumpBufferTimer, hfire]
    simp
  have hinv := runPlayer_held_invariant pw pre (updatePlayer pw inp dt g) hpre hw hb
  have hno := jumpFires_of_held pw f.inp f.dt _ hinv.1 hinv.2
  exact ⟨hno, afterJump_vy_of_not_fires pw f.inp f.dt _ hno⟩

/-- C9 at a concrete run: the player standing on `floorLevel` presses jump and holds it for
three more frames; the jump fires in the first frame only. -/
theorem jump_press_fires_exactly_once_witness :
    (floorGame standingPlayer).player.onGround = true ∧ holdJump.jump = true ∧
    (floorGame standingPlayer).player.wasJumpPressed = false ∧
    jumpFires powWhole holdJump 1 (floorGame standingPlayer).player = true ∧
    jumpFires powWhole holdJump 1
      (runPlayer powWhole [⟨holdJump, 1⟩, ⟨holdJump, 1⟩]
        (updatePlayer powWhole holdJump 1 (floorGame standingPlayer))).player = false :=
  ⟨by decide!, by decide!, by decide!,
    (jump_press_fires_exactly_once powWhole holdJump 1 (floorGame standingPlayer) (by decide!)
      (by decide!) (by decide!)).1,
    ((jump_press_fires_exactly_once powWhole holdJump 1 (floorGame standingPlayer) (by decide!)
      (by decide!) (by decide!)).2.2 [⟨holdJump, 1⟩, ⟨holdJump, 1⟩] ⟨holdJump, 1⟩
      (by decide!) (by decide!)).1⟩

/-! ## C10: the coyote window after walking off a ledge -/

/-- C10, evaluated at a failing input: on `ledgeLevel`, with `dt = 1` in every frame, the
player is grounded at the start of frame 0, walks off the ground tile in frame 0 without jump
(airborne with `vy = 0.4 > 0` at its end) and stays airborne.  The coyote timer is armed with
`COYOTE_FRAMES = 7` in frame 0 and decremented in that same frame, so it is 6 after frame 0
and `6 - j` after frame `j`: a jump first pressed in frame 6 still fires, but at the start of
frame 7 the timer is 0 and a jump first pressed in frame 7 does not fire (`vy` is not set to
`JUMP_FORCE`). -/
theorem coyote_jump_in_frame_seven_does_not_fire :
    ledgeWalkGame.player.onGround = true ∧ holdRight.jump = false ∧
    (afterLedge 0).player.onGround = false ∧ 0 < (afterLedge 0).player.vy ∧
    (afterLedge 0).player.coyoteTimer = 6 ∧
    (∀ n ∈ List.range 8, (afterLedge n).player.onGround = false) ∧
    (∀ n ∈ List.range 8, (afterLedge n).player.wasJumpPressed = false) ∧
    (afterLedge 5).player.coyoteTimer = 1 ∧
    jumpFires powWhole holdJump 1 (afterLedge 5).player = true ∧
    (afterLedge 6).player.coyoteTimer = 0 ∧
    jumpFires powWhole holdJump 1 (afterLedge 6).player = false ∧
    (afterJump powWhole holdJump 1 (afterLedge 6).player).vy ≠ JUMP_FORCE ∧
    (updatePlayer powWhole holdJump 1 (afterLedge 6)).player.vy = 16 / 5 := by
  refine ⟨by decide!, by decide!, by decide!, by decide!, by decide!, by decide!, by decide!,
    by decide!, by decide!, by decide!, by decide!, by decide!, by decide!⟩

/-! ## C11: a thorn cannot be stomped -/

/-- C11: for every alive enemy of type 'thorn' that overlaps the player while the player
moves downward (`vy > 0`) with its bottom edge above the thorn's vertical midpoint (so that
`isStomp` holds), the collision step of `updatePlayer` returns the thorn unchanged (alive) and
leaves score and combo as they were; and if `invincibleTimer ≤ 0` the player takes a hit: it is
moved to `(lastSafeX, lastSafeY)`, `vx = vy = 0` and `invincibleTimer = INVINCIBLE_FRAMES`, all
other fields unchanged. -/
theorem thorn_contact_is_never_a_stomp (p : Player) (score : ℕ) (e : Enemy)
    (halive : e.alive = true) (hthorn : e.type = EnemyType.thorn)
    (hover : overlaps p e = true) (hdown : 0 < p.vy)
    (habove : p.y + PLAYER_H < e.y + e.h * (1 / 2)) :
    isStomp p e = true ∧
    (collideEnemy p score e).2.2 = e ∧ (collideEnemy p score e).2.2.alive = true ∧
    (collideEnemy p score e).2.1 = score ∧ (collideEnemy p score e).1.combo = p.combo ∧
    (p.invincibleTimer ≤ 0 →
      (collideEnemy p score e).1 =
        { p with
          x := p.lastSafeX, y := p.lastSafeY, vx := 0, vy := 0
          invincibleTimer := INVINCIBLE_FRAMES }) := by
  have hnot : ¬ (isStomp p e = true ∧ e.type ≠ EnemyType.thorn) := fun h => h.2 hthorn
  have h := collideEnemy_combo_of_not_stomp p score e hnot
  refine ⟨by unfold isStomp; rw [decide_eq_true hdown, decide_eq_true habove]; rfl, h.2.2, by rw [h.2.2]; exact halive, h.2.1, h.1, ?_⟩
  intro hinv
  rw [collideEnemy_of_hit p score e halive hover hnot hinv]

/-- C11 at a concrete contact: the player comes down on the thorn `thornEnemy` with its bottom
edge above the thorn's midpoint and is hit; the thorn stays alive and nothing is awarded. -/
theorem thorn_contact_is_never_a_stomp_witness :
    thornEnemy.alive = true ∧ thornEnemy.type = EnemyType.thorn ∧
    overlaps stompingPlayer thornEnemy = true ∧ 0 < stompingPlayer.vy ∧
    stompingPlayer.y + PLAYER_H < thornEnemy.y + thornEnemy.h * (1 / 2) ∧
    stompingPlayer.invincibleTimer ≤ 0 ∧
    (collideEnemy stompingPlayer 0 thornEnemy).2.2.alive = true ∧
    (collideEnemy stompingPlayer 0 thornEnemy).2.1 = 0 ∧
    (collideEnemy stompingPlayer 0 thornEnemy).1.invincibleTimer = INVINCIBLE_FRAMES := by
  have h := thorn_contact_is_never_a_stomp stompingPlayer 0 thornEnemy (by decide!) (by decide!)
    (by decide!) (by decide!) (by decide!)
  refine ⟨by decide!, by decide!, by decide!, by decide!, by decide!, by decide!, h.2.2.1,
    h.2.2.2.1, ?_⟩
  rw [h.2.2.2.2.2 (by decide!)]

/-! ## C12: the period of the music loop -/

/-- C12: for every theme (a key of `melodies`, or any other name that is not inherited from
`Object.prototype`), on a manager with an audio context, `playBGM(theme)` adds to the timers
left by `stopBGM` exactly one repeating timer, with period `max (1000 * D) 1000`
milliseconds, where `D = (sum of the lead beats) * 60 / tempo` as the specification words
it, and stores its id in `bgmInterval`. The duration `playSequence` returns, accumulated note
by note, equals the fallback value on every manager, and both equal `D`, which is positive;
`playSequence` returns nothing exactly when the manager is muted or the context is suspended,
and the period is the same in that case. -/
theorem playBGM_arms_loop_with_lead_duration (theme : String) (a : AudioManager)
    (ts : Timers) (c : AudioContext) (hctx : a.ctx = some c)
    (_hname : theme ∉ inheritedNames) :
    (playBGM theme a ts).2.pending =
      (stopBGM a ts).2.pending ++
        [⟨ts.lastId + 1, Callback.bgmLoop theme,
          max (1000 * specLeadDuration (getMelody theme)) 1000, true⟩] ∧
    (playBGM theme a ts).1.bgmInterval = some (ts.lastId + 1) ∧
    (∀ (b : AudioManager) (d : ℚ),
      (playSequence (getMelody theme) (60 / (getMelody theme).tempo) b).1 = some d →
        d = fallbackDuration (getMelody theme) (60 / (getMelody theme).tempo)) ∧
    fallbackDuration (getMelody theme) (60 / (getMelody theme).tempo)
      = specLeadDuration (getMelody theme) ∧
    0 < specLeadDuration (getMelody theme) ∧
    ((playSequence (getMelody theme) (60 / (getMelody theme).tempo) (stopBGM a ts).1).1 = none
      ↔ a.muted = true ∨ c.suspended = true) := by
  have hpos := specLeadDuration_pos theme
  obtain ⟨h1, h2, _⟩ := playBGM_timers theme a ts c hctx hpos
  refine ⟨?_, h2, ?_, fallbackDuration_eq _, hpos, ?_⟩
  · rw [h1]
    simp only [setInterval, stopBGM_lastId, mul_comm]
  · intro b d hd
    rw [fallbackDuration_eq]
    cases hb : b.ctx with
    | none =>
      unfold playSequence at hd
      rw [hb] at hd
      cases hd
    | some cb =>
      rw [playSequence_duration _ b cb hb] at hd
      split_ifs at hd
      exact (Option.some.inj hd).symm
  · have hc : (stopBGM a ts).1.ctx = some c := by rw [stopBGM_ctx, hctx]
    rw [playSequence_duration _ _ c hc, stopBGM_muted]
    split_ifs with h
    · simp [h]
    · simp [h]

/-- C12 for the title theme on a fresh manager: the lead has 16.5 beats at tempo 140, so the
only timer armed repeats every 49500/7 (about 7071) milliseconds. -/
theorem playBGM_arms_loop_with_lead_duration_witness :
    readyAudio.ctx = some ⟨false, 0, []⟩ ∧ "title" ∉ inheritedNames ∧
    (playBGM "title" readyAudio noTimers).2.pending =
      [⟨1, Callback.bgmLoop "title", 49500 / 7, true⟩] := by
  refine ⟨rfl, by decide, ?_⟩
  rw [(playBGM_arms_loop_with_lead_duration "title" readyAudio noTimers ⟨false, 0, []⟩ rfl
    (by decide)).1]
  decide!

/-! ## C13: early-release truncation -/

/-- C13 (counterexample): one jump in which the truncation is applied twice. From rest on the
ground, jump is pressed (the jump fires), released, pressed again and released again. No later
call fires a jump and the player is airborne after each of the four calls, so all four belong
to one jump; the calls of both releases halve `vy` (from -6.6 to -3.3 and from -2.5 to
-1.25). -/
theorem early_release_truncates_twice_in_one_jump :
    jumpFires powWhole holdJump 1 (floorGame standingPlayer).player = true ∧
    (runPlayer powWhole (doubleTapRun.take 1) (floorGame standingPlayer)).player.onGround = false ∧
    (runPlayer powWhole (doubleTapRun.take 2) (floorGame standingPlayer)).player.onGround = false ∧
    (runPlayer powWhole (doubleTapRun.take 3) (floorGame standingPlayer)).player.onGround = false ∧
    (runPlayer powWhole (doubleTapRun.take 4) (floorGame standingPlayer)).player.onGround = false ∧
    truncates powWhole idleInput 1
      (runPlayer powWhole (doubleTapRun.take 1) (floorGame standingPlayer)).player = true ∧
    truncates powWhole idleInput 1
      (runPlayer powWhole (doubleTapRun.take 3) (floorGame standingPlayer)).player = true ∧
    (runPlayer powWhole (doubleTapRun.take 1) (floorGame standingPlayer)).player.vy = -33 / 5 ∧
    (runPlayer powWhole (doubleTapRun.take 3) (floorGame standingPlayer)).player.vy = -5 / 2 ∧
    truncationCount powWhole doubleTapRun (floorGame standingPlayer) = 2 := by
  decide!

/-- C13 (amended): the truncation `vy <- vy * 0.5` is applied at most once per release of the
jump key. A call changes `vy` in lines 652-654 only if jump was held in the previous call and
is released in this one, and then it halves `vy` once; so in every run, hence within every
jump, the number of calls that truncate is at most the number of releases, and a call with
jump held, or with jump already released in the previous call, never truncates. -/
theorem early_release_truncates_once_per_release (pw : ℚ → ℚ) (fs : List Frame) (g : Game) :
    truncationCount pw fs g ≤ releaseCount g.player.wasJumpPressed fs ∧
    (∀ (inp : Input) (dt : ℚ) (p : Player),
      variableJump (jumpJustReleased inp p) (afterJump pw inp dt p) =
        if truncates pw inp dt p
        then { afterJump pw inp dt p with vy := (afterJump pw inp dt p).vy * (1 / 2) }
        else afterJump pw inp dt p) ∧
    (∀ (inp : Input) (dt : ℚ) (p : Player),
      inp.jump = true ∨ p.wasJumpPressed = false → truncates pw inp dt p = false) := by
  refine ⟨?_, ?_, ?_⟩
  · induction fs generalizing g with
    | nil => simp [truncationCount, releaseCount]
    | cons f fs ih =>
      have h := ih (updatePlayer pw f.inp f.dt g)
      rw [updatePlayer_wasJumpPressed] at h
      simp only [truncationCount, releaseCount]
      have h1 : (if truncates pw f.inp f.dt g.player = true then 1 else 0) ≤
          (if (g.player.wasJumpPressed && !f.inp.jump) = true then 1 else 0) := by
        unfold truncates jumpJustReleased
        cases f.inp.jump <;> cases g.player.wasJumpPressed <;> simp
        split_ifs <;> simp
      omega
  · intro inp dt p
    unfold variableJump truncates
    rfl
  · intro inp dt p h
    unfold truncates jumpJustReleased
    rcases h with h | h <;> simp [h]

/-! ## C14: sub-stepped vertical move -/

/-- C14 (failing input): the vertical move of lines 686-693 for the player of `dropFallen`
(`y = 75`, `vy = 7 = MAX_FALL`, airborne, 6 pixels above the ground of row 6) with `dt = 3`.
The move is split in two sub-steps of 10.5 pixels. The first makes the downward contact: the
player is grounded with `vy = 0` at `y = 81 = 6 * TS - PLAYER_H`. The second still adds 10.5:
after the last sub-step the player is at `y = 91.5`, not grounded. -/
theorem moveY_contact_lost_in_next_substep :
    dropFallen.player.vy = MAX_FALL ∧ (0 : ℚ) ≤ 3 ∧ (3 : ℚ) ≤ 3 ∧
    dropFallen.player.y = 75 ∧ dropFallen.player.onGround = false ∧
    subSteps (dropFallen.player.vy * 3) = 2 ∧
    (subStepY dropLevel (dropFallen.player.vy * 3 / 2) dropFallen.player).onGround = true ∧
    (subStepY dropLevel (dropFallen.player.vy * 3 / 2) dropFallen.player).vy = 0 ∧
    (subStepY dropLevel (dropFallen.player.vy * 3 / 2) dropFallen.player).y = 6 * TS - PLAYER_H ∧
    (moveY dropLevel 3 dropFallen.player).onGround = false ∧
    (moveY dropLevel 3 dropFallen.player).vy = 0 ∧
    (moveY dropLevel 3 dropFallen.player).y = 183 / 2 ∧
    (moveY dropLevel 3 dropFallen.player).y ≠ 6 * TS - PLAYER_H := by
  decide!

/-! ## C15: enemies stay in their patrol range -/

/-- C15: for the enemy `e` at any position `i` of the enemy list that is alive, not a thorn
and has `patrolLeft ≤ patrolRight`, after `updateEnemies(dt)` the enemy at position `i` has
`patrolLeft ≤ x ≤ patrolRight`, whatever its previous `x`, speed and facing and whatever `dt`
and `Math.sin` are. When the moved position `x + vx * dt * facing` is at or left of
`patrolLeft`, `x` is exactly `patrolLeft` and `facing` is 1; when it is at or right of
`patrolRight`, `x` is exactly `patrolRight` and `facing` is -1 (unless the range is the single
point the move landed on, where `facing` is 1); strictly inside, `x` is the moved position
and `facing` is kept. Every enemy `loadLevel` builds from the shipped `LEVELS` has
`patrolLeft ≤ patrolRight`. -/
theorem updateEnemies_keeps_patrol_range (sn : ℚ → ℚ) (dt : ℚ) (g : Game) (i : ℕ) (e : Enemy)
    (hi : g.enemies[i]? = some e) (halive : e.alive = true)
    (htype : e.type ≠ EnemyType.thorn) (hbounds : e.patrolLeft ≤ e.patrolRight) :
    (∃ e1, (updateEnemies sn dt g).enemies[i]? = some e1 ∧
      e1.patrolLeft = e.patrolLeft ∧ e1.patrolRight = e.patrolRight ∧
      e1.patrolLeft ≤ e1.x ∧ e1.x ≤ e1.patrolRight ∧
      (e.x + e.vx * dt * e.facing ≤ e.patrolLeft → e1.x = e.patrolLeft ∧ e1.facing = 1) ∧
      (e.patrolRight ≤ e.x + e.vx * dt * e.facing →
        e1.x = e.patrolRight ∧ (e.patrolLeft < e.x + e.vx * dt * e.facing → e1.facing = -1)) ∧
      (e.patrolLeft < e.x + e.vx * dt * e.facing →
        e.x + e.vx * dt * e.facing < e.patrolRight →
        e1.x = e.x + e.vx * dt * e.facing ∧ e1.facing = e.facing)) ∧
    (∀ (index : ℕ) (g0 gl : Game), loadLevel LEVELS index g0 = some gl →
      ∀ el ∈ gl.enemies, el.patrolLeft ≤ el.patrolRight) := by
  refine ⟨⟨updateEnemy sn dt e, ?_, ?_⟩, fun index g0 gl h => LEVELS_patrol_ordered index g0 gl h⟩
  · simp [updateEnemies, List.getElem?_map, hi]
  · obtain ⟨hx, hf, hl, hr, _, _⟩ := updateEnemy_patrol sn dt e halive htype
    rw [hx, hf, hl, hr]
    refine ⟨rfl, rfl, ?_, ?_, ?_, ?_, ?_⟩
    · split_ifs <;> linarith
    · split_ifs <;> linarith
    · intro h
      simp [h]
    · intro h
      constructor
      · split_ifs with h1
        · linarith
        · rfl
      · intro h2
        rw [if_neg (not_le.mpr h2), if_pos h]
    · intro h1 h2
      rw [if_neg (not_le.mpr h1), if_neg (not_le.mpr h2)]
      rw [if_neg (not_le.mpr h1), if_neg (not_le.mpr h2)]
      exact ⟨rfl, rfl⟩

/-- C15 at a concrete enemy: `patroller` would move to 416.4, past its right bound 416; it
is put on the bound and turned round. -/
theorem updateEnemies_keeps_patrol_range_witness :
    patrolGame.enemies[0]? = some patroller ∧ patroller.alive = true ∧
    patroller.type ≠ EnemyType.thorn ∧ patroller.patrolLeft ≤ patroller.patrolRight ∧
    patroller.patrolRight = 416 ∧
    patroller.x + patroller.vx * 1 * patroller.facing = 2082 / 5 ∧
    ∃ e1, (updateEnemies (fun _ => 0) 1 patrolGame).enemies[0]? = some e1 ∧
      e1.x = 416 ∧ e1.facing = -1 := by
  obtain ⟨⟨e1, h1, _, _, _, _, _, h7, _⟩, _⟩ :=
    updateEnemies_keeps_patrol_range (fun _ => 0) 1 patrolGame 0 patroller
      (by decide!) (by decide!) (by decide!) (by decide!)
  refine ⟨by decide!, by decide!, by decide!, by decide!, by decide!, by decide!, e1, h1, ?_, ?_⟩
  · rw [(h7 (by decide!)).1]
    decide!
  · exact (h7 (by decide!)).2 (by decide!)

/-! ## C16: a contact that is not a stomp -/

/-- C16: for an alive enemy that overlaps the player where the contact is not a stomp (not
`isStomp`, or the enemy is a thorn): if `invincibleTimer ≤ 0` the player is moved to
`(lastSafeX, lastSafeY)`, `vx` and `vy` are set to 0 and `invincibleTimer` to
`INVINCIBLE_FRAMES`, with score and enemy unchanged; if `invincibleTimer > 0` the player, the
score and the enemy are all left unchanged. -/
theorem contact_without_stomp_hits_unless_invincible (p : Player) (score : ℕ) (e : Enemy)
    (halive : e.alive = true) (hover : overlaps p e = true)
    (hnot : ¬ (isStomp p e = true ∧ e.type ≠ EnemyType.thorn)) :
    (p.invincibleTimer ≤ 0 →
      collideEnemy p score e =
        ({ p with
           x := p.lastSafeX, y := p.lastSafeY, vx := 0, vy := 0
           invincibleTimer := INVINCIBLE_FRAMES },
         score, e)) ∧
    (0 < p.invincibleTimer → collideEnemy p score e = (p, score, e)) :=
  ⟨collideEnemy_of_hit p score e halive hover hnot,
    collideEnemy_of_invincible p score e hnot⟩

/-- C16 at a concrete contact: the player standing beside `groundEnemy` is hit when not
invincible and untouched when invincible. -/
theorem contact_without_stomp_hits_unless_invincible_witness :
    groundEnemy.alive = true ∧ overlaps bumpingPlayer groundEnemy = true ∧
    ¬ (isStomp bumpingPlayer groundEnemy = true ∧ groundEnemy.type ≠ EnemyType.thorn) ∧
    bumpingPlayer.invincibleTimer ≤ 0 ∧
    (collideEnemy bumpingPlayer 0 groundEnemy).1.x = 48 ∧
    (collideEnemy bumpingPlayer 0 groundEnemy).1.invincibleTimer = 90 := by
  have h := contact_without_stomp_hits_unless_invincible bumpingPlayer 0 groundEnemy
    (by decide!) (by decide!) (by decide!)
  refine ⟨by decide!, by decide!, by decide!, by decide!, ?_, ?_⟩
  · rw [h.1 (by decide!)]
    rfl
  · rw [h.1 (by decide!)]
    rfl

/-! ## C17: a grounded player has combo 0 -/

/-- C17: in every run that starts from `loadLevel` and applies `updatePlayer` with arbitrary
inputs and arbitrary `dt`, whenever the player is grounded at the end of a call its combo is
0, so the combo can be positive only while the player is airborne; and a contact that is not a
stomp (a hit, or a contact ignored while invincible) leaves the combo as it was. -/
theorem grounded_player_has_combo_zero (pw : ℚ → ℚ) (LEVELS : List Level) (index : ℕ)
    (g g0 : Game) (hload : loadLevel LEVELS index g = some g0) (frames : List Frame) :
    ((runPlayer pw frames g0).player.onGround = true →
      (runPlayer pw frames g0).player.combo = 0) ∧
    (0 < (runPlayer pw frames g0).player.combo →
      (runPlayer pw frames g0).player.onGround = false) ∧
    (∀ (p : Player) (score : ℕ) (e : Enemy),
      ¬ (isStomp p e = true ∧ e.type ≠ EnemyType.thorn) →
        (collideEnemy p score e).1.combo = p.combo) := by
  have h : (runPlayer pw frames g0).player.onGround = true →
      (runPlayer pw frames g0).player.combo = 0 := by
    apply runPlayer_preserves pw (fun q => q.player.onGround = true → q.player.combo = 0)
      (fun inp dt q hq => updatePlayer_grounded_combo pw inp dt q hq) frames g0
    rw [loadLevel_player LEVELS index g g0 hload]
    intro _
    rfl
  refine ⟨h, ?_, fun p score e hnot => (collideEnemy_combo_of_not_stomp p score e hnot).1⟩
  intro hpos
  by_contra hgr
  have : (runPlayer pw frames g0).player.onGround = true := by simpa using hgr
  rw [h this] at hpos
  exact absurd hpos (lt_irrefl 0)

/-- C17 at a concrete run: after `heldJumpRun` from `loadLevel(0)` on `floorLevel` the player
is grounded and its combo is 0. -/
theorem grounded_player_has_combo_zero_witness :
    loadLevel [floorLevel] 0 (floorGame standingPlayer) = some floorStart ∧
    (runPlayer powWhole heldJumpRun floorStart).player.onGround = true ∧
    (runPlayer powWhole heldJumpRun floorStart).player.combo = 0 :=
  ⟨by decide!, by decide!,
    (grounded_player_has_combo_zero powWhole [floorLevel] 0 (floorGame standingPlayer)
      floorStart (by decide!) heldJumpRun).1 (by decide!)⟩

/-! ## C18: the score never decreases -/

/-- C18: for every world state, inputs and `dt`, one `update(dt)` call does not decrease the
score, and the score after the call is the score before plus
`stomps * (SCORE_STOMP * min combo 5)`, plus `SCORE_HEART` for each of the `hearts` keys
newly recorded in `collectedHearts`, plus `SCORE_LEVEL` when the portal is reached (the call
starts in PLAYING and ends in LEVEL_COMPLETE). Here `stomps`, the number of enemies that die
in the call, is 0 or 1, and `combo` is the player's combo after the call. -/
theorem update_never_decreases_score (pw sn : ℚ → ℚ) (inp : Input) (dt : ℚ) (w : World) :
    w.game.score ≤ (update pw sn inp dt w).game.score ∧
    ∃ (stomps hearts : ℕ) (portal : Bool),
      (update pw sn inp dt w).game.score =
        w.game.score +
          stomps * (SCORE_STOMP * min (update pw sn inp dt w).game.player.combo 5) +
          hearts * SCORE_HEART + (if portal then SCORE_LEVEL else 0) ∧
      stomps ≤ 1 ∧
      deadCount (update pw sn inp dt w).game.enemies = deadCount w.game.enemies + stomps ∧
      (update pw sn inp dt w).game.collectedHearts.length =
        w.game.collectedHearts.length + hearts ∧
      (portal = true ↔
        w.state = State.PLAYING ∧ (update pw sn inp dt w).state = State.LEVEL_COMPLETE) := by
  have key : ∃ (stomps hearts : ℕ) (portal : Bool),
      (update pw sn inp dt w).game.score =
        w.game.score +
          stomps * (SCORE_STOMP * min (update pw sn inp dt w).game.player.combo 5) +
          hearts * SCORE_HEART + (if portal then SCORE_LEVEL else 0) ∧
      stomps ≤ 1 ∧
      deadCount (update pw sn inp dt w).game.enemies = deadCount w.game.enemies + stomps ∧
      (update pw sn inp dt w).game.collectedHearts.length =
        w.game.collectedHearts.length + hearts ∧
      (portal = true ↔
        w.state = State.PLAYING ∧ (update pw sn inp dt w).state = State.LEVEL_COMPLETE) := by
    by_cases hst : w.state = State.PLAYING
    · obtain ⟨k, h, hk, hs, hd, hc⟩ := playing_steps_score pw sn inp dt w.game
      rw [update_of_playing pw sn inp dt w hst]
      generalize checkHeartCollection (updateCamera dt (updateEnemies sn dt
        (updatePlayer pw inp dt w.game))) = g2 at hs hd hc
      unfold checkPortal
      dsimp only
      split_ifs with hp
      · unfold completeLevel
        rw [setState_game, setState_state]
        dsimp only
        refine ⟨k, h, true, ?_, hk, hd, hc, ?_⟩
        · rw [hs]
          simp
        · simp [hst]
      · dsimp only
        refine ⟨k, h, false, ?_, hk, hd, hc, ?_⟩
        · rw [hs]
          simp
        · simp [hst]
    · rw [update_game_of_not_playing pw sn inp dt w hst]
      refine ⟨0, 0, false, by simp, by omega, rfl, rfl, ?_⟩
      constructor
      · intro h
        cases h
      · intro h
        exact absurd h.1 hst
  refine ⟨?_, key⟩
  obtain ⟨k, h, portal, hs, _⟩ := key
  rw [hs]
  omega

/-! ## C19: a jump does not arm the coyote timer -/

/-- C19: in every `updatePlayer` call with `dt ≤ 3` (the bound `gameLoop` enforces) in which the
jump fires (`vy` set to `JUMP_FORCE`), the call ends with `onGround = false` and
`coyoteTimer = 0`; and in every later frame before which the player has not been grounded
again, whatever the inputs and `dt`, the jump block does not fire. -/
theorem jump_call_leaves_no_coyote_time (pw : ℚ → ℚ) (inp : Input) (dt : ℚ) (g : Game)
    (hdt : dt ≤ 3) (hfire : jumpFires pw inp dt g.player = true) :
    (afterJump pw inp dt g.player).vy = JUMP_FORCE ∧
    (updatePlayer pw inp dt g).player.onGround = false ∧
    (updatePlayer pw inp dt g).player.coyoteTimer = 0 ∧
    ∀ (later : List Frame) (f : Frame),
      (∀ n, n ≤ later.length →
        (runPlayer pw (later.take n) (updatePlayer pw inp dt g)).player.onGround = false) →
      jumpFires pw f.inp f.dt (runPlayer pw later (updatePlayer pw inp dt g)).player = false := by
  have hq := moveAndCollide_of_fires pw g.levelData inp dt g.player hdt hfire
  have hc : (updatePlayer pw inp dt g).player.coyoteTimer = 0 := by
    rw [updatePlayer_coyoteTimer]
    have h0 : (moveAndCollide pw g.levelData inp dt g.player).coyoteTimer = 0 := by
      rw [moveAndCollide_coyoteTimer, afterJump_coyoteTimer, hfire]
      rfl
    unfold coyoteTime
    dsimp only
    have h1 : ¬ (moveAndCollide pw g.levelData inp dt g.player).vy > 0 := not_lt.mpr hq.2
    simp [h1, h0, hq.1]
  refine ⟨afterJump_vy_of_fires pw inp dt g.player hfire,
    by rw [updatePlayer_onGround]; exact hq.1, hc, ?_⟩
  intro later f hair
  have hair' : ∀ pre, pre <+: later →
      (runPlayer pw pre (updatePlayer pw inp dt g)).player.onGround = false := by
    intro pre hpre
    have := hair pre.length hpre.length_le
    rwa [← List.prefix_iff_eq_take.mp hpre] at this
  apply jumpFires_of_airborne
  · exact hair' later (List.prefix_refl _)
  · exact runPlayer_coyoteTimer_of_airborne pw later _ hair' (le_of_eq hc)

/-- C19 at a concrete run: the player standing on `floorLevel` jumps; the call ends airborne
with no coyote time, and a second press two frames later, still in the air, does not fire. -/
theorem jump_call_leaves_no_coyote_time_witness :
    (1 : ℚ) ≤ 3 ∧ jumpFires powWhole holdJump 1 (floorGame standingPlayer).player = true ∧
    (updatePlayer powWhole holdJump 1 (floorGame standingPlayer)).player.onGround = false ∧
    (updatePlayer powWhole holdJump 1 (floorGame standingPlayer)).player.coyoteTimer = 0 ∧
    jumpFires powWhole holdJump 1
      (runPlayer powWhole [⟨idleInput, 1⟩, ⟨idleInput, 1⟩]
        (updatePlayer powWhole holdJump 1 (floorGame standingPlayer))).player = false :=
  ⟨by norm_num, by decide!,
    (jump_call_leaves_no_coyote_time powWhole holdJump 1 (floorGame standingPlayer)
      (by norm_num) (by decide!)).2.1,
    (jump_call_leaves_no_coyote_time powWhole holdJump 1 (floorGame standingPlayer)
      (by norm_num) (by decide!)).2.2.1,
    (jump_call_leaves_no_coyote_time powWhole holdJump 1 (floorGame standingPlayer)
      (by norm_num) (by decide!)).2.2.2 [⟨idleInput, 1⟩, ⟨idleInput, 1⟩] ⟨holdJump, 1⟩
      (by decide!)⟩

/-! ## C20: jump buffer -/

/-- C20 (failing input): from `floorStart` the player falls with `dt = 1` in every frame,
airborne without coyote time. Jump is first pressed in the third call (frame 0) and not
pressed again. The player is airborne at the start of frames 1 to 6, touches the ground in
frame 6 and is grounded at the start of frame 7, with the buffer at 1. Frame 7 does not
execute the jump: the buffer is decremented to 0 before it is tested, and `vy` ends at 0,
not at `JUMP_FORCE`. With the press one call later the player is grounded at the start of
frame 6 and the jump executes. -/
theorem buffered_jump_in_frame_seven_does_not_fire :
    (afterPress 2 0).player.jumpBufferTimer = 7 ∧
    (runPlayer powWhole (List.replicate 2 ⟨idleInput, 1⟩) floorStart).player.onGround = false ∧
    (runPlayer powWhole (List.replicate 2 ⟨idleInput, 1⟩) floorStart).player.coyoteTimer = 0 ∧
    (runPlayer powWhole (List.replicate 2 ⟨idleInput, 1⟩) floorStart).player.wasJumpPressed
      = false ∧
    (afterPress 2 0).player.onGround = false ∧ (afterPress 2 1).player.onGround = false ∧
    (afterPress 2 2).player.onGround = false ∧ (afterPress 2 3).player.onGround = false ∧
    (afterPress 2 4).player.onGround = false ∧ (afterPress 2 5).player.onGround = false ∧
    (afterPress 2 6).player.onGround = true ∧
    (afterPress 2 6).player.jumpBufferTimer = 1 ∧
    jumpFires powWhole idleInput 1 (afterPress 2 6).player = false ∧
    (afterJump powWhole idleInput 1 (afterPress 2 6).player).vy = 0 ∧
    (afterPress 2 7).player.vy ≠ JUMP_FORCE ∧
    (afterPress 3 5).player.onGround = true ∧
    jumpFires powWhole idleInput 1 (afterPress 3 5).player = true ∧
    (afterJump powWhole idleInput 1 (afterPress 3 5).player).vy = JUMP_FORCE := by
  decide!

/-! ## C21: `setState` and the finale-music timeout -/

/-- C21: in a world where `finaleTimeout` tracks the finale-music timeout, for every target
state `s`, `setState(s)` sets `state = s` and `stateTimer = 0` and cancels every finale-music
timeout that was armed before the call: no timer with its id is armed after the call, so its
callback, the only caller of `playBGM('finale')` among the timers, is never run. When the call
returns, no finale-music timeout is armed and `finaleTimeout` is null if `s` is not FINALE; if
`s` is FINALE exactly one is armed, the new one of 2000 ms, whose id `finaleTimeout` holds.
The tracking holds again after the call. -/
theorem setState_cancels_finale_timeout (s : State) (w : World) (h : FinaleTracked w) :
    (setState s w).state = s ∧ (setState s w).stateTimer = 0 ∧
    (∀ t ∈ finaleTimers w.timers, ∀ u ∈ (setState s w).timers.pending, u.id ≠ t.id) ∧
    (s ≠ State.FINALE →
      finaleTimers (setState s w).timers = [] ∧ (setState s w).finaleTimeout = none) ∧
    (s = State.FINALE →
      ∃ id, finaleTimers (setState s w).timers = [⟨id, Callback.finaleMusic, 2000, false⟩] ∧
        (setState s w).finaleTimeout = some id ∧ id ≠ 0) ∧
    FinaleTracked (setState s w) := by
  have h' : FinaleTracked { w with state := s, stateTimer := 0 } := h
  obtain ⟨c1, c2, c3, _, c5⟩ := clearFinaleTimeout_spec _ h'
  have tail := fun k => setState_tail s w k c1 c2 c3
  obtain ⟨t1, _, t3, t4⟩ := tail 0
  refine ⟨setState_state s w, setState_stateTimer s w, ?_, t3, t4, ?_⟩
  · intro t ht u hu
    exact ((tail t.id).2.1 (c5 t ht)).2 u hu
  · by_cases hs : s = State.FINALE
    · obtain ⟨id, e1, e2, e3⟩ := t4 hs
      refine ⟨?_, t1, ?_⟩
      · rw [e2]
        intro hc
        exact e3 (Option.some.inj hc)
      · intro t ht
        rw [e1, List.mem_singleton] at ht
        rw [e2, ht]
    · obtain ⟨e1, e2⟩ := t3 hs
      refine ⟨?_, t1, ?_⟩
      · rw [e2]
        intro hc
        cases hc
      · intro t ht
        rw [e1] at ht
        exact absurd ht (List.not_mem_nil _)

/-- C21 at a concrete world: entering FINALE from `cardWorld` arms the finale-music timeout
with id 1; leaving FINALE for TITLE cancels it, and the two timers left only show a
button. -/
theorem setState_cancels_finale_timeout_witness :
    FinaleTracked cardWorld ∧
    finaleTimers (setState State.FINALE cardWorld).timers
      = [⟨1, Callback.finaleMusic, 2000, false⟩] ∧
    FinaleTracked (setState State.FINALE cardWorld) ∧
    finaleTimers (setState State.TITLE (setState State.FINALE cardWorld)).timers = [] ∧
    ((setState State.TITLE (setState State.FINALE cardWorld)).timers.pending.map
      fun t => (t.id, t.callback)) = [(2, Callback.showButton), (3, Callback.showButton)] := by
  have h0 : FinaleTracked cardWorld :=
    ⟨by decide, fun t ht => absurd ht (List.not_mem_nil _),
      fun t ht => absurd ht (List.not_mem_nil _)⟩
  have h1 := (setState_cancels_finale_timeout State.FINALE cardWorld h0).2.2.2.2.2
  exact ⟨h0, by decide!, h1,
    ((setState_cancels_finale_timeout State.TITLE _ h1).2.2.2.1 (by decide)).1, by decide!⟩

/-! ## C22: the continue action and the level index -/

/-- C22: the callback of the memory-card continue action, run in a world `v`: if
`currentLevel < LEVELS.length - 1` it loads level `currentLevel + 1`, which exists, and enters
LEVEL_INTRO; otherwise it enters FINALE and leaves the game data, so the level, as they are.
Hence from the world `w1` left by the start action's callback (`loadLevel(0)`) onward, through
every sequence of transition callbacks and frames, no step fails, that is `loadLevel` is never
given an index without a level, and `currentLevel` stays below `LEVELS.length`. With the
shipped table the start action succeeds in every world. -/
theorem continue_keeps_level_index_valid (pw sn : ℚ → ℚ) (Ls : List Level) (w w1 : World)
    (hstart : runContinuation Ls Continuation.startGame w = some w1) :
    (∀ v : World, (v.game.currentLevel : ℤ) < (Ls.length : ℤ) - 1 →
      ∃ g1, loadLevel Ls (v.game.currentLevel + 1) v.game = some g1 ∧
        Ls[v.game.currentLevel + 1]? = some g1.levelData ∧
        runContinuation Ls Continuation.nextLevel v =
          some (setState State.LEVEL_INTRO { v with game := g1 }) ∧
        (setState State.LEVEL_INTRO { v with game := g1 }).state = State.LEVEL_INTRO ∧
        (setState State.LEVEL_INTRO { v with game := g1 }).game.currentLevel
          = v.game.currentLevel + 1) ∧
    (∀ v : World, ¬ (v.game.currentLevel : ℤ) < (Ls.length : ℤ) - 1 →
      runContinuation Ls Continuation.nextLevel v = some (setState State.FINALE v) ∧
        (setState State.FINALE v).state = State.FINALE ∧
        (setState State.FINALE v).game = v.game) ∧
    w1.game.currentLevel = 0 ∧ w1.state = State.LEVEL_INTRO ∧
    (∀ steps : List Step, ∃ w2, runWorld pw sn Ls steps w1 = some w2 ∧
      w2.game.currentLevel < Ls.length) ∧
    (∀ v : World, ∃ v1, runContinuation LEVELS Continuation.startGame v = some v1) := by
  have hw1 : w1.game.currentLevel = 0 ∧ w1.state = State.LEVEL_INTRO ∧ 0 < Ls.length := by
    simp only [runContinuation, Option.map_eq_some'] at hstart
    obtain ⟨g1, h1, h2⟩ := hstart
    obtain ⟨a, b⟩ := loadLevel_lt Ls 0 _ g1 h1
    rw [← h2, setState_game, setState_state]
    exact ⟨b, rfl, a⟩
  refine ⟨?_, ?_, hw1.1, hw1.2.1, ?_, ?_⟩
  · intro v hv
    have hlt : v.game.currentLevel + 1 < Ls.length := by omega
    obtain ⟨g1, h1, h2, h3⟩ := loadLevel_of_lt Ls (v.game.currentLevel + 1) v.game hlt
    refine ⟨g1, h1, h3, ?_, setState_state _ _, ?_⟩
    · simp only [runContinuation, if_pos hv, h1, Option.map_some']
    · rw [setState_game]
      exact h2
  · intro v hv
    refine ⟨?_, setState_state _ _, setState_game _ _⟩
    simp only [runContinuation, if_neg hv]
  · intro steps
    apply runWorld_level
    rw [hw1.1]
    exact hw1.2.2
  · exact startGame_shipped

/-- C22 with the shipped levels: after the start action and seven continue actions the game
is in FINALE with `currentLevel = 5`, the last index. -/
theorem continue_keeps_level_index_valid_witness :
    runContinuation LEVELS Continuation.startGame cardWorld = some startWorld ∧
    ((runWorld powWhole (fun _ => 0) LEVELS
        (List.replicate 7 (Step.callback Continuation.nextLevel)) startWorld).map
      fun v => (v.game.currentLevel, v.state)) = some (5, State.FINALE) ∧
    ∃ w2, runWorld powWhole (fun _ => 0) LEVELS
        (List.replicate 7 (Step.callback Continuation.nextLevel)) startWorld = some w2 ∧
      w2.game.currentLevel < LEVELS.length := by
  have h0 : runContinuation LEVELS Continuation.startGame cardWorld = some startWorld := by
    obtain ⟨v1, hv⟩ := startGame_shipped cardWorld
    unfold startWorld
    rw [hv]
    rfl
  exact ⟨h0, by decide!, (continue_keeps_level_index_valid powWhole (fun _ => 0) LEVELS cardWorld
    startWorld h0).2.2.2.2.1 _⟩

/-! ## C23: tiles outside the map and solid tiles -/

/-- C23: `getTile` is total and yields the blank ' ' for every integer cell outside
`[0, width) x [0, height)`, for a row the map does not have and for a column at or past the
end of a short row; `isSolid` holds exactly when the tile is '#', 'G' or '=', so a blank (in
particular every cell out of range), a heart 'H', a portal 'P' and every other character are
not solid. -/
theorem getTile_blank_outside_and_isSolid_iff (L : Level) (col row : ℤ) :
    ((row < 0 ∨ L.height ≤ row ∨ col < 0 ∨ L.width ≤ col) → getTile L col row = ' ') ∧
    (L.map[row.toNat]? = none → getTile L col row = ' ') ∧
    (∀ rowStr : String, L.map[row.toNat]? = some rowStr → (rowStr.length : ℤ) ≤ col →
      getTile L col row = ' ') ∧
    (isSolid L col row = true ↔
      getTile L col row = '#' ∨ getTile L col row = 'G' ∨ getTile L col row = '=') ∧
    ((row < 0 ∨ L.height ≤ row ∨ col < 0 ∨ L.width ≤ col) → isSolid L col row = false) ∧
    (getTile L col row = 'H' → isSolid L col row = false) ∧
    (getTile L col row = 'P' → isSolid L col row = false) ∧
    (∀ c : Char, c ≠ '#' → c ≠ 'G' → c ≠ '=' → getTile L col row = c →
      isSolid L col row = false) := by
  have hother : ∀ c : Char, c ≠ '#' → c ≠ 'G' → c ≠ '=' → getTile L col row = c →
      isSolid L col row = false := by
    intro c h1 h2 h3 hc
    cases hs : isSolid L col row
    · rfl
    · rw [isSolid_iff, hc] at hs
      rcases hs with h | h | h
      · exact absurd h h1
      · exact absurd h h2
      · exact absurd h h3
  refine ⟨getTile_out_of_range L col row, getTile_missing_row L col row,
    fun rowStr => getTile_short_row L col row rowStr, isSolid_iff L col row, ?_, ?_, ?_, hother⟩
  · intro h
    exact hother ' ' (by decide) (by decide) (by decide) (getTile_out_of_range L col row h)
  · exact hother 'H' (by decide) (by decide) (by decide)
  · exact hother 'P' (by decide) (by decide) (by decide)

/-! ## C24: the size of the vertical sub-steps -/

/-- C24: for every `vy` and `dt` the sub-step count `steps = max(1, ceil(|vy*dt| / (0.8*TS)))`
is at least 1 and makes each sub-step displacement `|vy*dt / steps|` at most
`0.8 * TS = 12.8` pixels, less than one tile; `steps` sub-steps add up to exactly `vy * dt`,
and when no sub-step meets a solid tile the vertical move leaves the player at
`y + vy * dt`, not grounded and otherwise unchanged. -/
theorem subSteps_bound_and_total (L : Level) (dt : ℚ) (p : Player) :
    subSteps (p.vy * dt) = max 1 ⌈|p.vy * dt| / (TS * (8 / 10))⌉ ∧
    1 ≤ subSteps (p.vy * dt) ∧
    |p.vy * dt / (subSteps (p.vy * dt) : ℚ)| ≤ TS * (8 / 10) ∧
    TS * (8 / 10) = 64 / 5 ∧ TS * (8 / 10) < TS ∧
    (subSteps (p.vy * dt) : ℚ) * (p.vy * dt / (subSteps (p.vy * dt) : ℚ)) = p.vy * dt ∧
    (NoContactY L dt p →
      moveY L dt p = { p with y := p.y + p.vy * dt, onGround := false }) := by
  refine ⟨rfl, one_le_subSteps _, subSteps_bound _, by norm_num [TS], by norm_num [TS], ?_,
    moveY_of_free L dt p⟩
  rw [mul_div_cancel₀ _ (ne_of_gt (subSteps_pos _))]

/-- C24 at a concrete fall: at `vy = 7`, `dt = 3` the move of 21 pixels is split in two
sub-steps, neither of which meets the ground of `dropLevel`, and the player ends at `y = 21`. -/
theorem subSteps_bound_and_total_witness :
    subSteps (fallingPlayer.vy * 3) = 2 ∧ NoContactY dropLevel 3 fallingPlayer ∧
    (moveY dropLevel 3 fallingPlayer).y = 21 := by
  have hfree : NoContactY dropLevel 3 fallingPlayer := by
    intro k h1 h2
    have hk : k = 1 ∨ k = 2 := by
      have : (subSteps (fallingPlayer.vy * 3)).toNat = 2 := by decide!
      omega
    rw [cellsFree_iff]
    rcases hk with hk | hk <;> subst hk <;> decide!
  refine ⟨by decide!, hfree, ?_⟩
  rw [(subSteps_bound_and_total dropLevel 3 fallingPlayer).2.2.2.2.2.2 hfree]
  decide!

/-! ## C25: particles -/

/-- C25: `updateParticles(dt)` yields the list of the advanced particles (`x + vx*dt`,
`y + vy*dt` with the old `vy`, `vy + 0.05*dt`, `life - dt`, the other fields kept) filtered by
`life > 0`: the survivors keep their order (the result is a sublist of the advanced list), a
particle is dropped exactly when its new life is `≤ 0`, and every remaining particle has
`life > 0`. -/
theorem updateParticles_advances_and_filters (dt : ℚ) (ps : List Particle) :
    updateParticles dt ps = specUpdateParticles dt ps ∧
    updateParticles dt ps =
      (ps.map (advanceParticle dt)).filter (fun q => decide (¬ q.life ≤ 0)) ∧
    (∀ p : Particle, advanceParticle dt p =
      { p with
        x := p.x + p.vx * dt, y := p.y + p.vy * dt, vy := p.vy + (5 / 100) * dt
        life := p.life - dt }) ∧
    List.Sublist (updateParticles dt ps) (ps.map (advanceParticle dt)) ∧
    (∀ q ∈ updateParticles dt ps, 0 < q.life) := by
  have h := updateParticles_eq_spec dt ps
  refine ⟨h, ?_, fun p => rfl, ?_, ?_⟩
  · rw [h]
    unfold specUpdateParticles
    have : (fun q : Particle => decide (¬ q.life ≤ 0)) = fun q => decide (0 < q.life) := by
      funext q
      simp
    rw [this]
    rfl
  · rw [h]
    exact List.filter_sublist _
  · intro q hq
    rw [h] at hq
    unfold specUpdateParticles at hq
    have := (List.mem_filter.mp hq).2
    simpa using this

/-! ## C26: at most one stomp per call -/

/-- C26: in one `updatePlayer` call the number `k` of enemies stomped (the enemies that die)
is 0 or 1; the combo left by the physics part of the call rises by `k`, so by at most 1 over
the combo before the call, and the score rises by `k * (SCORE_STOMP * min combo 5)`, at most
1000. The stomp sets `vy` to `JUMP_FORCE * 0.6 < 0`, and for a player with that `vy` no
contact is a stomp: an alive overlapping enemy hits the player when `invincibleTimer ≤ 0`. -/
theorem at_most_one_stomp_per_call (pw : ℚ → ℚ) (inp : Input) (dt : ℚ) (g : Game) :
    (∃ k : ℕ, k ≤ 1 ∧
      deadCount (updatePlayer pw inp dt g).enemies = deadCount g.enemies + k ∧
      (updatePlayer pw inp dt g).player.combo =
        (playerPhysics pw g.levelData inp dt g.player).combo + k ∧
      (updatePlayer pw inp dt g).score =
        g.score + k * (SCORE_STOMP * min (updatePlayer pw inp dt g).player.combo 5)) ∧
    (updatePlayer pw inp dt g).player.combo ≤ g.player.combo + 1 ∧
    (updatePlayer pw inp dt g).score ≤ g.score + 1000 ∧
    JUMP_FORCE * (6 / 10) < 0 ∧
    (∀ (p : Player) (score : ℕ) (e : Enemy), p.vy = JUMP_FORCE * (6 / 10) →
      isStomp p e = false ∧
      (e.alive = true → overlaps p e = true → p.invincibleTimer ≤ 0 →
        collideEnemy p score e =
          ({ p with
             x := p.lastSafeX, y := p.lastSafeY, vx := 0, vy := 0
             invincibleTimer := INVINCIBLE_FRAMES },
           score, e))) := by
  obtain ⟨k, hk, hs, hc, _, hd⟩ :=
    enemyContacts_stomps (playerPhysics pw g.levelData inp dt g.player) g.score g.enemies
  have hneg : JUMP_FORCE * (6 / 10) < 0 := by norm_num [JUMP_FORCE]
  have hle := playerPhysics_combo_le pw g.levelData inp dt g.player
  have hcombo : (updatePlayer pw inp dt g).player.combo =
      (playerPhysics pw g.levelData inp dt g.player).combo + k := hc
  have hscore : (updatePlayer pw inp dt g).score =
      g.score + k * (SCORE_STOMP * min (updatePlayer pw inp dt g).player.combo 5) := hs
  refine ⟨⟨k, hk, hd, hcombo, hscore⟩, by omega, ?_, hneg, ?_⟩
  · rw [hscore]
    have h5 : min (updatePlayer pw inp dt g).player.combo 5 ≤ 5 := min_le_right _ _
    have : k * (SCORE_STOMP * min (updatePlayer pw inp dt g).player.combo 5) ≤ 1 * (200 * 5) := by
      apply Nat.mul_le_mul hk
      exact Nat.mul_le_mul (le_refl _) h5
    omega
  · intro p score e hv
    have hvy : p.vy ≤ 0 := by rw [hv]; exact le_of_lt hneg
    have hst := isStomp_of_vy_nonpos p e hvy
    refine ⟨hst, fun ha ho hi => collideEnemy_of_hit p score e ha ho ?_ hi⟩
    intro h
    rw [hst] at h
    exact absurd h.1 (by simp)

/-! ## C27: the player stays within the level width -/

/-- C27: in every run that starts from `loadLevel` on a level whose start cell lies inside the
level (`0 ≤ playerStart.x` and `playerStart.x + 1 ≤ width`), after every `updatePlayer` call,
whatever the inputs and `dt`, the level is the same and both `x` and `lastSafeX` satisfy
`0 ≤ · ≤ width * TS - PLAYER_W`: so also in the frames where `x` is set to `lastSafeX` by the
fall respawn or by an enemy hit. -/
theorem player_x_stays_in_level (pw : ℚ → ℚ) (Ls : List Level) (index : ℕ) (g g0 : Game)
    (hload : loadLevel Ls index g = some g0)
    (hstart : 0 ≤ g0.levelData.playerStartX ∧
      g0.levelData.playerStartX + 1 ≤ (g0.levelData.width : ℚ))
    (frames : List Frame) :
    (runPlayer pw frames g0).levelData = g0.levelData ∧
    0 ≤ (runPlayer pw frames g0).player.x ∧
    (runPlayer pw frames g0).player.x ≤ (g0.levelData.width : ℚ) * TS - PLAYER_W ∧
    0 ≤ (runPlayer pw frames g0).player.lastSafeX ∧
    (runPlayer pw frames g0).player.lastSafeX ≤ (g0.levelData.width : ℚ) * TS - PLAYER_W := by
  have h0 : XInLevel g0.levelData (g0.levelData.playerStartX * TS) := by
    unfold XInLevel
    constructor
    · have : (0 : ℚ) ≤ TS := by norm_num [TS]
      exact mul_nonneg hstart.1 this
    · have h2 := hstart.2
      unfold TS PLAYER_W
      linarith
  have hI : (runPlayer pw frames g0).levelData = g0.levelData ∧
      XInLevel g0.levelData (runPlayer pw frames g0).player.x ∧
      XInLevel g0.levelData (runPlayer pw frames g0).player.lastSafeX := by
    apply runPlayer_preserves pw (fun q => q.levelData = g0.levelData ∧
      XInLevel g0.levelData q.player.x ∧ XInLevel g0.levelData q.player.lastSafeX)
    · intro inp dt q hq
      obtain ⟨hl, _, hs⟩ := hq
      rw [← hl] at hs ⊢
      obtain ⟨a, b, c⟩ := updatePlayer_x pw inp dt q hs
      exact ⟨a, b, c⟩
    · rw [loadLevel_player Ls index g g0 hload]
      exact ⟨rfl, h0, h0⟩
  exact ⟨hI.1, hI.2.1.1, hI.2.1.2, hI.2.2.1, hI.2.2.2⟩

/-- C27 at a concrete run: on `floorLevel` (4 tiles wide, so `x ≤ 54`) after twelve frames with
the right key held and `dt = 3`. -/
theorem player_x_stays_in_level_witness :
    loadLevel [floorLevel] 0 (floorGame standingPlayer) = some floorStart ∧
    (0 ≤ floorStart.levelData.playerStartX ∧
      floorStart.levelData.playerStartX + 1 ≤ (floorStart.levelData.width : ℚ)) ∧
    (runPlayer powWhole (List.replicate 12 ⟨holdRight, 3⟩) floorStart).player.x ≤ 54 := by
  have h := player_x_stays_in_level powWhole [floorLevel] 0 (floorGame standingPlayer)
    floorStart (by decide!) (by decide!) (List.replicate 12 ⟨holdRight, 3⟩)
  refine ⟨by decide!, by decide!, ?_⟩
  have e : ((floorStart.levelData.width : ℤ) : ℚ) * TS - PLAYER_W = 54 := by decide!
  rw [← e]
  exact h.2.2.1

/-! ## C28: the heart counter -/

/-- C28: in every run that starts from `loadLevel` and calls `checkHeartCollection` any number
of times with the player at arbitrary positions, `player.heartsCollected` equals the number of
keys recorded in `collectedHearts`, no key is recorded twice, every recorded key is a cell
inside the level whose tile is 'H', and `heartsCollected` is at most `levelData.totalHearts`,
the number of 'H' characters of the map. -/
theorem heartsCollected_counts_recorded_hearts (Ls : List Level) (index : ℕ) (g g0 : Game)
    (hload : loadLevel Ls index g = some g0) (positions : List (ℚ × ℚ)) :
    (collectAt positions g0).levelData = g0.levelData ∧
    (collectAt positions g0).player.heartsCollected
      = (collectAt positions g0).collectedHearts.length ∧
    (collectAt positions g0).collectedHearts.Nodup ∧
    (∀ k ∈ (collectAt positions g0).collectedHearts,
      0 ≤ k.1 ∧ k.1 < g0.levelData.width ∧ 0 ≤ k.2 ∧ k.2 < g0.levelData.height ∧
        getTile g0.levelData k.1 k.2 = 'H') ∧
    (collectAt positions g0).player.heartsCollected ≤ g0.levelData.totalHearts := by
  obtain ⟨hl, h1, h2, h3⟩ :=
    collectAt_consistent positions g0 (loadLevel_hearts Ls index g g0 hload)
  rw [hl] at h3
  refine ⟨hl, h1, h2, ?_, ?_⟩
  · intro k hk
    obtain ⟨a, b, c, d, _⟩ := heart_tile_in_range g0.levelData k.1 k.2 (h3 k hk)
    exact ⟨a, b, c, d, h3 k hk⟩
  · rw [h1]
    exact heart_keys_le_totalHearts g0.levelData _ h2 h3

/-- C28 at a concrete run: on `heartLevel` the heart at the start cell is counted once, however
often the player passes it. -/
theorem heartsCollected_counts_recorded_hearts_witness :
    loadLevel [heartLevel] 0 (floorGame standingPlayer) = some heartStart ∧
    (collectAt [(16, 16), (40, 16), (16, 16)] heartStart).collectedHearts = [(1, 1)] ∧
    (collectAt [(16, 16), (40, 16), (16, 16)] heartStart).player.heartsCollected = 1 ∧
    heartStart.levelData.totalHearts = 1 := by
  have h := heartsCollected_counts_recorded_hearts [heartLevel] 0 (floorGame standingPlayer)
    heartStart (by decide!) [(16, 16), (40, 16), (16, 16)]
  have hc : (collectAt [(16, 16), (40, 16), (16, 16)] heartStart).collectedHearts = [(1, 1)] := by
    decide!
  refine ⟨by decide!, hc, ?_, by decide!⟩
  rw [h.2.1, hc]
  rfl

/-! ## C29: the bass voice and the loop period -/

/-- C29 (counterexample): the theme `istanbul` (the theme of level 1 and the default of
`getMelody`) has a lead of 14 beats and a bass of 16 beats. One pass of `playSequence` on a
fresh manager (`now = 0.1`, loop period `D = 84/13` seconds) schedules its last bass note to
start at `853/130 = now + D`, the end of the loop period, and to stop at `191/26`, later. -/
theorem istanbul_bass_outlasts_loop :
    "istanbul" ∈ themeNames ∧
    leadBeats (getMelody "istanbul") = 14 ∧ bassBeats (getMelody "istanbul") = 16 ∧
    ¬ bassBeats (getMelody "istanbul") ≤ leadBeats (getMelody "istanbul") ∧
    specLeadDuration (getMelody "istanbul") = 84 / 13 ∧
    (passTones "istanbul" readyAudio).getLast? = some ⟨-36, Wave.triangle, 853 / 130, 191 / 26⟩ ∧
    (1 / 10 + specLeadDuration (getMelody "istanbul") : ℚ) = 853 / 130 ∧
    (1 / 10 + specLeadDuration (getMelody "istanbul") : ℚ) < 191 / 26 := by
  decide!

/-- C29 (amended): on a running, unmuted manager with `currentTime ≥ 0`, one pass of
`playSequence` for any theme adds tones of which every bass tone (type triangle) starts at or
after `now = currentTime + 0.1` and stops no later than `now` plus the bass voice's total
duration `bassBeats * 60 / tempo`. For the themes title, park, cafe, garden, mountain, sky,
memory and finale the bass voice's total beat count is at most the lead voice's, so there
every bass tone starts and ends within the loop period `[now, now + D]`. -/
theorem bass_tones_within_bass_duration (theme : String) (a : AudioManager)
    (c : AudioContext) (hctx : a.ctx = some c) (hm : a.muted = false)
    (hs : c.suspended = false) (hc : 0 ≤ c.currentTime) :
    ∃ new : List Tone,
      (playSequence (getMelody theme) (60 / (getMelody theme).tempo) a).2 =
        withTones a c (c.tones ++ new) ∧
      (∀ tn ∈ new, tn.wave = Wave.triangle →
        c.currentTime + 1 / 10 ≤ tn.start ∧
        tn.stop ≤ c.currentTime + 1 / 10 +
          bassBeats (getMelody theme) * (60 / (getMelody theme).tempo)) ∧
      (theme ∈ alignedThemes →
        bassBeats (getMelody theme) ≤ leadBeats (getMelody theme) ∧
        ∀ tn ∈ new, tn.wave = Wave.triangle →
          c.currentTime + 1 / 10 ≤ tn.start ∧
          tn.stop ≤ c.currentTime + 1 / 10 + specLeadDuration (getMelody theme)) := by
  obtain ⟨ht, hl, hb⟩ := getMelody_nonneg theme
  obtain ⟨new, h1, h2⟩ := playSequence_bass_tones (getMelody theme) a c hctx hm hs hc ht hl hb
  refine ⟨new, h1, h2, ?_⟩
  intro hal
  have hle := alignedThemes_bass_le theme hal
  refine ⟨hle, ?_⟩
  intro tn htn hw
  obtain ⟨a1, a2⟩ := h2 tn htn hw
  refine ⟨a1, ?_⟩
  rw [specLeadDuration_eq]
  have hbd : (0 : ℚ) ≤ 60 / (getMelody theme).tempo := div_nonneg (by norm_num) ht
  have := mul_le_mul_of_nonneg_right hle hbd
  linarith

/-- C29 (amended) for the title theme on a fresh manager (`now = 0.1`, `D = 99/14`): every
bass tone of the pass starts at or after `0.1` and stops by `251/35 = now + D`; the last one
stops at `239/35`. -/
theorem bass_tones_within_bass_duration_witness :
    readyAudio.ctx = some ⟨false, 0, []⟩ ∧ readyAudio.muted = false ∧
    "title" ∈ alignedThemes ∧
    (passTones "title" readyAudio).getLast? = some ⟨-26, Wave.triangle, 61 / 10, 239 / 35⟩ ∧
    ∃ new : List Tone,
      (playSequence (getMelody "title") (60 / (getMelody "title").tempo) readyAudio).2 =
        withTones readyAudio ⟨false, 0, []⟩ new ∧
      ∀ tn ∈ new, tn.wave = Wave.triangle → 1 / 10 ≤ tn.start ∧ tn.stop ≤ 251 / 35 := by
  obtain ⟨new, h1, _, h3⟩ := bass_tones_within_bass_duration "title" readyAudio
    ⟨false, 0, []⟩ rfl rfl rfl (le_refl _)
  refine ⟨rfl, rfl, by decide, by decide!, new, by simpa using h1, ?_⟩
  intro tn htn hw
  obtain ⟨a1, a2⟩ := (h3 (by decide)).2 tn htn hw
  have e1 : ((0 : ℚ) + 1 / 10) = 1 / 10 := by norm_num
  have e2 : ((0 : ℚ) + 1 / 10 + specLeadDuration (getMelody "title")) = 251 / 35 := by decide!
  dsimp only at a1 a2
  rw [e1] at a1
  rw [e2] at a2
  exact ⟨a1, a2⟩

/-! ## C30: at most one music timer -/

/-- C30: starting from a manager and timers where every armed music timer is the one held in
`bgmInterval` and there is at most one (so from a fresh manager), after every sequence of
`playBGM`, `stopBGM` and `toggleMute` calls at most one music timer is armed and the manager
still has its context. In the state reached, `playBGM(theme)` on a manager with a context
leaves exactly one music timer armed, the new one, whose id it stores, and sets `currentBGM`
to the theme; `stopBGM()` leaves no music timer armed and `currentBGM = null`; and so does a
`toggleMute()` that mutes. -/
theorem at_most_one_music_timer (calls : List AudioCall) (a : AudioManager) (ts : Timers)
    (h0 : BgmTracked a ts) :
    (bgmTimers (runCalls calls (a, ts)).2).length ≤ 1 ∧
    (runCalls calls (a, ts)).1.ctx.isSome = a.ctx.isSome ∧
    (∀ (theme : String) (c : AudioContext), (runCalls calls (a, ts)).1.ctx = some c →
      bgmTimers (playBGM theme (runCalls calls (a, ts)).1 (runCalls calls (a, ts)).2).2 =
        [⟨(runCalls calls (a, ts)).2.lastId + 1, Callback.bgmLoop theme,
          max (specLeadDuration (getMelody theme) * 1000) 1000, true⟩] ∧
      (playBGM theme (runCalls calls (a, ts)).1 (runCalls calls (a, ts)).2).1.bgmInterval =
        some ((runCalls calls (a, ts)).2.lastId + 1) ∧
      (playBGM theme (runCalls calls (a, ts)).1 (runCalls calls (a, ts)).2).1.currentBGM =
        some theme) ∧
    (bgmTimers (stopBGM (runCalls calls (a, ts)).1 (runCalls calls (a, ts)).2).2 = [] ∧
      (stopBGM (runCalls calls (a, ts)).1 (runCalls calls (a, ts)).2).1.currentBGM = none) ∧
    ((runCalls calls (a, ts)).1.muted = false →
      (toggleMute (runCalls calls (a, ts)).1 (runCalls calls (a, ts)).2).1.muted = true ∧
      bgmTimers (toggleMute (runCalls calls (a, ts)).1 (runCalls calls (a, ts)).2).2 = [] ∧
      (toggleMute (runCalls calls (a, ts)).1 (runCalls calls (a, ts)).2).1.currentBGM
        = none) := by
  have h := runCalls_tracked calls (a, ts) h0
  have hctx := runCalls_ctx_isSome calls (a, ts)
  generalize runCalls calls (a, ts) = s at h hctx
  obtain ⟨s1, s2, _⟩ := stopBGM_bgmTimers s.1 s.2 h
  refine ⟨h.1, hctx, fun theme c hc => playBGM_bgmTimers theme s.1 s.2 c hc h, ⟨s1, s2⟩, ?_⟩
  intro hm
  have ht : toggleMute s.1 s.2 = stopBGM { s.1 with muted := true } s.2 := by
    unfold toggleMute
    simp [hm]
  have h' : BgmTracked { s.1 with muted := true } s.2 := h
  obtain ⟨t1, t2, _⟩ := stopBGM_bgmTimers { s.1 with muted := true } s.2 h'
  rw [ht]
  refine ⟨?_, t1, t2⟩
  rw [stopBGM_muted]

/-- C30 on a fresh manager: after `musicCalls` exactly one music timer is armed, the one of
the finale theme, with id 3. -/
theorem at_most_one_music_timer_witness :
    BgmTracked readyAudio noTimers ∧
    (bgmTimers (runCalls musicCalls (readyAudio, noTimers)).2).map (fun t => (t.id, t.callback))
      = [(3, Callback.bgmLoop "finale")] ∧
    (bgmTimers (runCalls musicCalls (readyAudio, noTimers)).2).length ≤ 1 := by
  have h0 : BgmTracked readyAudio noTimers :=
    ⟨by decide, fun t ht => absurd ht (List.not_mem_nil _)⟩
  exact ⟨h0, by decide!, (at_most_one_music_timer musicCalls readyAudio noTimers h0).1⟩

end Valentine
